import Mathlib

/-!
# Entity-Component-System core (`include/ECS.h`)

A shallow embedding of the ECS runtime of the engine: the identity registry
(`EntityManager`), the dense component storage (`ComponentArray`,
`ComponentManager`), the system registry (`SystemManager`) and the facade
(`Coordinator`), followed by theorems about them.

Conventions of the embedding.

* A C++ member function that mutates its object becomes a function from the
  object to a `Res`: the call returned (`ok`, with the value and the new
  object), threw (`throw`, with the exception and the object as the throw left
  it), or ran into undefined behaviour (`undefined`: an index outside a
  `std::array`, `front()` of an empty queue, a null `shared_ptr`).
* `std::uint32_t`, `std::uint8_t` and `size_t` counters are natural numbers
  reduced modulo `2^32`, `2^8` and `2^64` where the code increments or
  decrements them.
* `std::bitset<32>` is the natural number whose binary digits are the bits.
* An `std::unordered_map` that the code only looks up is a function into
  `Option`; one that the code iterates over is an association list with unique
  keys (the iteration order of the C++ container is unspecified, and every loop
  of the code treats its elements independently of each other).
* `typeid(T).name()` is a natural number naming the type.
-/

namespace ECS

/-! ## Basic types -/

/-- Entity identifier, `using Entity = std::uint32_t`. -/
abbrev Entity := Nat

/-- Capacity of the identity registry, `const Entity MAX_ENTITIES = 5000`. -/
def MAX_ENTITIES : Nat := 5000

/-- Component type index, `using ComponentType = std::uint8_t`. -/
abbrev ComponentType := Nat

/-- Width of a signature, `const ComponentType MAX_COMPONENTS = 32`. -/
def MAX_COMPONENTS : Nat := 32

/-- Signature, `std::bitset<MAX_COMPONENTS>`, as the number with these bits. -/
abbrev Signature := Nat

/-- Name of a component or system type, `typeid(T).name()`. -/
abbrev TypeName := Nat

/-- The exceptions the code throws, one constructor per `throw` site message
(and one for `std::bitset::set` with a position outside the bitset). -/
inductive Exn where
  /-- Thrown as `std::runtime_error("Too many entities in existence.")` -/
  | tooManyEntities
  /-- Thrown as `std::out_of_range("Entity out of range.")` -/
  | entityOutOfRange
  /-- Thrown as `std::runtime_error("Component added to same entity more than once.")` -/
  | componentAddedTwice
  /-- Thrown as `std::runtime_error("Removing non-existent component.")` -/
  | removingNonExistent
  /-- Thrown as `std::runtime_error("Retrieving non-existent component.")` -/
  | retrievingNonExistent
  /-- Thrown as `std::runtime_error("Registering component type more than once.")` -/
  | componentRegisteredTwice
  /-- Thrown as `std::runtime_error("Component not registered before use.")` -/
  | componentNotRegistered
  /-- Thrown as `std::runtime_error("Registering system more than once.")` -/
  | systemRegisteredTwice
  /-- Thrown as `std::runtime_error("System used before registered.")` -/
  | systemNotRegistered
  /-- Thrown as `std::out_of_range` by `std::bitset::set(pos, _)` when `pos` is not below the width -/
  | bitsetOutOfRange
  deriving DecidableEq, Repr

/-- Outcome of a call on an object of type `σ` that returns an `α`. -/
inductive Res (σ α : Type) where
  /-- The call returned `val`; the object is now `s`. -/
  | ok (val : α) (s : σ)
  /-- The call threw `e`; the object was left as `s`. -/
  | throw (e : Exn) (s : σ)
  /-- The call has undefined behaviour. -/
  | undefined

/-- The object after the call, whether it returned or threw; `none` when the
behaviour is undefined. -/
def Res.state {σ α : Type} : Res σ α → Option σ
  | .ok _ s => some s
  | .throw _ s => some s
  | .undefined => none

/-- Member `std::bitset<32>::set(pos, value)`: throws when `pos` is not below the width. -/
def Signature.set (signature : Signature) (pos : Nat) (value : Bool) : Option Signature :=
  if pos < MAX_COMPONENTS then
    if value then some (signature ||| (1 <<< pos))
    else some (signature &&& ((2 ^ MAX_COMPONENTS - 1) ^^^ (1 <<< pos)))
  else none

/-! ## Association lists for the iterated `std::unordered_map`s -/

/-- Lookup `m.find(k)`: the value stored for `k`, if any. -/
def Map.find {β : Type} : List (TypeName × β) → TypeName → Option β
  | [], _ => none
  | (k', v) :: rest, k => if k' = k then some v else Map.find rest k

/-- Insertion `m.insert((k, v))`: adds the pair when `k` has no entry, and does nothing
when it has one. -/
def Map.insert {β : Type} (m : List (TypeName × β)) (k : TypeName) (v : β) : List (TypeName × β) :=
  match Map.find m k with
  | some _ => m
  | none => m ++ [(k, v)]

/-- Write through a reference to the element stored for `k`. -/
def Map.assign {β : Type} : List (TypeName × β) → TypeName → β → List (TypeName × β)
  | [], _, _ => []
  | (k', v') :: rest, k, v =>
    if k' = k then (k', v) :: rest else (k', v') :: Map.assign rest k v

/-! ## EntityManager -/

/-- State of `class EntityManager`. -/
structure EntityManager where
  /-- Field `std::queue<Entity> m_AvailableEntities`, front first. -/
  m_AvailableEntities : List Entity
  /-- Field `std::array<Signature, MAX_ENTITIES> m_Signatures`, by index. -/
  m_Signatures : Entity → Signature
  /-- Field `uint32_t m_LivingEntityCount`. -/
  m_LivingEntityCount : Nat

/-- Constructor `EntityManager()`: every id from `0` to `MAX_ENTITIES - 1` is
pushed in increasing order; signatures and the count are zero. -/
def EntityManager.new : EntityManager where
  m_AvailableEntities := List.range MAX_ENTITIES
  m_Signatures := fun _ => 0
  m_LivingEntityCount := 0

/-- Member `Entity EntityManager::CreateEntity()`. -/
def EntityManager.CreateEntity (m : EntityManager) : Res EntityManager Entity :=
  if m.m_LivingEntityCount ≥ MAX_ENTITIES then .throw .tooManyEntities m
  else
    match m.m_AvailableEntities with
    | [] => .undefined
    | id :: rest =>
      .ok id { m with
        m_AvailableEntities := rest
        m_LivingEntityCount := (m.m_LivingEntityCount + 1) % 2 ^ 32 }

/-- Member `void EntityManager::DestroyEntity(Entity entity)`. -/
def EntityManager.DestroyEntity (m : EntityManager) (entity : Entity) : Res EntityManager Unit :=
  if entity ≥ MAX_ENTITIES then .throw .entityOutOfRange m
  else
    .ok () {
      m_Signatures := Function.update m.m_Signatures entity 0
      m_AvailableEntities := m.m_AvailableEntities ++ [entity]
      m_LivingEntityCount := (m.m_LivingEntityCount + 2 ^ 32 - 1) % 2 ^ 32 }

/-- Member `void EntityManager::SetSignature(Entity entity, Signature signature)`. -/
def EntityManager.SetSignature (m : EntityManager) (entity : Entity) (signature : Signature) :
    Res EntityManager Unit :=
  if entity ≥ MAX_ENTITIES then .throw .entityOutOfRange m
  else .ok () { m with m_Signatures := Function.update m.m_Signatures entity signature }

/-- Member `Signature EntityManager::GetSignature(Entity entity)`. -/
def EntityManager.GetSignature (m : EntityManager) (entity : Entity) : Res EntityManager Signature :=
  if entity ≥ MAX_ENTITIES then .throw .entityOutOfRange m
  else .ok (m.m_Signatures entity) m

/-! ## ComponentArray -/

/-- State of `class ComponentArray<T>`. -/
structure ComponentArray (T : Type) where
  /-- Field `std::array<T, MAX_ENTITIES> m_ComponentArray`, by index. -/
  m_ComponentArray : Nat → T
  /-- Field `std::unordered_map<Entity, size_t> m_EntityToIndexMap`. -/
  m_EntityToIndexMap : Entity → Option Nat
  /-- Field `std::unordered_map<size_t, Entity> m_IndexToEntityMap`. -/
  m_IndexToEntityMap : Nat → Option Entity
  /-- Field `size_t m_Size`. -/
  m_Size : Nat

/-- A default-constructed `ComponentArray<T>`: value-initialised buffer, empty
maps, size zero. -/
def ComponentArray.new {T : Type} [Inhabited T] : ComponentArray T where
  m_ComponentArray := fun _ => default
  m_EntityToIndexMap := fun _ => none
  m_IndexToEntityMap := fun _ => none
  m_Size := 0

/-- Member `void ComponentArray<T>::InsertData(Entity entity, T component)`. The write
`m_ComponentArray[newIndex]` is inside the buffer only for
`newIndex < MAX_ENTITIES`. -/
def ComponentArray.InsertData {T : Type} (a : ComponentArray T) (entity : Entity) (component : T) :
    Res (ComponentArray T) Unit :=
  match a.m_EntityToIndexMap entity with
  | some _ => .throw .componentAddedTwice a
  | none =>
    let newIndex := a.m_Size
    if newIndex < MAX_ENTITIES then
      .ok () {
        m_EntityToIndexMap := Function.update a.m_EntityToIndexMap entity (some newIndex)
        m_IndexToEntityMap := Function.update a.m_IndexToEntityMap newIndex (some entity)
        m_ComponentArray := Function.update a.m_ComponentArray newIndex component
        m_Size := (a.m_Size + 1) % 2 ^ 64 }
    else .undefined

/-- Member `void ComponentArray<T>::RemoveData(Entity entity)`. `m_Size - 1` is computed
on `size_t`; both buffer accesses must be below `MAX_ENTITIES`;
`m_IndexToEntityMap[indexOfLastElement]` yields `0` for a missing key (the
entry it creates is the one erased at the end). -/
def ComponentArray.RemoveData {T : Type} (a : ComponentArray T) (entity : Entity) :
    Res (ComponentArray T) Unit :=
  match a.m_EntityToIndexMap entity with
  | none => .throw .removingNonExistent a
  | some indexOfRemovedEntity =>
    let indexOfLastElement := (a.m_Size + 2 ^ 64 - 1) % 2 ^ 64
    if indexOfRemovedEntity < MAX_ENTITIES ∧ indexOfLastElement < MAX_ENTITIES then
      let entityOfLastElement := (a.m_IndexToEntityMap indexOfLastElement).getD 0
      .ok () {
        m_ComponentArray :=
          Function.update a.m_ComponentArray indexOfRemovedEntity
            (a.m_ComponentArray indexOfLastElement)
        m_EntityToIndexMap :=
          Function.update
            (Function.update a.m_EntityToIndexMap entityOfLastElement (some indexOfRemovedEntity))
            entity none
        m_IndexToEntityMap :=
          Function.update
            (Function.update a.m_IndexToEntityMap indexOfRemovedEntity (some entityOfLastElement))
            indexOfLastElement none
        m_Size := (a.m_Size + 2 ^ 64 - 1) % 2 ^ 64 }
    else .undefined

/-- Member `T& ComponentArray<T>::GetData(Entity entity)`, returning the value referred to. -/
def ComponentArray.GetData {T : Type} (a : ComponentArray T) (entity : Entity) :
    Res (ComponentArray T) T :=
  match a.m_EntityToIndexMap entity with
  | none => .throw .retrievingNonExistent a
  | some index =>
    if index < MAX_ENTITIES then .ok (a.m_ComponentArray index) a else .undefined

/-- Member `void ComponentArray<T>::EntityDestroyed(Entity entity)`. -/
def ComponentArray.EntityDestroyed {T : Type} (a : ComponentArray T) (entity : Entity) :
    Res (ComponentArray T) Unit :=
  match a.m_EntityToIndexMap entity with
  | some _ => a.RemoveData entity
  | none => .ok () a

/-- The entity currently holds a value in the array
(`m_EntityToIndexMap.find(entity) != m_EntityToIndexMap.end()`). -/
def ComponentArray.has {T : Type} (a : ComponentArray T) (entity : Entity) : Bool :=
  (a.m_EntityToIndexMap entity).isSome

/-- A call on one dense array. -/
inductive ArrayOp (T : Type) where
  | InsertData (entity : Entity) (component : T)
  | RemoveData (entity : Entity)
  | EntityDestroyed (entity : Entity)

/-- Perform one call. -/
def ComponentArray.call {T : Type} (a : ComponentArray T) : ArrayOp T → Res (ComponentArray T) Unit
  | .InsertData entity component => a.InsertData entity component
  | .RemoveData entity => a.RemoveData entity
  | .EntityDestroyed entity => a.EntityDestroyed entity

/-- The array after a sequence of calls, each of which returned or threw;
`none` once a call has undefined behaviour. -/
def ComponentArray.run {T : Type} : List (ArrayOp T) → ComponentArray T → Option (ComponentArray T)
  | [], a => some a
  | op :: ops, a =>
    match (a.call op).state with
    | some a' => ComponentArray.run ops a'
    | none => none

/-- The array that a sequence of calls makes of the empty one (the empty array
itself when one of the calls has undefined behaviour). -/
def ComponentArray.after {T : Type} [Inhabited T] (ops : List (ArrayOp T)) : ComponentArray T :=
  (ComponentArray.run ops ComponentArray.new).getD ComponentArray.new

/-- Whether the call is an `InsertData`, as a number. -/
def ArrayOp.insertion {T : Type} : ArrayOp T → Nat
  | .InsertData _ _ => 1
  | _ => 0

/-- Whether the call, made on `a`, is a request to remove a value: a `RemoveData`,
or an `EntityDestroyed` for an entity that holds a value; as a number. -/
def ArrayOp.removal {T : Type} (a : ComponentArray T) : ArrayOp T → Nat
  | .RemoveData _ => 1
  | .EntityDestroyed entity => if a.has entity then 1 else 0
  | .InsertData _ _ => 0

/-- Number of `InsertData` calls of the sequence that returned. -/
def ComponentArray.inserted {T : Type} : List (ArrayOp T) → ComponentArray T → Nat
  | [], _ => 0
  | op :: ops, a =>
    match a.call op with
    | .ok _ a' => op.insertion + ComponentArray.inserted ops a'
    | .throw _ a' => ComponentArray.inserted ops a'
    | .undefined => 0

/-- Number of removals of the sequence that went through: `RemoveData` calls
that returned, and `EntityDestroyed` calls on an entity that held a value. -/
def ComponentArray.removed {T : Type} : List (ArrayOp T) → ComponentArray T → Nat
  | [], _ => 0
  | op :: ops, a =>
    match a.call op with
    | .ok _ a' => op.removal a + ComponentArray.removed ops a'
    | .throw _ a' => ComponentArray.removed ops a'
    | .undefined => 0

/-- Well-formed dense array: the size is within the buffer, the two maps are
inverse to each other, and the slots in use are exactly those below the size. -/
def ComponentArray.WF {T : Type} (a : ComponentArray T) : Prop :=
  a.m_Size ≤ MAX_ENTITIES ∧
  (∀ e i, a.m_EntityToIndexMap e = some i ↔ a.m_IndexToEntityMap i = some e) ∧
  (∀ i, (a.m_IndexToEntityMap i).isSome ↔ i < a.m_Size)

/-! ## ComponentManager -/

/-- State of `class ComponentManager`; `V` is the type of component values. -/
structure ComponentManager (V : Type) where
  /-- Field `std::unordered_map<const char*, ComponentType> m_ComponentTypes`. -/
  m_ComponentTypes : List (TypeName × ComponentType)
  /-- Field `std::unordered_map<const char*, std::shared_ptr<IComponentArray>> m_ComponentArrays`. -/
  m_ComponentArrays : List (TypeName × ComponentArray V)
  /-- Field `ComponentType m_NextComponentType`. -/
  m_NextComponentType : Nat

/-- A default-constructed `ComponentManager`. -/
def ComponentManager.new {V : Type} : ComponentManager V where
  m_ComponentTypes := []
  m_ComponentArrays := []
  m_NextComponentType := 0

/-- Member `void ComponentManager::RegisterComponent<T>()`; `typeName` stands for `T`. -/
def ComponentManager.RegisterComponent {V : Type} [Inhabited V] (cm : ComponentManager V)
    (typeName : TypeName) : Res (ComponentManager V) Unit :=
  match Map.find cm.m_ComponentTypes typeName with
  | some _ => .throw .componentRegisteredTwice cm
  | none =>
    .ok () {
      m_ComponentTypes := Map.insert cm.m_ComponentTypes typeName cm.m_NextComponentType
      m_ComponentArrays := Map.insert cm.m_ComponentArrays typeName ComponentArray.new
      m_NextComponentType := (cm.m_NextComponentType + 1) % 2 ^ 8 }

/-- Member `ComponentType ComponentManager::GetComponentType<T>()`. -/
def ComponentManager.GetComponentType {V : Type} (cm : ComponentManager V) (typeName : TypeName) :
    Res (ComponentManager V) ComponentType :=
  match Map.find cm.m_ComponentTypes typeName with
  | none => .throw .componentNotRegistered cm
  | some t => .ok t cm

/-- Member `ComponentManager::GetComponentArray<T>()`, returning the array pointed
to. `m_ComponentArrays[typeName]` on a missing key creates a null pointer, which
every caller dereferences. -/
def ComponentManager.GetComponentArray {V : Type} (cm : ComponentManager V) (typeName : TypeName) :
    Res (ComponentManager V) (ComponentArray V) :=
  match Map.find cm.m_ComponentTypes typeName with
  | none => .throw .componentNotRegistered cm
  | some _ =>
    match Map.find cm.m_ComponentArrays typeName with
    | none => .undefined
    | some a => .ok a cm

/-- Member `void ComponentManager::AddComponent<T>(Entity entity, T component)`. -/
def ComponentManager.AddComponent {V : Type} (cm : ComponentManager V) (typeName : TypeName)
    (entity : Entity) (component : V) : Res (ComponentManager V) Unit :=
  match cm.GetComponentArray typeName with
  | .undefined => .undefined
  | .throw e _ => .throw e cm
  | .ok a _ =>
    match a.InsertData entity component with
    | .undefined => .undefined
    | .throw e _ => .throw e cm
    | .ok _ a' => .ok () { cm with m_ComponentArrays := Map.assign cm.m_ComponentArrays typeName a' }

/-- Member `void ComponentManager::RemoveComponent<T>(Entity entity)`. -/
def ComponentManager.RemoveComponent {V : Type} (cm : ComponentManager V) (typeName : TypeName)
    (entity : Entity) : Res (ComponentManager V) Unit :=
  match cm.GetComponentArray typeName with
  | .undefined => .undefined
  | .throw e _ => .throw e cm
  | .ok a _ =>
    match a.RemoveData entity with
    | .undefined => .undefined
    | .throw e _ => .throw e cm
    | .ok _ a' => .ok () { cm with m_ComponentArrays := Map.assign cm.m_ComponentArrays typeName a' }

/-- Member `T& ComponentManager::GetComponent<T>(Entity entity)`. -/
def ComponentManager.GetComponent {V : Type} (cm : ComponentManager V) (typeName : TypeName)
    (entity : Entity) : Res (ComponentManager V) V :=
  match cm.GetComponentArray typeName with
  | .undefined => .undefined
  | .throw e _ => .throw e cm
  | .ok a _ =>
    match a.GetData entity with
    | .undefined => .undefined
    | .throw e _ => .throw e cm
    | .ok v _ => .ok v cm

/-- The loop of `ComponentManager::EntityDestroyed` over `m_ComponentArrays`;
`none` when a call on one of the arrays has undefined behaviour. -/
def ComponentManager.destroyedLoop {V : Type} (entity : Entity) :
    List (TypeName × ComponentArray V) → Option (List (TypeName × ComponentArray V))
  | [] => some []
  | (typeName, component) :: rest =>
    match (component.EntityDestroyed entity).state, ComponentManager.destroyedLoop entity rest with
    | some component', some rest' => some ((typeName, component') :: rest')
    | _, _ => none

/-- Member `void ComponentManager::EntityDestroyed(Entity entity)`. -/
def ComponentManager.EntityDestroyed {V : Type} (cm : ComponentManager V) (entity : Entity) :
    Res (ComponentManager V) Unit :=
  match ComponentManager.destroyedLoop entity cm.m_ComponentArrays with
  | some arrays => .ok () { cm with m_ComponentArrays := arrays }
  | none => .undefined

/-- Well-formed component storage: a type has an index exactly if it has an array,
and every array is well-formed. -/
def ComponentManager.WF {V : Type} (cm : ComponentManager V) : Prop :=
  (∀ typeName, (Map.find cm.m_ComponentTypes typeName).isSome =
    (Map.find cm.m_ComponentArrays typeName).isSome) ∧
  (∀ p ∈ cm.m_ComponentArrays, p.2.WF)

/-! ## SystemManager -/

/-- State of `class System`. -/
structure System where
  /-- Field `std::set<Entity> m_Entities`. -/
  m_Entities : Finset Entity
  deriving DecidableEq

/-- State of `class SystemManager`. -/
structure SystemManager where
  /-- Field `std::unordered_map<const char*, Signature> m_Signatures`. -/
  m_Signatures : List (TypeName × Signature)
  /-- Field `std::unordered_map<const char*, std::shared_ptr<System>> m_Systems`. -/
  m_Systems : List (TypeName × System)
  deriving DecidableEq

/-- A default-constructed `SystemManager`. -/
def SystemManager.new : SystemManager where
  m_Signatures := []
  m_Systems := []

/-- Member `std::shared_ptr<T> SystemManager::RegisterSystem<T>()`; the value returned
is the name under which the new system is stored. -/
def SystemManager.RegisterSystem (sm : SystemManager) (typeName : TypeName) :
    Res SystemManager TypeName :=
  match Map.find sm.m_Systems typeName with
  | some _ => .throw .systemRegisteredTwice sm
  | none => .ok typeName { sm with m_Systems := Map.insert sm.m_Systems typeName ⟨∅⟩ }

/-- Member `void SystemManager::SetSignature<T>(Signature signature)`. -/
def SystemManager.SetSignature (sm : SystemManager) (typeName : TypeName) (signature : Signature) :
    Res SystemManager Unit :=
  match Map.find sm.m_Systems typeName with
  | none => .throw .systemNotRegistered sm
  | some _ => .ok () { sm with m_Signatures := Map.insert sm.m_Signatures typeName signature }

/-- Member `void SystemManager::EntityDestroyed(Entity entity)`. -/
def SystemManager.EntityDestroyed (sm : SystemManager) (entity : Entity) : SystemManager :=
  { sm with m_Systems := sm.m_Systems.map fun pair => (pair.1, ⟨pair.2.m_Entities.erase entity⟩) }

/-- The loop of `SystemManager::EntitySignatureChanged` over `m_Systems`, threading
`m_Signatures`: `m_Signatures[type]` creates an empty signature for a missing key. -/
def SystemManager.changedLoop (entity : Entity) (entitySignature : Signature) :
    List (TypeName × System) → List (TypeName × Signature) →
      List (TypeName × System) × List (TypeName × Signature)
  | [], signatures => ([], signatures)
  | (type, system) :: rest, signatures =>
    let signatures' := Map.insert signatures type 0
    let systemSignature := (Map.find signatures' type).getD 0
    let system' : System :=
      if entitySignature &&& systemSignature = systemSignature then
        ⟨insert entity system.m_Entities⟩
      else
        ⟨system.m_Entities.erase entity⟩
    let out := SystemManager.changedLoop entity entitySignature rest signatures'
    ((type, system') :: out.1, out.2)

/-- Member `void SystemManager::EntitySignatureChanged(Entity entity, Signature entitySignature)`. -/
def SystemManager.EntitySignatureChanged (sm : SystemManager) (entity : Entity)
    (entitySignature : Signature) : SystemManager :=
  let out := SystemManager.changedLoop entity entitySignature sm.m_Systems sm.m_Signatures
  { m_Systems := out.1, m_Signatures := out.2 }

/-! ## Coordinator -/

/-- State of `class Coordinator` once `Init` has run. -/
structure Coordinator (V : Type) where
  /-- Field `std::unique_ptr<EntityManager> m_EntityManager`. -/
  m_EntityManager : EntityManager
  /-- Field `std::unique_ptr<ComponentManager> m_ComponentManager`. -/
  m_ComponentManager : ComponentManager V
  /-- Field `std::unique_ptr<SystemManager> m_SystemManager`. -/
  m_SystemManager : SystemManager

/-- Member `void Coordinator::Init()`: three freshly constructed managers. -/
def Coordinator.Init {V : Type} : Coordinator V where
  m_EntityManager := EntityManager.new
  m_ComponentManager := ComponentManager.new
  m_SystemManager := SystemManager.new

/-- Member `Entity Coordinator::CreateEntity()`. -/
def Coordinator.CreateEntity {V : Type} (c : Coordinator V) : Res (Coordinator V) Entity :=
  match c.m_EntityManager.CreateEntity with
  | .undefined => .undefined
  | .throw e _ => .throw e c
  | .ok id em => .ok id { c with m_EntityManager := em }

/-- Member `void Coordinator::DestroyEntity(Entity entity)`: the identity registry
first, then the component storage, then the systems. -/
def Coordinator.DestroyEntity {V : Type} (c : Coordinator V) (entity : Entity) :
    Res (Coordinator V) Unit :=
  match c.m_EntityManager.DestroyEntity entity with
  | .undefined => .undefined
  | .throw e _ => .throw e c
  | .ok _ em =>
    match c.m_ComponentManager.EntityDestroyed entity with
    | .undefined => .undefined
    | .throw e cm => .throw e { c with m_EntityManager := em, m_ComponentManager := cm }
    | .ok _ cm =>
      .ok () {
        m_EntityManager := em
        m_ComponentManager := cm
        m_SystemManager := c.m_SystemManager.EntityDestroyed entity }

/-- Member `void Coordinator::RegisterComponent<T>()`. -/
def Coordinator.RegisterComponent {V : Type} [Inhabited V] (c : Coordinator V)
    (typeName : TypeName) : Res (Coordinator V) Unit :=
  match c.m_ComponentManager.RegisterComponent typeName with
  | .undefined => .undefined
  | .throw e _ => .throw e c
  | .ok _ cm => .ok () { c with m_ComponentManager := cm }

/-- Member `void Coordinator::AddComponent<T>(Entity entity, T component)`: insert
into the storage, read the signature, set the bit of the type, write the
signature back, notify the systems; a throw leaves what was done before it. -/
def Coordinator.AddComponent {V : Type} (c : Coordinator V) (typeName : TypeName)
    (entity : Entity) (component : V) : Res (Coordinator V) Unit :=
  match c.m_ComponentManager.AddComponent typeName entity component with
  | .undefined => .undefined
  | .throw e _ => .throw e c
  | .ok _ cm =>
    let c1 : Coordinator V := { c with m_ComponentManager := cm }
    match c.m_EntityManager.GetSignature entity with
    | .undefined => .undefined
    | .throw e _ => .throw e c1
    | .ok signature _ =>
      match cm.GetComponentType typeName with
      | .undefined => .undefined
      | .throw e _ => .throw e c1
      | .ok componentType _ =>
        match Signature.set signature componentType true with
        | none => .throw .bitsetOutOfRange c1
        | some signature' =>
          match c.m_EntityManager.SetSignature entity signature' with
          | .undefined => .undefined
          | .throw e _ => .throw e c1
          | .ok _ em =>
            .ok () {
              m_EntityManager := em
              m_ComponentManager := cm
              m_SystemManager := c.m_SystemManager.EntitySignatureChanged entity signature' }

/-- Member `void Coordinator::RemoveComponent<T>(Entity entity)`: remove from the
storage, read the signature, clear the bit of the type, write the signature back,
notify the systems. -/
def Coordinator.RemoveComponent {V : Type} (c : Coordinator V) (typeName : TypeName)
    (entity : Entity) : Res (Coordinator V) Unit :=
  match c.m_ComponentManager.RemoveComponent typeName entity with
  | .undefined => .undefined
  | .throw e _ => .throw e c
  | .ok _ cm =>
    let c1 : Coordinator V := { c with m_ComponentManager := cm }
    match c.m_EntityManager.GetSignature entity with
    | .undefined => .undefined
    | .throw e _ => .throw e c1
    | .ok signature _ =>
      match cm.GetComponentType typeName with
      | .undefined => .undefined
      | .throw e _ => .throw e c1
      | .ok componentType _ =>
        match Signature.set signature componentType false with
        | none => .throw .bitsetOutOfRange c1
        | some signature' =>
          match c.m_EntityManager.SetSignature entity signature' with
          | .undefined => .undefined
          | .throw e _ => .throw e c1
          | .ok _ em =>
            .ok () {
              m_EntityManager := em
              m_ComponentManager := cm
              m_SystemManager := c.m_SystemManager.EntitySignatureChanged entity signature' }

/-- The statements that `Coordinator::AddComponent` and `Coordinator::RemoveComponent`
share, those after the call on the component storage, which has become `cm`: read
the signature, set or clear the bit of the type, write the signature back, notify
the systems. -/
def Coordinator.updateSignature {V : Type} (c : Coordinator V) (cm : ComponentManager V)
    (typeName : TypeName) (entity : Entity) (value : Bool) : Res (Coordinator V) Unit :=
  let c1 : Coordinator V := { c with m_ComponentManager := cm }
  match c.m_EntityManager.GetSignature entity with
  | .undefined => .undefined
  | .throw e _ => .throw e c1
  | .ok signature _ =>
    match cm.GetComponentType typeName with
    | .undefined => .undefined
    | .throw e _ => .throw e c1
    | .ok componentType _ =>
      match Signature.set signature componentType value with
      | none => .throw .bitsetOutOfRange c1
      | some signature' =>
        match c.m_EntityManager.SetSignature entity signature' with
        | .undefined => .undefined
        | .throw e _ => .throw e c1
        | .ok _ em =>
          .ok () {
            m_EntityManager := em
            m_ComponentManager := cm
            m_SystemManager := c.m_SystemManager.EntitySignatureChanged entity signature' }

/-- Member `T& Coordinator::GetComponent<T>(Entity entity)`. -/
def Coordinator.GetComponent {V : Type} (c : Coordinator V) (typeName : TypeName)
    (entity : Entity) : Res (Coordinator V) V :=
  match c.m_ComponentManager.GetComponent typeName entity with
  | .undefined => .undefined
  | .throw e _ => .throw e c
  | .ok v _ => .ok v c

/-- Member `ComponentType Coordinator::GetComponentType<T>()`. -/
def Coordinator.GetComponentType {V : Type} (c : Coordinator V) (typeName : TypeName) :
    Res (Coordinator V) ComponentType :=
  match c.m_ComponentManager.GetComponentType typeName with
  | .undefined => .undefined
  | .throw e _ => .throw e c
  | .ok t _ => .ok t c

/-- Member `std::shared_ptr<T> Coordinator::RegisterSystem<T>()`. -/
def Coordinator.RegisterSystem {V : Type} (c : Coordinator V) (typeName : TypeName) :
    Res (Coordinator V) TypeName :=
  match c.m_SystemManager.RegisterSystem typeName with
  | .undefined => .undefined
  | .throw e _ => .throw e c
  | .ok h sm => .ok h { c with m_SystemManager := sm }

/-- Member `void Coordinator::SetSystemSignature<T>(Signature signature)`. -/
def Coordinator.SetSystemSignature {V : Type} (c : Coordinator V) (typeName : TypeName)
    (signature : Signature) : Res (Coordinator V) Unit :=
  match c.m_SystemManager.SetSignature typeName signature with
  | .undefined => .undefined
  | .throw e _ => .throw e c
  | .ok _ sm => .ok () { c with m_SystemManager := sm }

/-- The signature stored for an entity, `m_EntityManager->GetSignature(entity)`
for an id in range. -/
def Coordinator.signature {V : Type} (c : Coordinator V) (entity : Entity) : Signature :=
  c.m_EntityManager.m_Signatures entity

/-- The dense array of the component type holds a value for the entity. -/
def Coordinator.holds {V : Type} (c : Coordinator V) (typeName : TypeName) (entity : Entity) : Bool :=
  match Map.find c.m_ComponentManager.m_ComponentArrays typeName with
  | some a => a.has entity
  | none => false

/-- The tracked set of a registered system. -/
def Coordinator.tracked {V : Type} (c : Coordinator V) (typeName : TypeName) : Option (Finset Entity) :=
  (Map.find c.m_SystemManager.m_Systems typeName).map System.m_Entities

/-- The required signature stored for a system, empty when none is stored. -/
def Coordinator.required {V : Type} (c : Coordinator V) (typeName : TypeName) : Signature :=
  (Map.find c.m_SystemManager.m_Signatures typeName).getD 0

/-- A call on the coordinator. -/
inductive Op (V : Type) where
  | RegisterComponent (typeName : TypeName)
  | CreateEntity
  | DestroyEntity (entity : Entity)
  | AddComponent (typeName : TypeName) (entity : Entity) (component : V)
  | RemoveComponent (typeName : TypeName) (entity : Entity)
  | RegisterSystem (typeName : TypeName)
  | SetSystemSignature (typeName : TypeName) (signature : Signature)

/-- The call is an `AddComponent` for the entity `e`. -/
def Op.addsTo {V : Type} (e : Entity) : Op V → Bool
  | .AddComponent _ entity _ => decide (entity = e)
  | _ => false

/-- The coordinator after one call, whether it returned or threw; `none` when
the call has undefined behaviour. -/
def Coordinator.call {V : Type} [Inhabited V] (c : Coordinator V) : Op V → Option (Coordinator V)
  | .RegisterComponent typeName => (c.RegisterComponent typeName).state
  | .CreateEntity => c.CreateEntity.state
  | .DestroyEntity entity => (c.DestroyEntity entity).state
  | .AddComponent typeName entity component => (c.AddComponent typeName entity component).state
  | .RemoveComponent typeName entity => (c.RemoveComponent typeName entity).state
  | .RegisterSystem typeName => (c.RegisterSystem typeName).state
  | .SetSystemSignature typeName signature => (c.SetSystemSignature typeName signature).state

/-- The coordinator after a sequence of calls; `none` once a call has undefined
behaviour. -/
def Coordinator.run {V : Type} [Inhabited V] : List (Op V) → Coordinator V → Option (Coordinator V)
  | [], c => some c
  | op :: ops, c =>
    match c.call op with
    | some c' => Coordinator.run ops c'
    | none => none

/-- The coordinator that a sequence of calls makes of the initial one (the
initial coordinator itself when one of the calls has undefined behaviour). -/
def Coordinator.after {V : Type} [Inhabited V] (ops : List (Op V)) : Coordinator V :=
  (Coordinator.run ops Coordinator.Init).getD Coordinator.Init

/-- Signatures and storage agree: the next type index is the number of registered
types, every index handed out is below it, no two types share an index, for an
entity id in range bit `i` of the signature is set exactly if the array of the
type with index `i` holds a value for the entity, and the bits from the next type
index on are clear. -/
structure Coordinator.Consistent {V : Type} (c : Coordinator V) : Prop where
  next_eq : c.m_ComponentManager.m_NextComponentType =
    c.m_ComponentManager.m_ComponentTypes.length
  index_lt : ∀ typeName (i : Nat),
    Map.find c.m_ComponentManager.m_ComponentTypes typeName = some i →
    i < c.m_ComponentManager.m_NextComponentType
  index_inj : ∀ n1 n2 (i : Nat), Map.find c.m_ComponentManager.m_ComponentTypes n1 = some i →
    Map.find c.m_ComponentManager.m_ComponentTypes n2 = some i → n1 = n2
  bit_iff : ∀ e, e < MAX_ENTITIES → ∀ typeName (i : Nat),
    Map.find c.m_ComponentManager.m_ComponentTypes typeName = some i →
    ((c.signature e).testBit i = true ↔ c.holds typeName e = true)
  bit_free : ∀ e, e < MAX_ENTITIES → ∀ i, c.m_ComponentManager.m_NextComponentType ≤ i →
    (c.signature e).testBit i = false

/-! ## Sequences of calls on the identity registry -/

/-- A call on the identity registry. -/
inductive EntityOp where
  | CreateEntity
  | DestroyEntity (entity : Entity)
  deriving DecidableEq, Repr

/-- An identity registry together with the list of live ids: those returned by
`CreateEntity` and not destroyed since (an id returned twice is listed twice). -/
structure Registry where
  manager : EntityManager
  live : List Entity

/-- The initial registry: a freshly constructed manager, nothing live. -/
def Registry.new : Registry where
  manager := EntityManager.new
  live := []

/-- One call on the registry: a creation that returns adds the id to the live
ids, a destruction that returns removes the id from them; `none` when the call
has undefined behaviour. -/
def Registry.call (r : Registry) : EntityOp → Option Registry
  | .CreateEntity =>
    match r.manager.CreateEntity with
    | .ok id m => some { manager := m, live := id :: r.live }
    | .throw _ m => some { r with manager := m }
    | .undefined => none
  | .DestroyEntity entity =>
    match r.manager.DestroyEntity entity with
    | .ok _ m => some { manager := m, live := r.live.erase entity }
    | .throw _ m => some { r with manager := m }
    | .undefined => none

/-- The registry after a sequence of calls. -/
def Registry.run : List EntityOp → Registry → Option Registry
  | [], r => some r
  | op :: ops, r =>
    match r.call op with
    | some r' => Registry.run ops r'
    | none => none

/-- Every `DestroyEntity` of the sequence is applied to an id that is live at
that moment. -/
def Registry.destroysLive : List EntityOp → Registry → Bool
  | [], _ => true
  | op :: ops, r =>
    (match op with
      | .CreateEntity => true
      | .DestroyEntity entity => decide (entity ∈ r.live)) &&
    (match r.call op with
      | some r' => Registry.destroysLive ops r'
      | none => true)

/-- The registry that a sequence of calls makes of the initial one (the initial
registry itself when one of the calls has undefined behaviour). -/
def Registry.after (ops : List EntityOp) : Registry :=
  (Registry.run ops Registry.new).getD Registry.new

/-- The free pool and the live ids together are the ids `0 .. MAX_ENTITIES - 1`,
each once, and the counter is the number of live ids. -/
def Registry.Inv (r : Registry) : Prop :=
  (r.manager.m_AvailableEntities ++ r.live).Perm (List.range MAX_ENTITIES) ∧
  r.manager.m_LivingEntityCount = r.live.length

/-! ## The scenario of the specification -/

/-- Name of the component type `Transform` in the scenario. -/
def scenario.Transform : TypeName := 10

/-- Name of the component type `Velocity` in the scenario. -/
def scenario.Velocity : TypeName := 11

/-- Name of the system that requires `Transform` in the scenario. -/
def scenario.MoveSystem : TypeName := 20

/-- Name of the system that requires `Transform` and `Velocity` in the scenario. -/
def scenario.PhysicsSystem : TypeName := 21

/-- The calls of the scenario, component values being lists of numbers: register
`Transform` and `Velocity`; create entity A (id 0) and add `Transform (0,0,0)` and
`Velocity (1,0,0)`; create entity B (id 1) and add `Transform (0,0,0)`; then
register a system requiring bit 0 and a system requiring bits 0 and 1. -/
def scenario.calls : List (Op (List Nat)) :=
  [ .RegisterComponent scenario.Transform,
    .RegisterComponent scenario.Velocity,
    .CreateEntity,
    .AddComponent scenario.Transform 0 [0, 0, 0],
    .AddComponent scenario.Velocity 0 [1, 0, 0],
    .CreateEntity,
    .AddComponent scenario.Transform 1 [0, 0, 0],
    .RegisterSystem scenario.MoveSystem,
    .SetSystemSignature scenario.MoveSystem 1,
    .RegisterSystem scenario.PhysicsSystem,
    .SetSystemSignature scenario.PhysicsSystem 3 ]

/-! ## Definitions for the order of destruction, set-up and capacity -/

/-- The order of `DestroyEntity` as the specification words it: first the
component storage is told (`ComponentManager::EntityDestroyed`), then the identity
is reclaimed (`EntityManager::DestroyEntity`), then the systems are told
(`SystemManager::EntityDestroyed`); a throw leaves what was done before it. -/
def Coordinator.DestroyEntity_specOrder {V : Type} (c : Coordinator V) (entity : Entity) :
    Res (Coordinator V) Unit :=
  match c.m_ComponentManager.EntityDestroyed entity with
  | .undefined => .undefined
  | .throw e cm => .throw e { c with m_ComponentManager := cm }
  | .ok _ cm =>
    match c.m_EntityManager.DestroyEntity entity with
    | .undefined => .undefined
    | .throw e _ => .throw e { c with m_ComponentManager := cm }
    | .ok _ em =>
      .ok () {
        m_EntityManager := em
        m_ComponentManager := cm
        m_SystemManager := c.m_SystemManager.EntityDestroyed entity }

/-- A call on the system registry. -/
inductive SystemOp where
  | RegisterSystem (typeName : TypeName)
  | SetSignature (typeName : TypeName) (signature : Signature)
  | EntityDestroyed (entity : Entity)
  | EntitySignatureChanged (entity : Entity) (entitySignature : Signature)
  deriving DecidableEq

/-- The system registry after one call, whether it returned or threw (a call on
the registry that throws does so before it changes anything). -/
def SystemManager.call (sm : SystemManager) : SystemOp → SystemManager
  | .RegisterSystem typeName =>
    match sm.RegisterSystem typeName with
    | .ok _ sm' => sm'
    | _ => sm
  | .SetSignature typeName signature =>
    match sm.SetSignature typeName signature with
    | .ok _ sm' => sm'
    | _ => sm
  | .EntityDestroyed entity => sm.EntityDestroyed entity
  | .EntitySignatureChanged entity entitySignature =>
    sm.EntitySignatureChanged entity entitySignature

/-- The system registry after a sequence of calls. -/
def SystemManager.run : List SystemOp → SystemManager → SystemManager
  | [], sm => sm
  | op :: ops, sm => SystemManager.run ops (sm.call op)

/-- Register the component types of the list one after the other, from first to
last; `none` unless every registration returns. -/
def ComponentManager.registerAll {V : Type} [Inhabited V] :
    List TypeName → ComponentManager V → Option (ComponentManager V)
  | [], cm => some cm
  | typeName :: rest, cm =>
    match cm.RegisterComponent typeName with
    | .ok _ cm' => ComponentManager.registerAll rest cm'
    | _ => none

/-- The component storage that registering the types of the list makes of the
empty one (the empty one itself unless every registration returns). -/
def ComponentManager.afterRegistering {V : Type} [Inhabited V] (names : List TypeName) :
    ComponentManager V :=
  (ComponentManager.registerAll names ComponentManager.new).getD ComponentManager.new

/-- Every entity that holds a value in the array has an id below `MAX_ENTITIES`. -/
def ComponentArray.InRange {T : Type} (a : ComponentArray T) : Prop :=
  ∀ e, a.has e = true → e < MAX_ENTITIES

/-- The call is a `RegisterSystem` or a `SetSystemSignature`. -/
def Op.isSystemCall {V : Type} : Op V → Bool
  | .RegisterSystem _ => true
  | .SetSystemSignature _ _ => true
  | _ => false

/-- The usual set-up order, checked on a sequence of calls; `registered` lists the
systems registered so far and `given` those that have been given a required
signature so far. No call is an `AddComponent`; a `SetSystemSignature` for a
registered system is the first one for that system and gives a non-empty signature
(a `SetSystemSignature` for a system that is not registered fails and gives
nothing); and at the end every registered system has been given a signature. -/
def Op.usualSetUp {V : Type} : List (Op V) → List TypeName → List TypeName → Bool
  | [], registered, given => registered.all fun k => decide (k ∈ given)
  | .AddComponent _ _ _ :: _, _, _ => false
  | .RegisterSystem typeName :: ops, registered, given =>
    Op.usualSetUp ops (typeName :: registered) given
  | .SetSystemSignature typeName signature :: ops, registered, given =>
    if typeName ∈ registered then
      decide (typeName ∉ given) && decide (signature ≠ 0) &&
        Op.usualSetUp ops registered (typeName :: given)
    else Op.usualSetUp ops registered given
  | .RegisterComponent _ :: ops, registered, given => Op.usualSetUp ops registered given
  | .CreateEntity :: ops, registered, given => Op.usualSetUp ops registered given
  | .DestroyEntity _ :: ops, registered, given => Op.usualSetUp ops registered given
  | .RemoveComponent _ _ :: ops, registered, given => Op.usualSetUp ops registered given

/-- The system-routing invariant: every registered system has a non-empty required
signature `R`, which satisfies `Q`, and tracks exactly the entity ids below
`MAX_ENTITIES` whose signature `s` satisfies `(s & R) == R`. -/
def Coordinator.Routed {V : Type} (c : Coordinator V) (Q : TypeName → Signature → Prop) : Prop :=
  ∀ k T, c.tracked k = some T →
    c.required k ≠ 0 ∧ Q k (c.required k) ∧
    ∀ e, e ∈ T ↔ (e < MAX_ENTITIES ∧ c.signature e &&& c.required k = c.required k)

/-- The state during set-up: the storage is well-formed, no entity has a signature
bit or a component, the registered systems are those of `registered` and track
nothing, and the stored required signatures are those of the systems of `given`,
each non-empty and satisfying `Q`. -/
def Coordinator.SetUp {V : Type} (c : Coordinator V) (registered given : List TypeName)
    (Q : TypeName → Signature → Prop) : Prop :=
  c.m_ComponentManager.WF ∧
  (∀ e, c.signature e = 0 ∧ ∀ n, c.holds n e = false) ∧
  (∀ k, (Map.find c.m_SystemManager.m_Systems k).isSome = true ↔ k ∈ registered) ∧
  (∀ k system, Map.find c.m_SystemManager.m_Systems k = some system → system.m_Entities = ∅) ∧
  (∀ k, (Map.find c.m_SystemManager.m_Signatures k).isSome = true ↔ k ∈ given) ∧
  (∀ k s, Map.find c.m_SystemManager.m_Signatures k = some s → s ≠ 0 ∧ Q k s)

/-! # Theorems -/

/-! ## The dense array: characterisation of the calls -/


theorem MAX_ENTITIES_eq : MAX_ENTITIES = 5000 := rfl

theorem ComponentArray.has_eq_false {T : Type} {a : ComponentArray T} {e : Entity} :
    a.has e = false ↔ a.m_EntityToIndexMap e = none := by
  simp [ComponentArray.has]

theorem ComponentArray.has_eq_true {T : Type} {a : ComponentArray T} {e : Entity} :
    a.has e = true ↔ ∃ i, a.m_EntityToIndexMap e = some i := by
  simp [ComponentArray.has, Option.isSome_iff_exists]

theorem ComponentArray.insertData_ok {T : Type} {a a' : ComponentArray T} {e : Entity} {v : T}
    (h : a.InsertData e v = .ok () a') :
    a.m_EntityToIndexMap e = none ∧ a.m_Size < MAX_ENTITIES ∧
    a' = { m_EntityToIndexMap := Function.update a.m_EntityToIndexMap e (some a.m_Size)
           m_IndexToEntityMap := Function.update a.m_IndexToEntityMap a.m_Size (some e)
           m_ComponentArray := Function.update a.m_ComponentArray a.m_Size v
           m_Size := a.m_Size + 1 } := by
  unfold ComponentArray.InsertData at h
  split at h
  · cases h
  · rename_i hn
    dsimp only at h
    split at h
    · rename_i hlt
      refine ⟨hn, hlt, ?_⟩
      injection h with _ h
      have : (a.m_Size + 1) % 2 ^ 64 = a.m_Size + 1 := by
        rw [MAX_ENTITIES_eq] at hlt
        omega
      rw [← h, this]
    · cases h

theorem ComponentArray.insertData_throw {T : Type} {a s : ComponentArray T} {e : Entity} {v : T} {x : Exn}
    (h : a.InsertData e v = .throw x s) :
    x = .componentAddedTwice ∧ s = a ∧ a.has e = true := by
  unfold ComponentArray.InsertData at h
  split at h
  · rename_i i hi
    injection h with h1 h2
    exact ⟨h1.symm, h2.symm, by simp [ComponentArray.has, hi]⟩
  · dsimp only at h
    split at h <;> cases h

theorem ComponentArray.insertData_of_absent {T : Type} {a : ComponentArray T} {e : Entity} (v : T)
    (he : a.m_EntityToIndexMap e = none) (hs : a.m_Size < MAX_ENTITIES) :
    a.InsertData e v = .ok ()
      { m_EntityToIndexMap := Function.update a.m_EntityToIndexMap e (some a.m_Size)
        m_IndexToEntityMap := Function.update a.m_IndexToEntityMap a.m_Size (some e)
        m_ComponentArray := Function.update a.m_ComponentArray a.m_Size v
        m_Size := a.m_Size + 1 } := by
  have : (a.m_Size + 1) % 2 ^ 64 = a.m_Size + 1 := by
    rw [MAX_ENTITIES_eq] at hs
    omega
  unfold ComponentArray.InsertData
  rw [he]
  dsimp only
  rw [if_pos hs, this]

theorem ComponentArray.insertData_of_present {T : Type} {a : ComponentArray T} {e : Entity} (v : T)
    (he : a.has e = true) : a.InsertData e v = .throw .componentAddedTwice a := by
  obtain ⟨i, hi⟩ := ComponentArray.has_eq_true.mp he
  simp [ComponentArray.InsertData, hi]

theorem ComponentArray.getData_of_absent {T : Type} {a : ComponentArray T} {e : Entity}
    (he : a.m_EntityToIndexMap e = none) : a.GetData e = .throw .retrievingNonExistent a := by
  simp [ComponentArray.GetData, he]

theorem ComponentArray.getData_of_index {T : Type} {a : ComponentArray T} {e : Entity} {i : Nat}
    (he : a.m_EntityToIndexMap e = some i) (hi : i < MAX_ENTITIES) :
    a.GetData e = .ok (a.m_ComponentArray i) a := by
  simp [ComponentArray.GetData, he, hi]

theorem ComponentArray.getData_throw {T : Type} {a s : ComponentArray T} {e : Entity} {x : Exn}
    (h : a.GetData e = .throw x s) :
    x = .retrievingNonExistent ∧ s = a ∧ a.has e = false := by
  unfold ComponentArray.GetData at h
  split at h
  · rename_i hn
    injection h with h1 h2
    exact ⟨h1.symm, h2.symm, ComponentArray.has_eq_false.mpr hn⟩
  · split at h <;> cases h

theorem ComponentArray.removeData_of_absent {T : Type} {a : ComponentArray T} {e : Entity}
    (he : a.m_EntityToIndexMap e = none) : a.RemoveData e = .throw .removingNonExistent a := by
  simp [ComponentArray.RemoveData, he]

theorem ComponentArray.removeData_throw {T : Type} {a s : ComponentArray T} {e : Entity} {x : Exn}
    (h : a.RemoveData e = .throw x s) :
    x = .removingNonExistent ∧ s = a ∧ a.has e = false := by
  unfold ComponentArray.RemoveData at h
  split at h
  · rename_i hn
    injection h with h1 h2
    exact ⟨h1.symm, h2.symm, ComponentArray.has_eq_false.mpr hn⟩
  · dsimp only at h
    split at h <;> cases h

theorem ComponentArray.removeData_ok {T : Type} {a a' : ComponentArray T} {e : Entity}
    (h : a.RemoveData e = .ok () a') :
    ∃ i, a.m_EntityToIndexMap e = some i ∧ i < MAX_ENTITIES ∧
      (a.m_Size + 2 ^ 64 - 1) % 2 ^ 64 < MAX_ENTITIES ∧
      a' = {
        m_ComponentArray :=
          Function.update a.m_ComponentArray i
            (a.m_ComponentArray ((a.m_Size + 2 ^ 64 - 1) % 2 ^ 64))
        m_EntityToIndexMap :=
          Function.update
            (Function.update a.m_EntityToIndexMap
              ((a.m_IndexToEntityMap ((a.m_Size + 2 ^ 64 - 1) % 2 ^ 64)).getD 0) (some i))
            e none
        m_IndexToEntityMap :=
          Function.update
            (Function.update a.m_IndexToEntityMap i
              (some ((a.m_IndexToEntityMap ((a.m_Size + 2 ^ 64 - 1) % 2 ^ 64)).getD 0)))
            ((a.m_Size + 2 ^ 64 - 1) % 2 ^ 64) none
        m_Size := (a.m_Size + 2 ^ 64 - 1) % 2 ^ 64 } := by
  unfold ComponentArray.RemoveData at h
  split at h
  · cases h
  · rename_i i hi
    dsimp only at h
    split at h
    · rename_i hlt
      injection h with _ h
      exact ⟨i, hi, hlt.1, hlt.2, h.symm⟩
    · cases h


theorem ComponentArray.WF.index_lt {T : Type} {a : ComponentArray T} (h : a.WF) {e : Entity} {i : Nat}
    (he : a.m_EntityToIndexMap e = some i) : i < a.m_Size := by
  have h1 := (h.2.1 e i).mp he
  exact (h.2.2 i).mp (by simp [h1])

theorem ComponentArray.WF_new {T : Type} [Inhabited T] : (ComponentArray.new : ComponentArray T).WF := by
  refine ⟨Nat.zero_le _, ?_, ?_⟩ <;> simp [ComponentArray.new]

theorem ComponentArray.WF_insertData {T : Type} {a a' : ComponentArray T} {e : Entity} {v : T}
    (hwf : a.WF) (h : a.InsertData e v = .ok () a') : a'.WF := by
  obtain ⟨hn, hlt, rfl⟩ := ComponentArray.insertData_ok h
  obtain ⟨_, hbij, hdom⟩ := hwf
  refine ⟨hlt, ?_, ?_⟩
  · intro e' i
    dsimp only
    by_cases hee : e' = e
    · subst hee
      by_cases hi : i = a.m_Size
      · subst hi; simp
      · have : a.m_IndexToEntityMap i ≠ some e' := by
          intro hc
          rw [← hbij, hn] at hc
          cases hc
        simp [Function.update_noteq hi, this, Ne.symm hi]
    · by_cases hi : i = a.m_Size
      · subst hi
        have : a.m_EntityToIndexMap e' ≠ some a.m_Size := by
          intro hc
          rw [hbij] at hc
          have := (hdom a.m_Size).mp (by simp [hc])
          omega
        simp [Function.update_noteq hee, this, Ne.symm hee]
      · simp [Function.update_noteq hee, Function.update_noteq hi, hbij]
  · intro i
    dsimp only
    by_cases hi : i = a.m_Size
    · subst hi; simp
    · rw [Function.update_noteq hi, hdom]
      omega

theorem ComponentArray.WF.inj {T : Type} {a : ComponentArray T} (h : a.WF) {e1 e2 : Entity} {i : Nat}
    (h1 : a.m_EntityToIndexMap e1 = some i) (h2 : a.m_EntityToIndexMap e2 = some i) : e1 = e2 := by
  have a1 := (h.2.1 e1 i).mp h1
  have a2 := (h.2.1 e2 i).mp h2
  rw [a1] at a2
  exact Option.some.inj a2

theorem ComponentArray.WF.last {T : Type} {a : ComponentArray T} (h : a.WF) {e : Entity} {i : Nat}
    (he : a.m_EntityToIndexMap e = some i) :
    (a.m_Size + 2 ^ 64 - 1) % 2 ^ 64 = a.m_Size - 1 ∧ i ≤ a.m_Size - 1 ∧ a.m_Size - 1 < MAX_ENTITIES ∧
    ∃ el, a.m_IndexToEntityMap (a.m_Size - 1) = some el ∧
      a.m_EntityToIndexMap el = some (a.m_Size - 1) := by
  have hidx := h.index_lt he
  obtain ⟨hsz, hbij, hdom⟩ := h
  rw [MAX_ENTITIES_eq] at *
  refine ⟨by omega, by omega, by omega, ?_⟩
  obtain ⟨el, hel⟩ : ∃ el, a.m_IndexToEntityMap (a.m_Size - 1) = some el :=
    Option.isSome_iff_exists.mp ((hdom _).mpr (by omega))
  exact ⟨el, hel, (hbij el _).mpr hel⟩

theorem ComponentArray.WF_removeData {T : Type} {a a' : ComponentArray T} {e : Entity}
    (hwf : a.WF) (h : a.RemoveData e = .ok () a') : a'.WF := by
  obtain ⟨idx, he, _, _, rfl⟩ := ComponentArray.removeData_ok h
  have hidx := hwf.index_lt he
  obtain ⟨hlast, hle, _, el, hel, hel'⟩ := hwf.last he
  have hinj := @ComponentArray.WF.inj _ a hwf
  obtain ⟨hsz, hbij, hdom⟩ := hwf
  rw [hlast, hel]
  dsimp only [Option.getD_some]
  refine ⟨by dsimp only; omega, ?_, ?_⟩
  · intro e' i
    dsimp only
    by_cases hee : e' = e
    · subst hee
      simp only [Function.update_same]
      by_cases hi : i = a.m_Size - 1
      · subst hi; simp
      · rw [Function.update_noteq hi]
        by_cases hi2 : i = idx
        · subst hi2
          have : el ≠ e' := by
            intro hc
            subst hc
            rw [he] at hel'
            injection hel' with hc
            exact hi hc
          simp [this]
        · have : a.m_IndexToEntityMap i ≠ some e' := by
            intro hc
            rw [← hbij, he] at hc
            injection hc with hc
            exact hi2 hc.symm
          simp [Function.update_noteq hi2, this]
    · rw [Function.update_noteq hee]
      by_cases hel2 : e' = el
      · subst hel2
        have hne : idx ≠ a.m_Size - 1 := by
          intro hc
          subst hc
          exact hee (hinj hel' he)
        by_cases hi : i = a.m_Size - 1
        · subst hi
          simp [hne]
        · rw [Function.update_noteq hi]
          by_cases hi2 : i = idx
          · subst hi2; simp
          · have : a.m_IndexToEntityMap i ≠ some e' := by
              intro hc
              rw [← hbij, hel'] at hc
              injection hc with hc
              exact hi hc.symm
            simp [Function.update_noteq hi2, this, Ne.symm hi2]
      · rw [Function.update_noteq hel2]
        by_cases hi : i = a.m_Size - 1
        · subst hi
          have : a.m_EntityToIndexMap e' ≠ some (a.m_Size - 1) := fun hc => hel2 (hinj hc hel')
          simp [this]
        · rw [Function.update_noteq hi]
          by_cases hi2 : i = idx
          · subst hi2
            have : a.m_EntityToIndexMap e' ≠ some i := fun hc => hee (hinj hc he)
            simp [this, Ne.symm hel2]
          · rw [Function.update_noteq hi2]
            exact hbij e' i
  · intro i
    dsimp only
    by_cases hi : i = a.m_Size - 1
    · subst hi
      simp
    · rw [Function.update_noteq hi]
      by_cases hi2 : i = idx
      · subst hi2
        simp
        omega
      · rw [Function.update_noteq hi2, hdom]
        omega

/-! ## The dense array: sequences of calls -/

theorem ComponentArray.removeData_of_index {T : Type} {a : ComponentArray T} (hwf : a.WF)
    {e : Entity} {i : Nat} (he : a.m_EntityToIndexMap e = some i) :
    ∃ a', a.RemoveData e = .ok () a' := by
  obtain ⟨hlast, _, hlt, _⟩ := hwf.last he
  have hi : i < MAX_ENTITIES := lt_of_lt_of_le (hwf.index_lt he) hwf.1
  unfold ComponentArray.RemoveData
  rw [he]
  dsimp only
  rw [hlast, if_pos ⟨hi, hlt⟩]
  exact ⟨_, rfl⟩

theorem ComponentArray.removeData_size {T : Type} {a a' : ComponentArray T} (hwf : a.WF)
    {e : Entity} (h : a.RemoveData e = .ok () a') : a'.m_Size + 1 = a.m_Size := by
  obtain ⟨i, he, _, _, rfl⟩ := ComponentArray.removeData_ok h
  obtain ⟨hlast, _, _, _⟩ := hwf.last he
  have := hwf.index_lt he
  dsimp only
  omega

theorem ComponentArray.entityDestroyed_of_absent {T : Type} {a : ComponentArray T} {e : Entity}
    (he : a.m_EntityToIndexMap e = none) : a.EntityDestroyed e = .ok () a := by
  simp [ComponentArray.EntityDestroyed, he]

theorem ComponentArray.entityDestroyed_of_index {T : Type} {a : ComponentArray T} {e : Entity}
    {i : Nat} (he : a.m_EntityToIndexMap e = some i) : a.EntityDestroyed e = a.RemoveData e := by
  simp [ComponentArray.EntityDestroyed, he]

/-- What one call does to a well-formed array: it stays well-formed, a call that
throws changes nothing, and the size moves by one exactly on an insertion or a
removal that goes through. -/
theorem ComponentArray.call_spec {T : Type} {a : ComponentArray T} (hwf : a.WF) (op : ArrayOp T) :
    (∀ x s, a.call op = .throw x s → s = a) ∧
    (∀ a', a.call op = .ok () a' → a'.WF ∧
      a'.m_Size + op.removal a = a.m_Size + op.insertion) := by
  cases op with
  | InsertData e v =>
    refine ⟨fun x s h => (ComponentArray.insertData_throw h).2.1, fun a' h => ?_⟩
    refine ⟨ComponentArray.WF_insertData hwf h, ?_⟩
    obtain ⟨_, _, rfl⟩ := ComponentArray.insertData_ok h
    rfl
  | RemoveData e =>
    refine ⟨fun x s h => (ComponentArray.removeData_throw h).2.1, fun a' h => ?_⟩
    exact ⟨ComponentArray.WF_removeData hwf h, ComponentArray.removeData_size hwf h⟩
  | EntityDestroyed e =>
    cases he : a.m_EntityToIndexMap e with
    | none =>
      have hc : a.call (.EntityDestroyed e) = .ok () a := ComponentArray.entityDestroyed_of_absent he
      have hh : a.has e = false := ComponentArray.has_eq_false.mpr he
      rw [hc]
      refine ⟨fun x s h => (by cases h), fun a' h => ?_⟩
      injection h with _ h
      subst h
      simp [hwf, hh, ArrayOp.removal, ArrayOp.insertion]
    | some i =>
      have hc : a.call (.EntityDestroyed e) = a.RemoveData e :=
        ComponentArray.entityDestroyed_of_index he
      have hh : a.has e = true := ComponentArray.has_eq_true.mpr ⟨i, he⟩
      rw [hc]
      refine ⟨fun x s h => (ComponentArray.removeData_throw h).2.1, fun a' h => ?_⟩
      refine ⟨ComponentArray.WF_removeData hwf h, ?_⟩
      simp only [ArrayOp.removal, ArrayOp.insertion, hh, if_true]
      exact ComponentArray.removeData_size hwf h

theorem ComponentArray.run_spec {T : Type} (ops : List (ArrayOp T)) :
    ∀ {a0 a : ComponentArray T}, a0.WF → ComponentArray.run ops a0 = some a →
      a.WF ∧ a.m_Size + ComponentArray.removed ops a0 = a0.m_Size + ComponentArray.inserted ops a0 := by
  induction ops with
  | nil =>
    intro a0 a hwf h
    simp only [ComponentArray.run, Option.some.injEq] at h
    subst h
    exact ⟨hwf, rfl⟩
  | cons op ops ih =>
    intro a0 a hwf h
    obtain ⟨hthrow, hok⟩ := ComponentArray.call_spec hwf op
    unfold ComponentArray.run at h
    simp only [ComponentArray.removed, ComponentArray.inserted]
    cases hc : a0.call op with
    | undefined => simp [hc, Res.state] at h
    | throw x s =>
      have hs := hthrow x s hc
      subst hs
      simp only [hc, Res.state] at h ⊢
      exact ih hwf h
    | ok u a1 =>
      obtain ⟨hwf1, hsz⟩ := hok a1 hc
      simp only [hc, Res.state] at h
      obtain ⟨hwfa, hsa⟩ := ih hwf1 h
      refine ⟨hwfa, ?_⟩
      simp only [hc]
      omega

theorem ComponentArray.WF_run {T : Type} [Inhabited T] {ops : List (ArrayOp T)}
    {a : ComponentArray T} (h : ComponentArray.run ops ComponentArray.new = some a) : a.WF :=
  (ComponentArray.run_spec ops ComponentArray.WF_new h).1

/-! ## The dense array: insert, get, remove (C4 to C8) -/

/-- C4: for every state of a dense component array, every entity `e` that holds no
value in it and every value `v`, once `InsertData(e, v)` has returned, `GetData(e)`
returns, and what it returns is `v` (the array is not changed by the read). -/
theorem C4_insert_then_get {T : Type} (a a' : ComponentArray T) (e : Entity) (v : T)
    (_habsent : a.has e = false) (hins : a.InsertData e v = .ok () a') :
    a'.GetData e = .ok v a' := by
  obtain ⟨_, hlt, rfl⟩ := ComponentArray.insertData_ok hins
  have hidx : ({ m_EntityToIndexMap := Function.update a.m_EntityToIndexMap e (some a.m_Size)
                 m_IndexToEntityMap := Function.update a.m_IndexToEntityMap a.m_Size (some e)
                 m_ComponentArray := Function.update a.m_ComponentArray a.m_Size v
                 m_Size := a.m_Size + 1 } : ComponentArray T).m_EntityToIndexMap e
      = some a.m_Size := by
    simp
  rw [ComponentArray.getData_of_index hidx hlt]
  simp

set_option maxRecDepth 10000 in
/-- Witness for C4: inserting the value 42 for entity 7 into an array that holds
values for the entities 3 and 5, then reading entity 7. -/
theorem C4_insert_then_get_witness :
    (ComponentArray.after [.InsertData 3 (10 : Nat), .InsertData 5 20]).has 7 = false ∧
    (ComponentArray.after [.InsertData 3 (10 : Nat), .InsertData 5 20]).InsertData 7 42 =
      .ok () (ComponentArray.after [.InsertData 3 (10 : Nat), .InsertData 5 20, .InsertData 7 42]) ∧
    (ComponentArray.after [.InsertData 3 (10 : Nat), .InsertData 5 20, .InsertData 7 42]).GetData 7 =
      .ok 42 (ComponentArray.after [.InsertData 3 (10 : Nat), .InsertData 5 20, .InsertData 7 42]) :=
  ⟨(by rfl), (by rfl),
    C4_insert_then_get (ComponentArray.after [.InsertData 3 (10 : Nat), .InsertData 5 20])
      (ComponentArray.after [.InsertData 3 (10 : Nat), .InsertData 5 20, .InsertData 7 42]) 7 42 (by rfl) (by rfl)⟩

/-- C5: on a dense array built from the empty one by any sequence of calls, with
`n` insertions and `k` removals gone through, `k ≤ n`, the size is `n - k`, every
slot below the size holds an entity whose entity-to-slot entry is that slot,
distinct slots hold distinct entities, and neither map has an entry outside the
slots below the size and the entities in them. -/
theorem C5_dense_bijection {T : Type} [Inhabited T] (ops : List (ArrayOp T))
    (a : ComponentArray T)
    (hrun : ComponentArray.run ops ComponentArray.new = some a) :
    ComponentArray.removed ops (ComponentArray.new : ComponentArray T) ≤
      ComponentArray.inserted ops (ComponentArray.new : ComponentArray T) ∧
    a.m_Size = ComponentArray.inserted ops (ComponentArray.new : ComponentArray T) -
      ComponentArray.removed ops (ComponentArray.new : ComponentArray T) ∧
    (∀ i, i < a.m_Size →
      ∃ e, a.m_IndexToEntityMap i = some e ∧ a.m_EntityToIndexMap e = some i ∧ a.has e = true) ∧
    (∀ i j e, a.m_IndexToEntityMap i = some e → a.m_IndexToEntityMap j = some e → i = j) ∧
    (∀ e i, a.m_EntityToIndexMap e = some i → i < a.m_Size ∧ a.m_IndexToEntityMap i = some e) ∧
    (∀ i e, a.m_IndexToEntityMap i = some e → i < a.m_Size ∧ a.m_EntityToIndexMap e = some i) := by
  obtain ⟨hwf, hsz⟩ := ComponentArray.run_spec ops ComponentArray.WF_new hrun
  have h0 : (ComponentArray.new : ComponentArray T).m_Size = 0 := rfl
  rw [h0] at hsz
  obtain ⟨_, hbij, hdom⟩ := hwf
  refine ⟨by omega, by omega, ?_, ?_, ?_, ?_⟩
  · intro i hi
    obtain ⟨e, he⟩ := Option.isSome_iff_exists.mp ((hdom i).mpr hi)
    have he' := (hbij e i).mpr he
    exact ⟨e, he, he', ComponentArray.has_eq_true.mpr ⟨i, he'⟩⟩
  · intro i j e hi hj
    rw [← hbij] at hi hj
    rw [hi] at hj
    exact Option.some.inj hj
  · intro e i he
    have hi := (hbij e i).mp he
    exact ⟨(hdom i).mp (by simp [hi]), hi⟩
  · intro i e hi
    exact ⟨(hdom i).mp (by simp [hi]), (hbij e i).mpr hi⟩

set_option maxRecDepth 10000 in
/-- Witness for C5: three insertions, one removal and one failed removal leave an
array of size two, with entity 9 moved into slot 0. -/
theorem C5_dense_bijection_witness :
    ComponentArray.run
      [.InsertData 3 (10 : Nat), .InsertData 5 20, .RemoveData 8, .InsertData 9 30, .RemoveData 3]
      ComponentArray.new =
      some (ComponentArray.after
        [.InsertData 3 (10 : Nat), .InsertData 5 20, .RemoveData 8, .InsertData 9 30, .RemoveData 3]) ∧
    (ComponentArray.after
      [.InsertData 3 (10 : Nat), .InsertData 5 20, .RemoveData 8, .InsertData 9 30, .RemoveData 3]).m_Size
      = 3 - 1 ∧
    (ComponentArray.after
      [.InsertData 3 (10 : Nat), .InsertData 5 20, .RemoveData 8, .InsertData 9 30,
        .RemoveData 3]).m_IndexToEntityMap 0 = some 9 :=
  ⟨(by rfl),
    (C5_dense_bijection
      [.InsertData 3 (10 : Nat), .InsertData 5 20, .RemoveData 8, .InsertData 9 30, .RemoveData 3]
      (ComponentArray.after
        [.InsertData 3 (10 : Nat), .InsertData 5 20, .RemoveData 8, .InsertData 9 30, .RemoveData 3])
      (by rfl)).2.1,
    (by rfl)⟩

/-- C6: on a dense array built from the empty one by any sequence of calls, once
`RemoveData(e)` has returned, `e` holds no value, every other entity holds a
value exactly if it did before, and for each one that does `GetData` returns
the value it returned before (also for the entity of the last slot, whose value
has moved). -/
theorem C6_remove_frame {T : Type} [Inhabited T] (ops : List (ArrayOp T))
    (a a' : ComponentArray T) (e : Entity)
    (hrun : ComponentArray.run ops ComponentArray.new = some a)
    (hrem : a.RemoveData e = .ok () a') :
    a'.has e = false ∧
    ∀ e', e' ≠ e →
      a'.has e' = a.has e' ∧
      (a.has e' = true → ∃ v, a.GetData e' = .ok v a ∧ a'.GetData e' = .ok v a') := by
  have hwf := ComponentArray.WF_run hrun
  have hwf' := ComponentArray.WF_removeData hwf hrem
  obtain ⟨idx, he, hidx, _, hdef⟩ := ComponentArray.removeData_ok hrem
  obtain ⟨hlast, _, hlastlt, el, hel, hel'⟩ := hwf.last he
  rw [hlast, hel] at hdef
  dsimp only [Option.getD_some] at hdef
  have hmap : ∀ e', e' ≠ e → a'.m_EntityToIndexMap e' =
      if e' = el then some idx else a.m_EntityToIndexMap e' := by
    intro e' hne
    rw [hdef]
    dsimp only
    rw [Function.update_noteq hne, Function.update_apply]
  refine ⟨?_, ?_⟩
  · rw [ComponentArray.has_eq_false, hdef]
    simp
  · intro e' hne
    have hm := hmap e' hne
    by_cases hl : e' = el
    · subst hl
      rw [if_pos rfl] at hm
      have h1 : a'.has e' = true := ComponentArray.has_eq_true.mpr ⟨idx, hm⟩
      have h2 : a.has e' = true := ComponentArray.has_eq_true.mpr ⟨_, hel'⟩
      refine ⟨by rw [h1, h2], fun _ => ⟨a.m_ComponentArray (a.m_Size - 1), ?_, ?_⟩⟩
      · exact ComponentArray.getData_of_index hel' hlastlt
      · rw [ComponentArray.getData_of_index hm hidx, hdef]
        simp
    · rw [if_neg hl] at hm
      refine ⟨by simp [ComponentArray.has, hm], fun hp => ?_⟩
      obtain ⟨j, hj⟩ := ComponentArray.has_eq_true.mp hp
      have hjlt : j < MAX_ENTITIES := lt_of_lt_of_le (hwf.index_lt hj) hwf.1
      have hjne : j ≠ idx := fun hc => hne (hwf.inj (hc ▸ hj) he)
      refine ⟨a.m_ComponentArray j, ComponentArray.getData_of_index hj hjlt, ?_⟩
      rw [ComponentArray.getData_of_index (hm.trans hj) hjlt, hdef]
      simp [Function.update_noteq hjne]

set_option maxRecDepth 10000 in
/-- Witness for C6: entities 3, 5 and 9 hold 10, 20 and 30; removing entity 3 moves
the value of entity 9 into the freed slot, and entity 9 reads 30 as before. -/
theorem C6_remove_frame_witness :
    (ComponentArray.after [.InsertData 3 (10 : Nat), .InsertData 5 20, .InsertData 9 30]).RemoveData 3 =
      .ok () (ComponentArray.after
        [.InsertData 3 (10 : Nat), .InsertData 5 20, .InsertData 9 30, .RemoveData 3]) ∧
    (ComponentArray.after
      [.InsertData 3 (10 : Nat), .InsertData 5 20, .InsertData 9 30, .RemoveData 3]).m_EntityToIndexMap 9
      = some 0 ∧
    (ComponentArray.after
      [.InsertData 3 (10 : Nat), .InsertData 5 20, .InsertData 9 30, .RemoveData 3]).has 9 =
      (ComponentArray.after [.InsertData 3 (10 : Nat), .InsertData 5 20, .InsertData 9 30]).has 9 :=
  ⟨(by rfl), (by rfl),
    ((C6_remove_frame [.InsertData 3 (10 : Nat), .InsertData 5 20, .InsertData 9 30]
      (ComponentArray.after [.InsertData 3 (10 : Nat), .InsertData 5 20, .InsertData 9 30])
      (ComponentArray.after [.InsertData 3 (10 : Nat), .InsertData 5 20, .InsertData 9 30, .RemoveData 3])
      3 (by rfl) (by rfl)).2 9 (by decide)).1⟩

/-- C7: for every state of a dense array and every entity `e`, `RemoveData(e)` and
`GetData(e)` throw their not-found error exactly if `e` holds no value, they throw
nothing else, a call that throws leaves the array as it was, and once
`RemoveData(e)` has returned, `GetData(e)` throws the not-found error. -/
theorem C7_not_found {T : Type} (a : ComponentArray T) (e : Entity) :
    (a.RemoveData e = .throw .removingNonExistent a ↔ a.has e = false) ∧
    (a.GetData e = .throw .retrievingNonExistent a ↔ a.has e = false) ∧
    (∀ x s, a.RemoveData e = .throw x s → x = .removingNonExistent ∧ s = a) ∧
    (∀ x s, a.GetData e = .throw x s → x = .retrievingNonExistent ∧ s = a) ∧
    (∀ a', a.RemoveData e = .ok () a' → a'.GetData e = .throw .retrievingNonExistent a') := by
  refine ⟨⟨fun h => (ComponentArray.removeData_throw h).2.2,
      fun h => ComponentArray.removeData_of_absent (ComponentArray.has_eq_false.mp h)⟩,
    ⟨fun h => (ComponentArray.getData_throw h).2.2,
      fun h => ComponentArray.getData_of_absent (ComponentArray.has_eq_false.mp h)⟩,
    fun x s h => ⟨(ComponentArray.removeData_throw h).1, (ComponentArray.removeData_throw h).2.1⟩,
    fun x s h => ⟨(ComponentArray.getData_throw h).1, (ComponentArray.getData_throw h).2.1⟩,
    fun a' h => ?_⟩
  obtain ⟨idx, _, _, _, rfl⟩ := ComponentArray.removeData_ok h
  apply ComponentArray.getData_of_absent
  simp

set_option maxRecDepth 10000 in
/-- Witness for C7: on an array holding values for entities 3 and 5, removing
entity 3 returns and a read of entity 3 then throws, while removing entity 8
throws. -/
theorem C7_not_found_witness :
    (ComponentArray.after [.InsertData 3 (10 : Nat), .InsertData 5 20, .RemoveData 3]).GetData 3 =
      .throw .retrievingNonExistent
        (ComponentArray.after [.InsertData 3 (10 : Nat), .InsertData 5 20, .RemoveData 3]) ∧
    (ComponentArray.after [.InsertData 3 (10 : Nat), .InsertData 5 20]).RemoveData 8 =
      .throw .removingNonExistent (ComponentArray.after [.InsertData 3 (10 : Nat), .InsertData 5 20]) :=
  ⟨(C7_not_found (ComponentArray.after [.InsertData 3 (10 : Nat), .InsertData 5 20]) 3).2.2.2.2
      (ComponentArray.after [.InsertData 3 (10 : Nat), .InsertData 5 20, .RemoveData 3]) (by rfl),
    (C7_not_found (ComponentArray.after [.InsertData 3 (10 : Nat), .InsertData 5 20]) 8).1.mpr (by rfl)⟩

/-- C8: for every state of a dense array, `InsertData(e, v)` throws the duplicate
error exactly if `e` already holds a value, it throws nothing else, and a call that
throws leaves the array (size, both maps, buffer) as it was; and in an array built
from the empty one by any sequence of calls no entity is held by two slots. -/
theorem C8_duplicate {T : Type} [Inhabited T] (a : ComponentArray T) (e : Entity) (v : T) :
    (a.InsertData e v = .throw .componentAddedTwice a ↔ a.has e = true) ∧
    (∀ x s, a.InsertData e v = .throw x s → x = .componentAddedTwice ∧ s = a) ∧
    (∀ ops, ComponentArray.run ops ComponentArray.new = some a →
      ∀ i j, a.m_IndexToEntityMap i = some e → a.m_IndexToEntityMap j = some e → i = j) := by
  refine ⟨⟨fun h => (ComponentArray.insertData_throw h).2.2,
      fun h => ComponentArray.insertData_of_present v h⟩,
    fun x s h => ⟨(ComponentArray.insertData_throw h).1, (ComponentArray.insertData_throw h).2.1⟩,
    fun ops hrun i j hi hj => ?_⟩
  obtain ⟨_, hbij, _⟩ := ComponentArray.WF_run hrun
  rw [← hbij] at hi hj
  rw [hi] at hj
  exact Option.some.inj hj

set_option maxRecDepth 10000 in
/-- Witness for C8: a second insertion for entity 3 throws and changes nothing, and
entity 3 is held by one slot only. -/
theorem C8_duplicate_witness :
    (ComponentArray.after [.InsertData 3 (10 : Nat), .InsertData 5 20]).InsertData 3 99 =
      .throw .componentAddedTwice (ComponentArray.after [.InsertData 3 (10 : Nat), .InsertData 5 20]) ∧
    ∀ i j,
      (ComponentArray.after [.InsertData 3 (10 : Nat), .InsertData 5 20]).m_IndexToEntityMap i = some 3 →
      (ComponentArray.after [.InsertData 3 (10 : Nat), .InsertData 5 20]).m_IndexToEntityMap j = some 3 →
      i = j :=
  ⟨(C8_duplicate (ComponentArray.after [.InsertData 3 (10 : Nat), .InsertData 5 20]) 3 99).1.mpr (by rfl),
    (C8_duplicate (ComponentArray.after [.InsertData 3 (10 : Nat), .InsertData 5 20]) 3 99).2.2
      [.InsertData 3 (10 : Nat), .InsertData 5 20] (by rfl)⟩

/-! ## The identity registry: creation and destruction (C9, C10) -/

theorem EntityManager.createEntity_full {m : EntityManager}
    (h : MAX_ENTITIES ≤ m.m_LivingEntityCount) : m.CreateEntity = .throw .tooManyEntities m := by
  simp [EntityManager.CreateEntity, h]

theorem EntityManager.createEntity_cons {m : EntityManager} {id : Entity} {rest : List Entity}
    (h : m.m_LivingEntityCount < MAX_ENTITIES) (hq : m.m_AvailableEntities = id :: rest) :
    m.CreateEntity = .ok id { m with
      m_AvailableEntities := rest
      m_LivingEntityCount := m.m_LivingEntityCount + 1 } := by
  have hmod : (m.m_LivingEntityCount + 1) % 2 ^ 32 = m.m_LivingEntityCount + 1 := by
    rw [MAX_ENTITIES_eq] at h
    omega
  unfold EntityManager.CreateEntity
  rw [if_neg (by omega), hq]
  dsimp only
  rw [hmod]

theorem EntityManager.createEntity_throw {m s : EntityManager} {x : Exn}
    (h : m.CreateEntity = .throw x s) :
    x = .tooManyEntities ∧ s = m ∧ MAX_ENTITIES ≤ m.m_LivingEntityCount := by
  unfold EntityManager.CreateEntity at h
  split at h
  · rename_i hge
    injection h with h1 h2
    exact ⟨h1.symm, h2.symm, hge⟩
  · split at h <;> cases h

theorem EntityManager.createEntity_ok {m m' : EntityManager} {id : Entity}
    (h : m.CreateEntity = .ok id m') :
    m.m_LivingEntityCount < MAX_ENTITIES ∧
    m.m_AvailableEntities = id :: m'.m_AvailableEntities ∧
    m'.m_Signatures = m.m_Signatures ∧
    m'.m_LivingEntityCount = m.m_LivingEntityCount + 1 := by
  unfold EntityManager.CreateEntity at h
  split at h
  · cases h
  · rename_i hlt
    split at h
    · cases h
    · rename_i id' rest hq
      injection h with h1 h2
      subst h1
      subst h2
      have hlt' : m.m_LivingEntityCount < MAX_ENTITIES := by omega
      have hmod : (m.m_LivingEntityCount + 1) % 2 ^ 32 = m.m_LivingEntityCount + 1 := by
        rw [MAX_ENTITIES_eq] at hlt'
        omega
      exact ⟨hlt', hq, rfl, hmod⟩

theorem EntityManager.destroyEntity_lt {m : EntityManager} {e : Entity} (h : e < MAX_ENTITIES) :
    m.DestroyEntity e = .ok () {
      m_Signatures := Function.update m.m_Signatures e 0
      m_AvailableEntities := m.m_AvailableEntities ++ [e]
      m_LivingEntityCount := (m.m_LivingEntityCount + 2 ^ 32 - 1) % 2 ^ 32 } := by
  unfold EntityManager.DestroyEntity
  rw [if_neg (Nat.not_le.mpr h)]

theorem EntityManager.destroyEntity_ge {m : EntityManager} {e : Entity} (h : MAX_ENTITIES ≤ e) :
    m.DestroyEntity e = .throw .entityOutOfRange m := by
  unfold EntityManager.DestroyEntity
  rw [if_pos h]

theorem Registry.Inv_new : Registry.new.Inv := by
  refine ⟨?_, rfl⟩
  simp [Registry.new, EntityManager.new]

theorem Registry.Inv.length_le {r : Registry} (h : r.Inv) :
    r.manager.m_AvailableEntities.length + r.live.length = MAX_ENTITIES := by
  have := h.1.length_eq
  simpa using this

theorem Registry.Inv.not_mem_live {r : Registry} (h : r.Inv) {id : Entity}
    (hid : id ∈ r.manager.m_AvailableEntities) : id ∉ r.live := by
  have hnd : (r.manager.m_AvailableEntities ++ r.live).Nodup :=
    h.1.nodup_iff.mpr (List.nodup_range _)
  exact (List.nodup_append.mp hnd).2.2 hid

theorem Registry.Inv.lt_of_mem_live {r : Registry} (h : r.Inv) {id : Entity}
    (hid : id ∈ r.live) : id < MAX_ENTITIES := by
  have : id ∈ List.range MAX_ENTITIES := h.1.subset (List.mem_append_right _ hid)
  exact List.mem_range.mp this

/-- One call that keeps to the discipline keeps the invariant, and has defined
behaviour. -/
theorem Registry.Inv.step {r : Registry} (h : r.Inv) (op : EntityOp)
    (hop : ∀ e, op = .DestroyEntity e → e ∈ r.live) :
    ∃ r', r.call op = some r' ∧ r'.Inv := by
  cases op with
  | CreateEntity =>
    by_cases hfull : MAX_ENTITIES ≤ r.manager.m_LivingEntityCount
    · refine ⟨r, ?_, h⟩
      simp [Registry.call, EntityManager.createEntity_full hfull]
    · have hlt : r.manager.m_LivingEntityCount < MAX_ENTITIES := by omega
      have hlen := h.length_le
      cases hq : r.manager.m_AvailableEntities with
      | nil =>
        rw [hq, h.2.symm] at hlen
        simp at hlen
        omega
      | cons id rest =>
        refine ⟨{ manager := { r.manager with
                                m_AvailableEntities := rest
                                m_LivingEntityCount := r.manager.m_LivingEntityCount + 1 }
                  live := id :: r.live }, ?_, ?_, ?_⟩
        · simp only [Registry.call, EntityManager.createEntity_cons hlt hq]
        · have h1 := h.1
          rw [hq] at h1
          refine List.Perm.trans ?_ h1
          dsimp only
          exact List.perm_middle
        · dsimp only
          rw [h.2, List.length_cons]
  | DestroyEntity e =>
    have he := hop e rfl
    have hlt := h.lt_of_mem_live he
    refine ⟨{ manager := {
                m_Signatures := Function.update r.manager.m_Signatures e 0
                m_AvailableEntities := r.manager.m_AvailableEntities ++ [e]
                m_LivingEntityCount := (r.manager.m_LivingEntityCount + 2 ^ 32 - 1) % 2 ^ 32 }
              live := r.live.erase e }, ?_, ?_, ?_⟩
    · simp only [Registry.call, EntityManager.destroyEntity_lt hlt]
    · dsimp only
      refine List.Perm.trans ?_ h.1
      rw [List.append_assoc]
      refine List.Perm.append_left _ ?_
      exact (List.perm_cons_erase he).symm
    · dsimp only
      have hpos : 0 < r.live.length := List.length_pos_of_mem he
      have hle : r.live.length ≤ MAX_ENTITIES := by have := h.length_le; omega
      rw [List.length_erase_of_mem he, h.2]
      rw [MAX_ENTITIES_eq] at hle
      omega

theorem Registry.Inv.steps (ops : List EntityOp) :
    ∀ {r : Registry}, r.Inv → Registry.destroysLive ops r = true →
      ∃ r', Registry.run ops r = some r' ∧ r'.Inv := by
  induction ops with
  | nil => exact fun {r} h _ => ⟨r, rfl, h⟩
  | cons op ops ih =>
    intro r h hd
    simp only [Registry.destroysLive, Bool.and_eq_true] at hd
    obtain ⟨r1, hc, h1⟩ := h.step op (by
      intro e he
      subst he
      simpa using hd.1)
    rw [hc] at hd
    obtain ⟨r', hr', hinv⟩ := ih h1 hd.2
    exact ⟨r', by simp only [Registry.run, hc, hr'], hinv⟩

/-- Every id in the free pool is below `MAX_ENTITIES`, whatever calls were made. -/
theorem Registry.pool_lt (ops : List EntityOp) :
    ∀ {r r' : Registry}, (∀ id ∈ r.manager.m_AvailableEntities, id < MAX_ENTITIES) →
      Registry.run ops r = some r' →
      ∀ id ∈ r'.manager.m_AvailableEntities, id < MAX_ENTITIES := by
  induction ops with
  | nil =>
    intro r r' h hrun
    simp only [Registry.run, Option.some.injEq] at hrun
    subst hrun
    exact h
  | cons op ops ih =>
    intro r r' h hrun
    simp only [Registry.run] at hrun
    cases hc : r.call op with
    | none => simp [hc] at hrun
    | some r1 =>
      rw [hc] at hrun
      refine ih ?_ hrun
      cases op with
      | CreateEntity =>
        simp only [Registry.call] at hc
        cases hce : r.manager.CreateEntity with
        | undefined => simp [hce] at hc
        | throw x s =>
          obtain ⟨_, hs, _⟩ := EntityManager.createEntity_throw hce
          simp only [hce, Option.some.injEq] at hc
          subst hc
          subst hs
          exact h
        | ok id m =>
          obtain ⟨_, hq, _, _⟩ := EntityManager.createEntity_ok hce
          simp only [hce, Option.some.injEq] at hc
          subst hc
          intro id' hid'
          exact h id' (by rw [hq]; exact List.mem_cons_of_mem _ hid')
      | DestroyEntity e =>
        simp only [Registry.call] at hc
        by_cases he : e < MAX_ENTITIES
        · simp only [EntityManager.destroyEntity_lt he, Option.some.injEq] at hc
          subst hc
          intro id' hid'
          rcases List.mem_append.mp hid' with h1 | h1
          · exact h id' h1
          · rw [List.mem_singleton.mp h1]
            exact he
        · simp only [EntityManager.destroyEntity_ge (Nat.le_of_not_lt he), Option.some.injEq] at hc
          subst hc
          exact h

theorem Registry.run_append (ops1 ops2 : List EntityOp) :
    ∀ r : Registry, Registry.run (ops1 ++ ops2) r = (Registry.run ops1 r).bind (Registry.run ops2) := by
  induction ops1 with
  | nil => exact fun r => rfl
  | cons op ops ih =>
    intro r
    simp only [List.cons_append, Registry.run]
    cases r.call op with
    | none => rfl
    | some r1 => exact ih r1

/-- A run of `n` creations on a registry with room for them takes the first `n`
ids of the free pool, in order. -/
theorem Registry.run_creates (n : Nat) :
    ∀ r : Registry, r.manager.m_LivingEntityCount + n ≤ MAX_ENTITIES →
      n ≤ r.manager.m_AvailableEntities.length →
      Registry.run (List.replicate n .CreateEntity) r = some {
        manager := { r.manager with
          m_AvailableEntities := r.manager.m_AvailableEntities.drop n
          m_LivingEntityCount := r.manager.m_LivingEntityCount + n }
        live := (r.manager.m_AvailableEntities.take n).reverse ++ r.live } := by
  induction n with
  | zero => exact fun r _ _ => rfl
  | succ n ih =>
    intro r hc hq
    cases hl : r.manager.m_AvailableEntities with
    | nil => simp [hl] at hq
    | cons id rest =>
      have hlt : r.manager.m_LivingEntityCount < MAX_ENTITIES := by omega
      simp only [List.replicate_succ, Registry.run, Registry.call,
        EntityManager.createEntity_cons hlt hl]
      rw [ih _ (by dsimp only; omega) (by
        dsimp only
        rw [hl] at hq
        simpa using hq)]
      simp [Nat.add_assoc, Nat.add_comm 1 n]

theorem Registry.destroysLive_creates (n : Nat) :
    ∀ r : Registry, Registry.destroysLive (List.replicate n .CreateEntity) r = true := by
  induction n with
  | zero => exact fun r => rfl
  | succ n ih =>
    intro r
    simp only [List.replicate_succ, Registry.destroysLive, Bool.true_and]
    cases r.call .CreateEntity with
    | none => rfl
    | some r1 => exact ih r1

theorem range_MAX_ENTITIES : List.range MAX_ENTITIES = 0 :: 1 :: List.range' 2 4998 := by
  rw [MAX_ENTITIES_eq, List.range_eq_range', show (5000 : Nat) = 4998 + 1 + 1 from rfl,
    List.range'_succ, List.range'_succ]

theorem Registry.call_destroy {r : Registry} {e : Entity} (h : e < MAX_ENTITIES) :
    r.call (.DestroyEntity e) = some {
      manager := {
        m_Signatures := Function.update r.manager.m_Signatures e 0
        m_AvailableEntities := r.manager.m_AvailableEntities ++ [e]
        m_LivingEntityCount := (r.manager.m_LivingEntityCount + 2 ^ 32 - 1) % 2 ^ 32 }
      live := r.live.erase e } := by
  simp only [Registry.call, EntityManager.destroyEntity_lt h]

theorem Registry.run_cons (op : EntityOp) (ops : List EntityOp) (r r' : Registry)
    (h : r.call op = some r') : Registry.run (op :: ops) r = Registry.run ops r' := by
  simp only [Registry.run, h]

theorem Registry.run_double_destroy :
    Registry.run [.CreateEntity, .CreateEntity, .DestroyEntity 0, .DestroyEntity 0] Registry.new =
      some {
        manager := {
          m_AvailableEntities := List.range' 2 4998 ++ [0, 0]
          m_Signatures := Function.update (Function.update (fun _ => 0) 0 0) 0 0
          m_LivingEntityCount := 0 }
        live := [1] } := by
  have h2 := Registry.run_creates 2 Registry.new (by decide) (by
    simp [Registry.new, EntityManager.new, MAX_ENTITIES])
  have happ := Registry.run_append (List.replicate 2 .CreateEntity)
    [.DestroyEntity 0, .DestroyEntity 0] Registry.new
  have h0 : (0 : Nat) < MAX_ENTITIES := by decide
  rw [h2, Option.some_bind, Registry.run_cons _ _ _ _ (Registry.call_destroy h0),
    Registry.run_cons _ _ _ _ (Registry.call_destroy h0)] at happ
  refine happ.trans ?_
  simp only [Registry.new, EntityManager.new, range_MAX_ENTITIES, Registry.run]
  simp


theorem Registry.run_reuse :
    Registry.run
        ([.CreateEntity, .CreateEntity, .DestroyEntity 0, .DestroyEntity 0] ++
          List.replicate 4999 .CreateEntity) Registry.new =
      some {
        manager := {
          m_AvailableEntities := [0]
          m_Signatures := Function.update (Function.update (fun _ => 0) 0 0) 0 0
          m_LivingEntityCount := 4999 }
        live := 0 :: ((List.range' 2 4998).reverse ++ [1]) } := by
  rw [Registry.run_append, Registry.run_double_destroy, Option.some_bind,
    Registry.run_creates 4999 _ (by decide) (by simp)]
  have hd : List.drop 4999 (List.range' 2 4998 ++ [0, 0]) = [0] := by
    rw [List.drop_append_eq_append_drop, List.drop_of_length_le (by simp)]
    simp
  have ht : List.take 4999 (List.range' 2 4998 ++ [0, 0]) = List.range' 2 4998 ++ [0] := by
    rw [List.take_append_eq_append_take, List.take_of_length_le (by simp)]
    simp
  simp only [hd, ht]
  simp

/-- C9, as stated, fails: on the fresh registry `DestroyEntity(0)` returns although
id 0 was never created, the 32-bit counter wraps from 0 to `2^32 - 1`, and
`CreateEntity` then throws the capacity error although no entity is live. -/
theorem C9_counterexample :
    Registry.run [.DestroyEntity 0] Registry.new = some (Registry.after [.DestroyEntity 0]) ∧
    (Registry.after [.DestroyEntity 0]).live.length = 0 ∧
    (Registry.after [.DestroyEntity 0]).manager.m_LivingEntityCount = 2 ^ 32 - 1 ∧
    (Registry.after [.DestroyEntity 0]).manager.CreateEntity =
      .throw .tooManyEntities (Registry.after [.DestroyEntity 0]).manager ∧
    ¬ ((Registry.after [.DestroyEntity 0]).manager.CreateEntity =
        .throw .tooManyEntities (Registry.after [.DestroyEntity 0]).manager ↔
      MAX_ENTITIES ≤ (Registry.after [.DestroyEntity 0]).live.length) := by
  have hthrow : (Registry.after [.DestroyEntity 0]).manager.CreateEntity =
      .throw .tooManyEntities (Registry.after [.DestroyEntity 0]).manager :=
    EntityManager.createEntity_full (by decide)
  refine ⟨rfl, rfl, by decide, hthrow, fun h => ?_⟩
  have := h.mp hthrow
  revert this
  decide

/-- C9, amended: for every registry reached from the initial one by `CreateEntity`
and `DestroyEntity` calls each of whose destructions is applied to a live id, the
calls have defined behaviour, at most `MAX_ENTITIES` ids are live and the counter
is their number, `CreateEntity` throws the capacity error exactly if
`MAX_ENTITIES` ids are live, it throws nothing else, a creation that throws leaves
the manager (counter, free pool, signatures) and the live ids as they were, and
below the capacity the creation returns. -/
theorem C9_capacity (ops : List EntityOp)
    (hlive : Registry.destroysLive ops Registry.new = true) :
    ∃ r, Registry.run ops Registry.new = some r ∧
      r.manager.m_LivingEntityCount = r.live.length ∧
      r.live.length ≤ MAX_ENTITIES ∧
      (r.manager.CreateEntity = .throw .tooManyEntities r.manager ↔
        r.live.length = MAX_ENTITIES) ∧
      (∀ x s, r.manager.CreateEntity = .throw x s → x = .tooManyEntities ∧ s = r.manager) ∧
      (r.live.length = MAX_ENTITIES → r.call .CreateEntity = some r) ∧
      (r.live.length < MAX_ENTITIES → ∃ id m, r.manager.CreateEntity = .ok id m) := by
  obtain ⟨r, hrun, hinv⟩ := Registry.Inv.steps ops Registry.Inv_new hlive
  have hlen := hinv.length_le
  have hcount := hinv.2
  refine ⟨r, hrun, hcount, by omega, ⟨fun h => ?_, fun h => ?_⟩, fun x s h => ?_, fun h => ?_,
    fun h => ?_⟩
  · have := (EntityManager.createEntity_throw h).2.2
    omega
  · exact EntityManager.createEntity_full (by omega)
  · exact ⟨(EntityManager.createEntity_throw h).1, (EntityManager.createEntity_throw h).2.1⟩
  · have hf : r.manager.CreateEntity = .throw .tooManyEntities r.manager :=
      EntityManager.createEntity_full (by omega)
    simp only [Registry.call, hf]
  · cases hq : r.manager.m_AvailableEntities with
    | nil =>
      rw [hq] at hlen
      simp at hlen
      omega
    | cons id rest => exact ⟨id, _, EntityManager.createEntity_cons (by omega) hq⟩

/-- Witness for C9 (the scenario of the claim): after 5000 creations on the fresh
registry, 5000 ids are live, the next creation throws the capacity error, and the
registry with its count of 5000 is left as it was. -/
theorem C9_capacity_witness :
    ∃ r, Registry.run (List.replicate 5000 .CreateEntity) Registry.new = some r ∧
      r.live.length = 5000 ∧ r.manager.m_LivingEntityCount = 5000 ∧
      r.manager.CreateEntity = .throw .tooManyEntities r.manager ∧
      r.call .CreateEntity = some r := by
  obtain ⟨r, hrun, hcount, _, hiff, _, hsame, _⟩ :=
    C9_capacity (List.replicate 5000 .CreateEntity) (Registry.destroysLive_creates _ _)
  have h := Registry.run_creates 5000 Registry.new (by decide) (by
    simp [Registry.new, EntityManager.new, MAX_ENTITIES])
  rw [h] at hrun
  have hlen : r.live.length = 5000 := by
    rw [← Option.some.inj hrun]
    simp [Registry.new, EntityManager.new, MAX_ENTITIES]
  have hrun' : Registry.run (List.replicate 5000 .CreateEntity) Registry.new = some r := by
    rw [h, hrun]
  exact ⟨r, hrun', hlen, by rw [hcount, hlen], hiff.mpr hlen, hsame hlen⟩

/-- C10, as stated, fails: after two creations (ids 0 and 1) id 0 is destroyed
twice, so it is queued twice while the counter drops to 0; 4999 further
creations hand out the ids 2 to 4999 and then 0, and the next creation returns 0
again although id 0 is live. -/
theorem C10_counterexample :
    ∃ r m, Registry.run
        ([.CreateEntity, .CreateEntity, .DestroyEntity 0, .DestroyEntity 0] ++
          List.replicate 4999 .CreateEntity) Registry.new = some r ∧
      r.manager.CreateEntity = .ok 0 m ∧ 0 ∈ r.live :=
  ⟨_, _, Registry.run_reuse, EntityManager.createEntity_cons (by decide) rfl,
    List.mem_cons_self _ _⟩

/-- C10, amended: for every sequence of `CreateEntity` and `DestroyEntity` calls on
the initial registry, an id returned by a further `CreateEntity` is below
`MAX_ENTITIES`; and if every destruction of the sequence was applied to an id live
at that moment, the id returned differs from every live id. -/
theorem C10_fresh_id (ops : List EntityOp) (r : Registry) (id : Entity) (m : EntityManager)
    (hrun : Registry.run ops Registry.new = some r)
    (hcreate : r.manager.CreateEntity = .ok id m) :
    id < MAX_ENTITIES ∧ (Registry.destroysLive ops Registry.new = true → id ∉ r.live) := by
  obtain ⟨_, hq, _, _⟩ := EntityManager.createEntity_ok hcreate
  have hmem : id ∈ r.manager.m_AvailableEntities := by
    rw [hq]
    exact List.mem_cons_self _ _
  refine ⟨?_, fun hlive => ?_⟩
  · refine Registry.pool_lt ops ?_ hrun id hmem
    intro id' hid'
    simp only [Registry.new, EntityManager.new] at hid'
    exact List.mem_range.mp hid'
  · obtain ⟨r', hrun', hinv⟩ := Registry.Inv.steps ops Registry.Inv_new hlive
    rw [hrun] at hrun'
    rw [← Option.some.inj hrun'] at hinv
    exact hinv.not_mem_live hmem

theorem Registry.run_destroy_first :
    Registry.run [.CreateEntity, .CreateEntity, .DestroyEntity 0] Registry.new =
      some {
        manager := {
          m_AvailableEntities := 2 :: (List.range' 3 4997 ++ [0])
          m_Signatures := Function.update (fun _ => 0) 0 0
          m_LivingEntityCount := 1 }
        live := [1] } := by
  have h2 := Registry.run_creates 2 Registry.new (by decide) (by
    simp [Registry.new, EntityManager.new, MAX_ENTITIES])
  have happ := Registry.run_append (List.replicate 2 .CreateEntity)
    [.DestroyEntity 0] Registry.new
  have h0 : (0 : Nat) < MAX_ENTITIES := by decide
  rw [h2, Option.some_bind, Registry.run_cons _ _ _ _ (Registry.call_destroy h0)] at happ
  refine happ.trans ?_
  simp only [Registry.new, EntityManager.new, range_MAX_ENTITIES, Registry.run]
  rw [show (4998 : Nat) = 4997 + 1 from rfl, List.range'_succ]
  simp

set_option maxRecDepth 100000 in
theorem Registry.destroysLive_destroy_first :
    Registry.destroysLive [.CreateEntity, .CreateEntity, .DestroyEntity 0] Registry.new = true := by
  decide

/-- Witness for C10: after two creations and the destruction of id 0, the next
creation returns id 2, which is below the capacity and not the live id 1. -/
theorem C10_fresh_id_witness :
    ∃ r m, Registry.run [.CreateEntity, .CreateEntity, .DestroyEntity 0] Registry.new = some r ∧
      r.live = [1] ∧ r.manager.CreateEntity = .ok 2 m ∧ 2 < MAX_ENTITIES ∧ 2 ∉ r.live :=
  ⟨_, _, Registry.run_destroy_first, rfl, EntityManager.createEntity_cons (by decide) rfl,
    (C10_fresh_id _ _ 2 _ Registry.run_destroy_first
      (EntityManager.createEntity_cons (by decide) rfl)).1,
    (C10_fresh_id _ _ 2 _ Registry.run_destroy_first
      (EntityManager.createEntity_cons (by decide) rfl)).2 Registry.destroysLive_destroy_first⟩

/-! ## Association lists -/

theorem Map.find_nil {β : Type} (k : TypeName) : Map.find ([] : List (TypeName × β)) k = none := rfl

theorem Map.find_cons {β : Type} (k' : TypeName) (v : β) (rest : List (TypeName × β))
    (k : TypeName) :
    Map.find ((k', v) :: rest) k = if k' = k then some v else Map.find rest k := rfl

theorem Map.find_append_singleton {β : Type} (m : List (TypeName × β)) (k : TypeName) (v : β)
    (k' : TypeName) :
    Map.find (m ++ [(k, v)]) k' =
      match Map.find m k' with
      | some x => some x
      | none => if k = k' then some v else none := by
  induction m with
  | nil => simp [Map.find]
  | cons p rest ih =>
    obtain ⟨k0, v0⟩ := p
    simp only [List.cons_append, Map.find_cons]
    by_cases h : k0 = k'
    · simp [h]
    · simp [h, ih]

theorem Map.find_insert_of_none {β : Type} {m : List (TypeName × β)} {k : TypeName}
    (h : Map.find m k = none) (v : β) (k' : TypeName) :
    Map.find (Map.insert m k v) k' = if k' = k then some v else Map.find m k' := by
  simp only [Map.insert, h, Map.find_append_singleton]
  by_cases hk : k' = k
  · subst hk
    simp [h]
  · have hk' : ¬ k = k' := fun hc => hk hc.symm
    cases Map.find m k' <;> simp [hk, hk']

theorem Map.insert_of_some {β : Type} {m : List (TypeName × β)} {k : TypeName} {x : β}
    (h : Map.find m k = some x) (v : β) : Map.insert m k v = m := by
  simp only [Map.insert, h]

theorem Map.insert_of_none {β : Type} {m : List (TypeName × β)} {k : TypeName}
    (h : Map.find m k = none) (v : β) : Map.insert m k v = m ++ [(k, v)] := by
  simp only [Map.insert, h]

theorem Map.getD_find_insert {β : Type} (m : List (TypeName × β)) (k : TypeName) (d : β)
    (k' : TypeName) :
    (Map.find (Map.insert m k d) k').getD d = (Map.find m k').getD d := by
  cases h : Map.find m k with
  | some x => rw [Map.insert_of_some h]
  | none =>
    rw [Map.find_insert_of_none h]
    by_cases hk : k' = k
    · subst hk
      simp [h]
    · simp [hk]

theorem Map.find_assign {β : Type} (m : List (TypeName × β)) (k : TypeName) (v : β)
    (k' : TypeName) :
    Map.find (Map.assign m k v) k' =
      if k' = k then (Map.find m k).map (fun _ => v) else Map.find m k' := by
  induction m with
  | nil => simp [Map.assign, Map.find]
  | cons p rest ih =>
    obtain ⟨k0, v0⟩ := p
    simp only [Map.assign]
    by_cases h0 : k0 = k
    · subst h0
      simp only [if_true, Map.find_cons]
      by_cases hk : k' = k0
      · subst hk
        simp
      · have : ¬ k0 = k' := fun hc => hk hc.symm
        simp [hk, this]
    · simp only [h0, if_false, Map.find_cons, ih]
      by_cases hk : k' = k
      · subst hk
        simp [h0]
      · simp [hk]

theorem Map.mem_assign {β : Type} {m : List (TypeName × β)} {k : TypeName} {v : β}
    {p : TypeName × β} (h : p ∈ Map.assign m k v) : p ∈ m ∨ p = (k, v) := by
  induction m with
  | nil => simp [Map.assign] at h
  | cons q rest ih =>
    obtain ⟨k0, v0⟩ := q
    simp only [Map.assign] at h
    by_cases h0 : k0 = k
    · subst h0
      simp only [if_true, List.mem_cons] at h
      rcases h with h | h
      · exact Or.inr h
      · exact Or.inl (List.mem_cons_of_mem _ h)
    · simp only [h0, if_false, List.mem_cons] at h
      rcases h with h | h
      · exact Or.inl (h ▸ List.mem_cons_self _ _)
      · rcases ih h with h | h
        · exact Or.inl (List.mem_cons_of_mem _ h)
        · exact Or.inr h

theorem Map.mem_insert {β : Type} {m : List (TypeName × β)} {k : TypeName} {v : β}
    {p : TypeName × β} (h : p ∈ Map.insert m k v) : p ∈ m ∨ p = (k, v) := by
  unfold Map.insert at h
  split at h
  · exact Or.inl h
  · rcases List.mem_append.mp h with h | h
    · exact Or.inl h
    · exact Or.inr (List.mem_singleton.mp h)

theorem Map.mem_of_find {β : Type} {m : List (TypeName × β)} {k : TypeName} {v : β}
    (h : Map.find m k = some v) : (k, v) ∈ m := by
  induction m with
  | nil => simp [Map.find] at h
  | cons q rest ih =>
    obtain ⟨k0, v0⟩ := q
    rw [Map.find_cons] at h
    by_cases h0 : k0 = k
    · subst h0
      simp only [if_true, Option.some.injEq] at h
      subst h
      exact List.mem_cons_self _ _
    · simp only [h0, if_false] at h
      exact List.mem_cons_of_mem _ (ih h)

theorem Map.find_isSome_of_mem {β : Type} {m : List (TypeName × β)} {k : TypeName} {v : β}
    (h : (k, v) ∈ m) : (Map.find m k).isSome = true := by
  induction m with
  | nil => simp at h
  | cons q rest ih =>
    obtain ⟨k0, v0⟩ := q
    rw [Map.find_cons]
    by_cases h0 : k0 = k
    · simp [h0]
    · simp only [h0, if_false]
      rcases List.mem_cons.mp h with h | h
      · injection h with h1 _
        exact absurd h1.symm h0
      · exact ih h

/-! ## The component storage -/

theorem ComponentArray.insertData_has {T : Type} {a a' : ComponentArray T} {e : Entity} {v : T}
    (h : a.InsertData e v = .ok () a') (e' : Entity) :
    a'.has e' = if e' = e then true else a.has e' := by
  obtain ⟨_, _, rfl⟩ := ComponentArray.insertData_ok h
  by_cases he : e' = e
  · subst he
    simp [ComponentArray.has]
  · simp [ComponentArray.has, Function.update_noteq he, he]

theorem ComponentArray.removeData_has {T : Type} {a a' : ComponentArray T} {e : Entity}
    (hwf : a.WF) (h : a.RemoveData e = .ok () a') (e' : Entity) :
    a'.has e' = if e' = e then false else a.has e' := by
  obtain ⟨idx, he, _, _, hdef⟩ := ComponentArray.removeData_ok h
  obtain ⟨hlast, _, _, el, hel, hel'⟩ := hwf.last he
  rw [hlast, hel] at hdef
  dsimp only [Option.getD_some] at hdef
  by_cases hee : e' = e
  · subst hee
    rw [if_pos rfl, ComponentArray.has_eq_false, hdef]
    simp
  · rw [if_neg hee]
    have hm : a'.m_EntityToIndexMap e' =
        if e' = el then some idx else a.m_EntityToIndexMap e' := by
      rw [hdef]
      dsimp only
      rw [Function.update_noteq hee, Function.update_apply]
    by_cases hl : e' = el
    · subst hl
      rw [if_pos rfl] at hm
      simp [ComponentArray.has, hm, hel']
    · rw [if_neg hl] at hm
      simp [ComponentArray.has, hm]

/-- On a well-formed array `EntityDestroyed` returns, keeps the array well-formed,
removes the entity and touches the presence of no other entity. -/
theorem ComponentArray.entityDestroyed_spec {T : Type} {a : ComponentArray T} (hwf : a.WF)
    (e : Entity) :
    ∃ a', a.EntityDestroyed e = .ok () a' ∧ a'.WF ∧
      ∀ e', a'.has e' = if e' = e then false else a.has e' := by
  cases he : a.m_EntityToIndexMap e with
  | none =>
    refine ⟨a, ComponentArray.entityDestroyed_of_absent he, hwf, fun e' => ?_⟩
    by_cases hee : e' = e
    · subst hee
      simp [ComponentArray.has, he]
    · simp [hee]
  | some i =>
    obtain ⟨a', ha'⟩ := ComponentArray.removeData_of_index hwf he
    refine ⟨a', (ComponentArray.entityDestroyed_of_index he).trans ha',
      ComponentArray.WF_removeData hwf ha', ComponentArray.removeData_has hwf ha'⟩

theorem ComponentManager.getComponentArray_ok {V : Type} {cm s : ComponentManager V}
    {typeName : TypeName} {a : ComponentArray V}
    (h : cm.GetComponentArray typeName = .ok a s) :
    s = cm ∧ (Map.find cm.m_ComponentTypes typeName).isSome = true ∧
      Map.find cm.m_ComponentArrays typeName = some a := by
  unfold ComponentManager.GetComponentArray at h
  split at h
  · cases h
  · rename_i t ht
    split at h
    · cases h
    · rename_i a0 ha0
      injection h with h1 h2
      subst h1
      exact ⟨h2.symm, by simp [ht], ha0⟩

theorem ComponentManager.getComponentArray_throw {V : Type} {cm s : ComponentManager V}
    {typeName : TypeName} {x : Exn}
    (h : cm.GetComponentArray typeName = .throw x s) :
    s = cm ∧ x = .componentNotRegistered ∧ Map.find cm.m_ComponentTypes typeName = none := by
  unfold ComponentManager.GetComponentArray at h
  split at h
  · rename_i ht
    injection h with h1 h2
    exact ⟨h2.symm, h1.symm, ht⟩
  · split at h <;> cases h

theorem ComponentManager.getComponentArray_of_find {V : Type} {cm : ComponentManager V}
    {typeName : TypeName} {t : ComponentType} {a : ComponentArray V}
    (ht : Map.find cm.m_ComponentTypes typeName = some t)
    (ha : Map.find cm.m_ComponentArrays typeName = some a) :
    cm.GetComponentArray typeName = .ok a cm := by
  simp only [ComponentManager.GetComponentArray, ht, ha]

theorem ComponentManager.getComponentArray_of_none {V : Type} {cm : ComponentManager V}
    {typeName : TypeName} (ht : Map.find cm.m_ComponentTypes typeName = none) :
    cm.GetComponentArray typeName = .throw .componentNotRegistered cm := by
  simp only [ComponentManager.GetComponentArray, ht]

theorem ComponentManager.insert_ok {V : Type} {cm cm' : ComponentManager V}
    {typeName : TypeName} {e : Entity} {v : V}
    (h : cm.AddComponent typeName e v = .ok () cm') :
    ∃ a a', (Map.find cm.m_ComponentTypes typeName).isSome = true ∧
      Map.find cm.m_ComponentArrays typeName = some a ∧ a.InsertData e v = .ok () a' ∧
      cm' = { cm with m_ComponentArrays := Map.assign cm.m_ComponentArrays typeName a' } := by
  unfold ComponentManager.AddComponent at h
  split at h
  · cases h
  · cases h
  · rename_i a s hga
    obtain ⟨_, ht, ha⟩ := ComponentManager.getComponentArray_ok hga
    split at h
    · cases h
    · cases h
    · rename_i u a' hins
      injection h with _ h2
      exact ⟨a, a', ht, ha, hins, h2.symm⟩

theorem ComponentManager.addComponent_throw {V : Type} {cm s : ComponentManager V}
    {typeName : TypeName} {e : Entity} {v : V} {x : Exn}
    (h : cm.AddComponent typeName e v = .throw x s) : s = cm := by
  unfold ComponentManager.AddComponent at h
  split at h
  · cases h
  · injection h with _ h2
    exact h2.symm
  · split at h
    · cases h
    · injection h with _ h2
      exact h2.symm
    · cases h

theorem ComponentManager.remove_ok {V : Type} {cm cm' : ComponentManager V}
    {typeName : TypeName} {e : Entity}
    (h : cm.RemoveComponent typeName e = .ok () cm') :
    ∃ a a', (Map.find cm.m_ComponentTypes typeName).isSome = true ∧
      Map.find cm.m_ComponentArrays typeName = some a ∧ a.RemoveData e = .ok () a' ∧
      cm' = { cm with m_ComponentArrays := Map.assign cm.m_ComponentArrays typeName a' } := by
  unfold ComponentManager.RemoveComponent at h
  split at h
  · cases h
  · cases h
  · rename_i a s hga
    obtain ⟨_, ht, ha⟩ := ComponentManager.getComponentArray_ok hga
    split at h
    · cases h
    · cases h
    · rename_i u a' hrem
      injection h with _ h2
      exact ⟨a, a', ht, ha, hrem, h2.symm⟩

theorem ComponentManager.removeComponent_throw {V : Type} {cm s : ComponentManager V}
    {typeName : TypeName} {e : Entity} {x : Exn}
    (h : cm.RemoveComponent typeName e = .throw x s) : s = cm := by
  unfold ComponentManager.RemoveComponent at h
  split at h
  · cases h
  · injection h with _ h2
    exact h2.symm
  · split at h
    · cases h
    · injection h with _ h2
      exact h2.symm
    · cases h

theorem ComponentManager.registerComponent_throw {V : Type} [Inhabited V]
    {cm s : ComponentManager V} {typeName : TypeName} {x : Exn}
    (h : cm.RegisterComponent typeName = .throw x s) : s = cm := by
  unfold ComponentManager.RegisterComponent at h
  split at h
  · injection h with _ h2
    exact h2.symm
  · cases h

theorem ComponentManager.registerComponent_ok {V : Type} [Inhabited V]
    {cm cm' : ComponentManager V} {typeName : TypeName}
    (h : cm.RegisterComponent typeName = .ok () cm') :
    Map.find cm.m_ComponentTypes typeName = none ∧
    cm' = {
      m_ComponentTypes := Map.insert cm.m_ComponentTypes typeName cm.m_NextComponentType
      m_ComponentArrays := Map.insert cm.m_ComponentArrays typeName ComponentArray.new
      m_NextComponentType := (cm.m_NextComponentType + 1) % 2 ^ 8 } := by
  unfold ComponentManager.RegisterComponent at h
  split at h
  · cases h
  · rename_i ht
    injection h with _ h2
    exact ⟨ht, h2.symm⟩

theorem ComponentManager.destroyedLoop_spec {V : Type} (e : Entity) :
    ∀ l : List (TypeName × ComponentArray V), (∀ p ∈ l, p.2.WF) →
      ∃ l', ComponentManager.destroyedLoop e l = some l' ∧ (∀ p ∈ l', p.2.WF) ∧
        ∀ typeName,
          (Map.find l' typeName).isSome = (Map.find l typeName).isSome ∧
          ∀ a', Map.find l' typeName = some a' →
            ∃ a, Map.find l typeName = some a ∧
              ∀ e', a'.has e' = if e' = e then false else a.has e' := by
  intro l
  induction l with
  | nil =>
    intro _
    exact ⟨[], rfl, fun p hp => by simp at hp, fun n => ⟨rfl, fun a' ha' => by
      simp [Map.find] at ha'⟩⟩
  | cons p rest ih =>
    intro hwf
    obtain ⟨k, a⟩ := p
    obtain ⟨rest', hrest, hwf', hfind⟩ := ih (fun p hp => hwf p (List.mem_cons_of_mem _ hp))
    obtain ⟨a1, ha1, hwf1, hhas⟩ :=
      ComponentArray.entityDestroyed_spec (hwf (k, a) (List.mem_cons_self _ _)) e
    refine ⟨(k, a1) :: rest', ?_, ?_, ?_⟩
    · simp only [ComponentManager.destroyedLoop, ha1, Res.state, hrest]
    · intro p hp
      rcases List.mem_cons.mp hp with hp | hp
      · rw [hp]
        exact hwf1
      · exact hwf' p hp
    · intro n
      simp only [Map.find_cons]
      by_cases hk : k = n
      · simp only [hk, if_true, Option.isSome_some, Option.some.injEq, true_and]
        intro a' ha'
        subst ha'
        exact ⟨a, rfl, hhas⟩
      · simp only [hk, if_false]
        exact hfind n

theorem ComponentManager.purge_spec {V : Type} {cm : ComponentManager V}
    (hwf : cm.WF) (e : Entity) :
    ∃ cm', cm.EntityDestroyed e = .ok () cm' ∧ cm'.WF ∧
      cm'.m_ComponentTypes = cm.m_ComponentTypes ∧
      cm'.m_NextComponentType = cm.m_NextComponentType ∧
      ∀ typeName,
        (Map.find cm'.m_ComponentArrays typeName).isSome =
          (Map.find cm.m_ComponentArrays typeName).isSome ∧
        ∀ a', Map.find cm'.m_ComponentArrays typeName = some a' →
          ∃ a, Map.find cm.m_ComponentArrays typeName = some a ∧
            ∀ e', a'.has e' = if e' = e then false else a.has e' := by
  obtain ⟨l', hl', hwf', hfind⟩ := ComponentManager.destroyedLoop_spec e _ hwf.2
  refine ⟨{ cm with m_ComponentArrays := l' }, ?_, ⟨fun n => ?_, hwf'⟩, rfl, rfl, hfind⟩
  · simp only [ComponentManager.EntityDestroyed, hl']
  · dsimp only
    rw [(hfind n).1]
    exact hwf.1 n

theorem ComponentManager.storage_WF_new {V : Type} : (ComponentManager.new : ComponentManager V).WF :=
  ⟨fun _ => rfl, fun p hp => by simp [ComponentManager.new] at hp⟩

theorem ComponentManager.WF_assign {V : Type} {cm : ComponentManager V} (hwf : cm.WF)
    {typeName : TypeName} {a a' : ComponentArray V}
    (ha : Map.find cm.m_ComponentArrays typeName = some a) (hwf' : a'.WF) :
    ({ cm with m_ComponentArrays := Map.assign cm.m_ComponentArrays typeName a' } :
      ComponentManager V).WF := by
  refine ⟨fun n => ?_, fun p hp => ?_⟩
  · dsimp only
    rw [Map.find_assign, hwf.1 n]
    by_cases hn : n = typeName
    · subst hn
      simp [ha]
    · simp [hn]
  · rcases Map.mem_assign hp with hp | hp
    · exact hwf.2 p hp
    · rw [hp]
      exact hwf'

theorem ComponentManager.WF_registerComponent {V : Type} [Inhabited V]
    {cm cm' : ComponentManager V} {typeName : TypeName} (hwf : cm.WF)
    (h : cm.RegisterComponent typeName = .ok () cm') : cm'.WF := by
  obtain ⟨ht, rfl⟩ := ComponentManager.registerComponent_ok h
  have ha : Map.find cm.m_ComponentArrays typeName = none := by
    have := hwf.1 typeName
    rw [ht] at this
    cases hf : Map.find cm.m_ComponentArrays typeName with
    | none => rfl
    | some a => simp [hf] at this
  refine ⟨fun n => ?_, fun p hp => ?_⟩
  · dsimp only
    rw [Map.find_insert_of_none ht, Map.find_insert_of_none ha]
    by_cases hn : n = typeName
    · simp [hn]
    · simp [hn, hwf.1 n]
  · rcases Map.mem_insert hp with hp | hp
    · exact hwf.2 p hp
    · rw [hp]
      exact ComponentArray.WF_new

/-! ## Signatures -/

theorem Signature.set_of_lt (signature : Signature) {pos : Nat} (h : pos < MAX_COMPONENTS)
    (value : Bool) : ∃ s, Signature.set signature pos value = some s := by
  unfold Signature.set
  rw [if_pos h]
  cases value <;> simp

theorem Signature.set_eq_none {signature : Signature} {pos : Nat} {value : Bool}
    (h : Signature.set signature pos value = none) : MAX_COMPONENTS ≤ pos := by
  unfold Signature.set at h
  by_cases hp : pos < MAX_COMPONENTS
  · rw [if_pos hp] at h
    cases value <;> simp at h
  · omega

theorem Signature.set_lt {signature s : Signature} {pos : Nat} {value : Bool}
    (h : Signature.set signature pos value = some s) : pos < MAX_COMPONENTS := by
  unfold Signature.set at h
  by_cases hp : pos < MAX_COMPONENTS
  · exact hp
  · rw [if_neg hp] at h
    cases h

theorem Signature.testBit_set_true {signature s : Signature} {pos : Nat}
    (h : Signature.set signature pos true = some s) (j : Nat) :
    s.testBit j = (signature.testBit j || decide (pos = j)) := by
  have hp := Signature.set_lt h
  unfold Signature.set at h
  rw [if_pos hp] at h
  simp only [if_true, Option.some.injEq] at h
  rw [← h, Nat.testBit_or, Nat.one_shiftLeft, Nat.testBit_two_pow]

theorem Signature.testBit_set_false {signature s : Signature} {pos : Nat}
    (h : Signature.set signature pos false = some s) (j : Nat) :
    s.testBit j = (signature.testBit j && (decide (j < MAX_COMPONENTS) && !decide (pos = j))) := by
  have hp := Signature.set_lt h
  unfold Signature.set at h
  rw [if_pos hp] at h
  simp only [Bool.false_eq_true, if_false, Option.some.injEq] at h
  rw [← h, Nat.testBit_and, Nat.testBit_xor, Nat.one_shiftLeft, Nat.testBit_two_pow,
    Nat.testBit_two_pow_sub_one]
  by_cases h1 : j < MAX_COMPONENTS <;> by_cases h2 : pos = j <;> simp [h1, h2]
  omega

/-! ## The system registry -/

theorem SystemManager.changedLoop_signatures (entity : Entity) (entitySignature : Signature) :
    ∀ (systems : List (TypeName × System)) (signatures : List (TypeName × Signature))
      (k : TypeName),
      (Map.find (SystemManager.changedLoop entity entitySignature systems signatures).2 k).getD 0 =
        (Map.find signatures k).getD 0 := by
  intro systems
  induction systems with
  | nil => exact fun _ _ => rfl
  | cons p rest ih =>
    intro signatures k
    obtain ⟨type, system⟩ := p
    simp only [SystemManager.changedLoop]
    rw [ih, Map.getD_find_insert]

theorem SystemManager.changedLoop_systems (entity : Entity) (entitySignature : Signature) :
    ∀ (systems : List (TypeName × System)) (signatures : List (TypeName × Signature))
      (k : TypeName),
      Map.find (SystemManager.changedLoop entity entitySignature systems signatures).1 k =
        (Map.find systems k).map fun system =>
          if entitySignature &&& (Map.find signatures k).getD 0 = (Map.find signatures k).getD 0
          then (⟨insert entity system.m_Entities⟩ : System)
          else ⟨system.m_Entities.erase entity⟩ := by
  intro systems
  induction systems with
  | nil => exact fun _ _ => rfl
  | cons p rest ih =>
    intro signatures k
    obtain ⟨type, system⟩ := p
    simp only [SystemManager.changedLoop, Map.find_cons]
    by_cases hk : type = k
    · subst hk
      simp only [if_true, Option.map_some', Map.getD_find_insert]
    · simp only [hk, if_false]
      rw [ih, Map.getD_find_insert]

theorem SystemManager.entityDestroyed_systems (sm : SystemManager) (entity : Entity)
    (k : TypeName) :
    Map.find (sm.EntityDestroyed entity).m_Systems k =
      (Map.find sm.m_Systems k).map fun system =>
        (⟨system.m_Entities.erase entity⟩ : System) := by
  simp only [SystemManager.EntityDestroyed]
  induction sm.m_Systems with
  | nil => rfl
  | cons p rest ih =>
    obtain ⟨type, system⟩ := p
    simp only [List.map_cons, Map.find_cons]
    by_cases hk : type = k
    · simp [hk]
    · simp only [hk, if_false]
      exact ih

/-! ## The coordinator: what each call does -/

theorem Coordinator.addComponent_eq {V : Type} (c : Coordinator V) (typeName : TypeName)
    (e : Entity) (v : V) :
    c.AddComponent typeName e v =
      match c.m_ComponentManager.AddComponent typeName e v with
      | .undefined => .undefined
      | .throw x _ => .throw x c
      | .ok _ cm => c.updateSignature cm typeName e true := by
  unfold Coordinator.AddComponent Coordinator.updateSignature
  cases c.m_ComponentManager.AddComponent typeName e v <;> rfl

theorem Coordinator.removeComponent_eq {V : Type} (c : Coordinator V) (typeName : TypeName)
    (e : Entity) :
    c.RemoveComponent typeName e =
      match c.m_ComponentManager.RemoveComponent typeName e with
      | .undefined => .undefined
      | .throw x _ => .throw x c
      | .ok _ cm => c.updateSignature cm typeName e false := by
  unfold Coordinator.RemoveComponent Coordinator.updateSignature
  cases c.m_ComponentManager.RemoveComponent typeName e <;> rfl

theorem Coordinator.updateSignature_of_ge {V : Type} (c : Coordinator V) (cm : ComponentManager V)
    (typeName : TypeName) {e : Entity} (value : Bool) (he : MAX_ENTITIES ≤ e) :
    c.updateSignature cm typeName e value =
      .throw .entityOutOfRange { c with m_ComponentManager := cm } := by
  simp only [Coordinator.updateSignature, EntityManager.GetSignature, ge_iff_le, he, if_true]

theorem Coordinator.updateSignature_of_lt {V : Type} (c : Coordinator V) (cm : ComponentManager V)
    (typeName : TypeName) {e : Entity} (value : Bool) (he : e < MAX_ENTITIES) :
    c.updateSignature cm typeName e value =
      match Map.find cm.m_ComponentTypes typeName with
      | none => .throw .componentNotRegistered { c with m_ComponentManager := cm }
      | some componentType =>
        match Signature.set (c.m_EntityManager.m_Signatures e) componentType value with
        | none => .throw .bitsetOutOfRange { c with m_ComponentManager := cm }
        | some signature' =>
          .ok () {
            m_EntityManager := { c.m_EntityManager with
              m_Signatures := Function.update c.m_EntityManager.m_Signatures e signature' }
            m_ComponentManager := cm
            m_SystemManager := c.m_SystemManager.EntitySignatureChanged e signature' } := by
  have hge : ¬ MAX_ENTITIES ≤ e := Nat.not_le.mpr he
  simp only [Coordinator.updateSignature, EntityManager.GetSignature,
    EntityManager.SetSignature, ComponentManager.GetComponentType, ge_iff_le, hge, if_false]
  cases Map.find cm.m_ComponentTypes typeName with
  | none => rfl
  | some t => rfl

theorem Coordinator.updateSignature_ok {V : Type} {c c' : Coordinator V}
    {cm : ComponentManager V} {typeName : TypeName} {e : Entity} {value : Bool}
    (h : c.updateSignature cm typeName e value = .ok () c') :
    e < MAX_ENTITIES ∧ ∃ i s, Map.find cm.m_ComponentTypes typeName = some i ∧
      Signature.set (c.m_EntityManager.m_Signatures e) i value = some s ∧
      c' = {
        m_EntityManager := { c.m_EntityManager with
          m_Signatures := Function.update c.m_EntityManager.m_Signatures e s }
        m_ComponentManager := cm
        m_SystemManager := c.m_SystemManager.EntitySignatureChanged e s } := by
  by_cases he : e < MAX_ENTITIES
  · refine ⟨he, ?_⟩
    rw [Coordinator.updateSignature_of_lt c cm typeName value he] at h
    cases ht : Map.find cm.m_ComponentTypes typeName with
    | none => simp [ht] at h
    | some t =>
      cases hs : Signature.set (c.m_EntityManager.m_Signatures e) t value with
      | none => simp [ht, hs] at h
      | some s =>
        simp only [ht, hs, Res.ok.injEq, true_and] at h
        exact ⟨t, s, rfl, hs, h.symm⟩
  · rw [Coordinator.updateSignature_of_ge c cm typeName value (Nat.le_of_not_lt he)] at h
    cases h

theorem Coordinator.updateSignature_throw {V : Type} {c s : Coordinator V}
    {cm : ComponentManager V} {typeName : TypeName} {e : Entity} {value : Bool} {x : Exn}
    (h : c.updateSignature cm typeName e value = .throw x s) :
    s = { c with m_ComponentManager := cm } ∧
    (MAX_ENTITIES ≤ e ∨ Map.find cm.m_ComponentTypes typeName = none ∨
      ∃ i, Map.find cm.m_ComponentTypes typeName = some i ∧ MAX_COMPONENTS ≤ i) := by
  by_cases he : e < MAX_ENTITIES
  · rw [Coordinator.updateSignature_of_lt c cm typeName value he] at h
    cases ht : Map.find cm.m_ComponentTypes typeName with
    | none =>
      simp only [ht, Res.throw.injEq] at h
      exact ⟨h.2.symm, Or.inr (Or.inl rfl)⟩
    | some t =>
      cases hs : Signature.set (c.m_EntityManager.m_Signatures e) t value with
      | none =>
        simp only [ht, hs, Res.throw.injEq] at h
        exact ⟨h.2.symm, Or.inr (Or.inr ⟨t, rfl, Signature.set_eq_none hs⟩)⟩
      | some s' => simp [ht, hs] at h
  · have hge := Nat.le_of_not_lt he
    rw [Coordinator.updateSignature_of_ge c cm typeName value hge] at h
    injection h with _ h2
    exact ⟨h2.symm, Or.inl hge⟩

theorem Coordinator.updateSignature_state {V : Type} (c : Coordinator V)
    (cm : ComponentManager V) (typeName : TypeName) (e : Entity) (value : Bool) :
    ∃ c', (c.updateSignature cm typeName e value).state = some c' := by
  by_cases he : e < MAX_ENTITIES
  · rw [Coordinator.updateSignature_of_lt c cm typeName value he]
    cases Map.find cm.m_ComponentTypes typeName with
    | none => exact ⟨_, rfl⟩
    | some t =>
      dsimp only
      cases Signature.set (c.m_EntityManager.m_Signatures e) t value <;> exact ⟨_, rfl⟩
  · rw [Coordinator.updateSignature_of_ge c cm typeName value (Nat.le_of_not_lt he)]
    exact ⟨_, rfl⟩

/-- The state after `AddComponent`, whether it returned or threw: nothing changed,
or the value was inserted and then the signature update ran (and returned or
threw). -/
theorem Coordinator.addComponent_state {V : Type} {c c' : Coordinator V} {typeName : TypeName}
    {e : Entity} {v : V} (h : (c.AddComponent typeName e v).state = some c') :
    c' = c ∨ ∃ cm, c.m_ComponentManager.AddComponent typeName e v = .ok () cm ∧
      (c.updateSignature cm typeName e true).state = some c' := by
  rw [Coordinator.addComponent_eq] at h
  cases hcm : c.m_ComponentManager.AddComponent typeName e v with
  | undefined => simp [hcm, Res.state] at h
  | throw x s =>
    simp only [hcm, Res.state, Option.some.injEq] at h
    exact Or.inl h.symm
  | ok u cm =>
    simp only [hcm] at h
    exact Or.inr ⟨cm, rfl, h⟩

theorem Coordinator.removeComponent_state {V : Type} {c c' : Coordinator V}
    {typeName : TypeName} {e : Entity} (h : (c.RemoveComponent typeName e).state = some c') :
    c' = c ∨ ∃ cm, c.m_ComponentManager.RemoveComponent typeName e = .ok () cm ∧
      (c.updateSignature cm typeName e false).state = some c' := by
  rw [Coordinator.removeComponent_eq] at h
  cases hcm : c.m_ComponentManager.RemoveComponent typeName e with
  | undefined => simp [hcm, Res.state] at h
  | throw x s =>
    simp only [hcm, Res.state, Option.some.injEq] at h
    exact Or.inl h.symm
  | ok u cm =>
    simp only [hcm] at h
    exact Or.inr ⟨cm, rfl, h⟩

theorem Coordinator.addComponent_ok {V : Type} {c c' : Coordinator V} {typeName : TypeName}
    {e : Entity} {v : V} (h : c.AddComponent typeName e v = .ok () c') :
    ∃ cm, c.m_ComponentManager.AddComponent typeName e v = .ok () cm ∧
      c.updateSignature cm typeName e true = .ok () c' := by
  rw [Coordinator.addComponent_eq] at h
  cases hcm : c.m_ComponentManager.AddComponent typeName e v with
  | undefined => simp [hcm] at h
  | throw x s => simp [hcm] at h
  | ok u cm =>
    simp only [hcm] at h
    exact ⟨cm, rfl, h⟩

theorem Coordinator.removeComponent_ok {V : Type} {c c' : Coordinator V} {typeName : TypeName}
    {e : Entity} (h : c.RemoveComponent typeName e = .ok () c') :
    ∃ cm, c.m_ComponentManager.RemoveComponent typeName e = .ok () cm ∧
      c.updateSignature cm typeName e false = .ok () c' := by
  rw [Coordinator.removeComponent_eq] at h
  cases hcm : c.m_ComponentManager.RemoveComponent typeName e with
  | undefined => simp [hcm] at h
  | throw x s => simp [hcm] at h
  | ok u cm =>
    simp only [hcm] at h
    exact ⟨cm, rfl, h⟩

theorem Coordinator.destroyEntity_of_ge {V : Type} (c : Coordinator V) {e : Entity}
    (he : MAX_ENTITIES ≤ e) : c.DestroyEntity e = .throw .entityOutOfRange c := by
  simp only [Coordinator.DestroyEntity, EntityManager.destroyEntity_ge he]

theorem Coordinator.destroyEntity_of_lt {V : Type} {c : Coordinator V}
    (hwf : c.m_ComponentManager.WF) {e : Entity} (he : e < MAX_ENTITIES) :
    ∃ cm, c.m_ComponentManager.EntityDestroyed e = .ok () cm ∧
      c.DestroyEntity e = .ok () {
        m_EntityManager := {
          m_Signatures := Function.update c.m_EntityManager.m_Signatures e 0
          m_AvailableEntities := c.m_EntityManager.m_AvailableEntities ++ [e]
          m_LivingEntityCount := (c.m_EntityManager.m_LivingEntityCount + 2 ^ 32 - 1) % 2 ^ 32 }
        m_ComponentManager := cm
        m_SystemManager := c.m_SystemManager.EntityDestroyed e } := by
  obtain ⟨cm, hcm, _⟩ := ComponentManager.purge_spec hwf e
  refine ⟨cm, hcm, ?_⟩
  simp only [Coordinator.DestroyEntity, EntityManager.destroyEntity_lt he, hcm]

theorem Coordinator.createEntity_state {V : Type} {c c' : Coordinator V}
    (h : c.CreateEntity.state = some c') :
    c'.m_ComponentManager = c.m_ComponentManager ∧ c'.m_SystemManager = c.m_SystemManager ∧
      c'.m_EntityManager.m_Signatures = c.m_EntityManager.m_Signatures := by
  unfold Coordinator.CreateEntity at h
  cases hc : c.m_EntityManager.CreateEntity with
  | undefined => simp [hc, Res.state] at h
  | throw x s =>
    simp only [hc, Res.state, Option.some.injEq] at h
    subst h
    exact ⟨rfl, rfl, rfl⟩
  | ok id em =>
    simp only [hc, Res.state, Option.some.injEq] at h
    subst h
    exact ⟨rfl, rfl, (EntityManager.createEntity_ok hc).2.2.1⟩

theorem Coordinator.registerComponent_state {V : Type} [Inhabited V] {c c' : Coordinator V}
    {typeName : TypeName} (h : (c.RegisterComponent typeName).state = some c') :
    c' = c ∨ ∃ cm, c.m_ComponentManager.RegisterComponent typeName = .ok () cm ∧
      c' = { c with m_ComponentManager := cm } := by
  unfold Coordinator.RegisterComponent at h
  cases hc : c.m_ComponentManager.RegisterComponent typeName with
  | undefined => simp [hc, Res.state] at h
  | throw x s =>
    simp only [hc, Res.state, Option.some.injEq] at h
    exact Or.inl h.symm
  | ok u cm =>
    simp only [hc, Res.state, Option.some.injEq] at h
    exact Or.inr ⟨cm, rfl, h.symm⟩

theorem Coordinator.registerSystem_state {V : Type} {c c' : Coordinator V}
    {typeName : TypeName} (h : (c.RegisterSystem typeName).state = some c') :
    c'.m_ComponentManager = c.m_ComponentManager ∧ c'.m_EntityManager = c.m_EntityManager := by
  unfold Coordinator.RegisterSystem at h
  cases hc : c.m_SystemManager.RegisterSystem typeName with
  | undefined => simp [hc, Res.state] at h
  | throw x s =>
    simp only [hc, Res.state, Option.some.injEq] at h
    subst h
    exact ⟨rfl, rfl⟩
  | ok u sm =>
    simp only [hc, Res.state, Option.some.injEq] at h
    subst h
    exact ⟨rfl, rfl⟩

theorem Coordinator.setSystemSignature_state {V : Type} {c c' : Coordinator V}
    {typeName : TypeName} {signature : Signature}
    (h : (c.SetSystemSignature typeName signature).state = some c') :
    c'.m_ComponentManager = c.m_ComponentManager ∧ c'.m_EntityManager = c.m_EntityManager := by
  unfold Coordinator.SetSystemSignature at h
  cases hc : c.m_SystemManager.SetSignature typeName signature with
  | undefined => simp [hc, Res.state] at h
  | throw x s =>
    simp only [hc, Res.state, Option.some.injEq] at h
    subst h
    exact ⟨rfl, rfl⟩
  | ok u sm =>
    simp only [hc, Res.state, Option.some.injEq] at h
    subst h
    exact ⟨rfl, rfl⟩

/-! ## The coordinator: invariants of the reachable states -/

theorem Coordinator.updateSignature_state_storage {V : Type} {c c' : Coordinator V}
    {cm : ComponentManager V} {typeName : TypeName} {e : Entity} {value : Bool}
    (h : (c.updateSignature cm typeName e value).state = some c') :
    c'.m_ComponentManager = cm := by
  cases hu : c.updateSignature cm typeName e value with
  | undefined => simp [hu, Res.state] at h
  | throw x s =>
    simp only [hu, Res.state, Option.some.injEq] at h
    subst h
    rw [(Coordinator.updateSignature_throw hu).1]
  | ok u s =>
    simp only [hu, Res.state, Option.some.injEq] at h
    subst h
    obtain ⟨_, i, sg, _, _, hs⟩ := Coordinator.updateSignature_ok hu
    rw [hs]

/-- Every call keeps the component storage well-formed. -/
theorem Coordinator.WF_call {V : Type} [Inhabited V] {c c' : Coordinator V}
    (hwf : c.m_ComponentManager.WF) (op : Op V) (h : c.call op = some c') :
    c'.m_ComponentManager.WF := by
  cases op with
  | RegisterComponent n =>
    rcases Coordinator.registerComponent_state h with h | ⟨cm, hcm, h⟩
    · rw [h]; exact hwf
    · rw [h]; exact ComponentManager.WF_registerComponent hwf hcm
  | CreateEntity =>
    rw [(Coordinator.createEntity_state h).1]
    exact hwf
  | DestroyEntity e =>
    by_cases he : e < MAX_ENTITIES
    · obtain ⟨cm', hcm', hwf', _⟩ := ComponentManager.purge_spec hwf e
      simp only [Coordinator.call, Coordinator.DestroyEntity, EntityManager.destroyEntity_lt he,
        hcm', Res.state, Option.some.injEq] at h
      rw [← h]
      exact hwf'
    · simp only [Coordinator.call, Coordinator.destroyEntity_of_ge c (Nat.le_of_not_lt he),
        Res.state, Option.some.injEq] at h
      rw [← h]
      exact hwf
  | AddComponent n e v =>
    rcases Coordinator.addComponent_state h with h | ⟨cm, hcm, h⟩
    · rw [h]; exact hwf
    · rw [Coordinator.updateSignature_state_storage h]
      obtain ⟨a, a', _, ha, hins, rfl⟩ := ComponentManager.insert_ok hcm
      exact ComponentManager.WF_assign hwf ha
        (ComponentArray.WF_insertData (hwf.2 _ (Map.mem_of_find ha)) hins)
  | RemoveComponent n e =>
    rcases Coordinator.removeComponent_state h with h | ⟨cm, hcm, h⟩
    · rw [h]; exact hwf
    · rw [Coordinator.updateSignature_state_storage h]
      obtain ⟨a, a', _, ha, hrem, rfl⟩ := ComponentManager.remove_ok hcm
      exact ComponentManager.WF_assign hwf ha
        (ComponentArray.WF_removeData (hwf.2 _ (Map.mem_of_find ha)) hrem)
  | RegisterSystem n =>
    rw [(Coordinator.registerSystem_state h).1]
    exact hwf
  | SetSystemSignature n s =>
    rw [(Coordinator.setSystemSignature_state h).1]
    exact hwf

theorem Coordinator.storage_WF_run {V : Type} [Inhabited V] (ops : List (Op V)) :
    ∀ {c c' : Coordinator V}, c.m_ComponentManager.WF → Coordinator.run ops c = some c' →
      c'.m_ComponentManager.WF := by
  induction ops with
  | nil =>
    intro c c' hwf h
    simp only [Coordinator.run, Option.some.injEq] at h
    rw [← h]
    exact hwf
  | cons op ops ih =>
    intro c c' hwf h
    simp only [Coordinator.run] at h
    cases hc : c.call op with
    | none => simp [hc] at h
    | some c1 =>
      rw [hc] at h
      exact ih (Coordinator.WF_call hwf op hc) h

theorem Coordinator.WF_Init {V : Type} :
    (Coordinator.Init : Coordinator V).m_ComponentManager.WF :=
  ComponentManager.storage_WF_new

theorem Coordinator.Consistent.of_eq {V : Type} {c c' : Coordinator V} (h : c.Consistent)
    (hcm : c'.m_ComponentManager = c.m_ComponentManager)
    (hsig : c'.m_EntityManager.m_Signatures = c.m_EntityManager.m_Signatures) :
    c'.Consistent := by
  have hs : ∀ e, c'.signature e = c.signature e := fun e => by
    simp only [Coordinator.signature, hsig]
  have hh : ∀ n e, c'.holds n e = c.holds n e := fun n e => by
    simp only [Coordinator.holds, hcm]
  refine ⟨?_, ?_, ?_, ?_, ?_⟩
  · rw [hcm]; exact h.next_eq
  · rw [hcm]; exact h.index_lt
  · rw [hcm]; exact h.index_inj
  · intro e he n i hi
    rw [hcm] at hi
    rw [hs, hh]
    exact h.bit_iff e he n i hi
  · intro e he i hi
    rw [hcm] at hi
    rw [hs]
    exact h.bit_free e he i hi

theorem Coordinator.Consistent_Init {V : Type} : (Coordinator.Init : Coordinator V).Consistent := by
  refine ⟨rfl, ?_, ?_, ?_, ?_⟩
  · intro n i h
    simp [Coordinator.Init, ComponentManager.new, Map.find] at h
  · intro n1 n2 i h
    simp [Coordinator.Init, ComponentManager.new, Map.find] at h
  · intro e _ n i h
    simp [Coordinator.Init, ComponentManager.new, Map.find] at h
  · intro e _ i _
    simp [Coordinator.Init, Coordinator.signature, EntityManager.new]

/-- Presence of values after the array of one type has been replaced. -/
theorem Coordinator.holds_assign {V : Type} {c c' : Coordinator V} {typeName : TypeName}
    {a a' : ComponentArray V}
    (ha : Map.find c.m_ComponentManager.m_ComponentArrays typeName = some a)
    (hcm : c'.m_ComponentManager = { c.m_ComponentManager with
      m_ComponentArrays := Map.assign c.m_ComponentManager.m_ComponentArrays typeName a' })
    (n : TypeName) (e : Entity) :
    c'.holds n e = if n = typeName then a'.has e else c.holds n e := by
  simp only [Coordinator.holds, hcm, Map.find_assign]
  by_cases hn : n = typeName
  · subst hn
    simp [ha]
  · simp [hn]

theorem Coordinator.holds_of_find {V : Type} {c : Coordinator V} {typeName : TypeName}
    {a : ComponentArray V}
    (ha : Map.find c.m_ComponentManager.m_ComponentArrays typeName = some a) (e : Entity) :
    c.holds typeName e = a.has e := by
  simp only [Coordinator.holds, ha]

/-- Presence of values after `ComponentManager::EntityDestroyed`. -/
theorem Coordinator.holds_destroyed {V : Type} {c c' : Coordinator V} {e0 : Entity}
    (hcm : ∀ typeName,
      (Map.find c'.m_ComponentManager.m_ComponentArrays typeName).isSome =
        (Map.find c.m_ComponentManager.m_ComponentArrays typeName).isSome ∧
      ∀ a', Map.find c'.m_ComponentManager.m_ComponentArrays typeName = some a' →
        ∃ a, Map.find c.m_ComponentManager.m_ComponentArrays typeName = some a ∧
          ∀ e', a'.has e' = if e' = e0 then false else a.has e')
    (n : TypeName) (e : Entity) :
    c'.holds n e = if e = e0 then false else c.holds n e := by
  obtain ⟨hsome, hfind⟩ := hcm n
  cases hf' : Map.find c'.m_ComponentManager.m_ComponentArrays n with
  | none =>
    rw [hf'] at hsome
    cases hf : Map.find c.m_ComponentManager.m_ComponentArrays n with
    | none => simp [Coordinator.holds, hf, hf']
    | some a => simp [hf] at hsome
  | some a' =>
    obtain ⟨a, ha, hhas⟩ := hfind a' hf'
    simp only [Coordinator.holds, hf', ha, hhas]

theorem Coordinator.Consistent.registerComponent {V : Type} [Inhabited V] {c : Coordinator V}
    {cm : ComponentManager V} {typeName : TypeName}
    (hwf : c.m_ComponentManager.WF) (h : c.Consistent)
    (hcm : c.m_ComponentManager.RegisterComponent typeName = .ok () cm)
    (hcap : cm.m_ComponentTypes.length ≤ MAX_COMPONENTS) :
    ({ c with m_ComponentManager := cm } : Coordinator V).Consistent := by
  obtain ⟨ht, rfl⟩ := ComponentManager.registerComponent_ok hcm
  have ha : Map.find c.m_ComponentManager.m_ComponentArrays typeName = none := by
    have := hwf.1 typeName
    rw [ht] at this
    cases hf : Map.find c.m_ComponentManager.m_ComponentArrays typeName with
    | none => rfl
    | some a => simp [hf] at this
  have hlen : (Map.insert c.m_ComponentManager.m_ComponentTypes typeName
      c.m_ComponentManager.m_NextComponentType).length =
      c.m_ComponentManager.m_ComponentTypes.length + 1 := by
    rw [Map.insert_of_none ht]
    simp
  dsimp only at hcap
  rw [hlen, MAX_COMPONENTS] at hcap
  have hnext := h.next_eq
  have hmod : (c.m_ComponentManager.m_NextComponentType + 1) % 2 ^ 8 =
      c.m_ComponentManager.m_NextComponentType + 1 := by omega
  refine ⟨?_, ?_, ?_, ?_, ?_⟩
  · dsimp only
    rw [hmod, hlen, hnext]
  · intro n i hi
    dsimp only at hi ⊢
    rw [hmod]
    rw [Map.find_insert_of_none ht] at hi
    by_cases hn : n = typeName
    · rw [if_pos hn] at hi
      injection hi with hi
      rw [← hi]
      exact Nat.lt_succ_self _
    · rw [if_neg hn] at hi
      have := h.index_lt n i hi
      omega
  · intro n1 n2 i h1 h2
    dsimp only at h1 h2
    rw [Map.find_insert_of_none ht] at h1 h2
    by_cases hn1 : n1 = typeName <;> by_cases hn2 : n2 = typeName
    · rw [hn1, hn2]
    · rw [if_pos hn1] at h1
      rw [if_neg hn2] at h2
      injection h1 with h1
      have := h.index_lt n2 i h2
      rw [← h1] at this
      exact absurd this (Nat.lt_irrefl _)
    · rw [if_neg hn1] at h1
      rw [if_pos hn2] at h2
      injection h2 with h2
      have := h.index_lt n1 i h1
      rw [← h2] at this
      exact absurd this (Nat.lt_irrefl _)
    · rw [if_neg hn1] at h1
      rw [if_neg hn2] at h2
      exact h.index_inj n1 n2 i h1 h2
  · intro e he n i hi
    dsimp only at hi
    rw [Map.find_insert_of_none ht] at hi
    have hsig : ({ c with m_ComponentManager := {
        m_ComponentTypes := Map.insert c.m_ComponentManager.m_ComponentTypes typeName
          c.m_ComponentManager.m_NextComponentType
        m_ComponentArrays := Map.insert c.m_ComponentManager.m_ComponentArrays typeName
          ComponentArray.new
        m_NextComponentType := (c.m_ComponentManager.m_NextComponentType + 1) % 2 ^ 8 } } :
        Coordinator V).signature e = c.signature e := rfl
    rw [hsig]
    simp only [Coordinator.holds, Map.find_insert_of_none ha]
    by_cases hn : n = typeName
    · rw [if_pos hn] at hi
      injection hi with hi
      rw [if_pos hn, ← hi, h.bit_free e he _ (Nat.le_refl _)]
      simp [ComponentArray.has, ComponentArray.new]
    · rw [if_neg hn] at hi
      rw [if_neg hn]
      exact h.bit_iff e he n i hi
  · intro e he i hi
    dsimp only at hi
    rw [hmod] at hi
    exact h.bit_free e he i (by omega)

theorem Coordinator.Consistent.destroyEntity {V : Type} {c : Coordinator V}
    (hwf : c.m_ComponentManager.WF) (h : c.Consistent) {e0 : Entity} (he0 : e0 < MAX_ENTITIES)
    {c' : Coordinator V} (hd : c.DestroyEntity e0 = .ok () c') : c'.Consistent := by
  obtain ⟨cm', hcm', _, htypes, hnext, hfind⟩ := ComponentManager.purge_spec hwf e0
  simp only [Coordinator.DestroyEntity, EntityManager.destroyEntity_lt he0, hcm',
    Res.ok.injEq, true_and] at hd
  have hholds : ∀ n e, c'.holds n e = if e = e0 then false else c.holds n e := by
    intro n e
    apply Coordinator.holds_destroyed
    rw [← hd]
    exact hfind
  have hsig : ∀ e, c'.signature e = if e = e0 then 0 else c.signature e := by
    intro e
    rw [← hd]
    simp only [Coordinator.signature, Function.update_apply]
  have hty : c'.m_ComponentManager.m_ComponentTypes = c.m_ComponentManager.m_ComponentTypes := by
    rw [← hd]; exact htypes
  have hnx : c'.m_ComponentManager.m_NextComponentType =
      c.m_ComponentManager.m_NextComponentType := by
    rw [← hd]; exact hnext
  refine ⟨?_, ?_, ?_, ?_, ?_⟩
  · rw [hty, hnx]; exact h.next_eq
  · rw [hty, hnx]; exact h.index_lt
  · rw [hty]; exact h.index_inj
  · intro e he n i hi
    rw [hty] at hi
    rw [hsig, hholds]
    by_cases hee : e = e0
    · simp [hee]
    · simp only [hee, if_false]
      exact h.bit_iff e he n i hi
  · intro e he i hi
    rw [hnx] at hi
    rw [hsig]
    by_cases hee : e = e0
    · simp [hee]
    · simp only [hee, if_false]
      exact h.bit_free e he i hi

theorem Coordinator.Consistent.updateSignature {V : Type} {c c' : Coordinator V}
    (h : c.Consistent)
    (hcap : c.m_ComponentManager.m_ComponentTypes.length ≤ MAX_COMPONENTS)
    {cm : ComponentManager V} {typeName : TypeName} {a a' : ComponentArray V}
    {e0 : Entity} {value : Bool}
    (ht : (Map.find c.m_ComponentManager.m_ComponentTypes typeName).isSome = true)
    (ha : Map.find c.m_ComponentManager.m_ComponentArrays typeName = some a)
    (hcm : cm = { c.m_ComponentManager with
      m_ComponentArrays := Map.assign c.m_ComponentManager.m_ComponentArrays typeName a' })
    (hhas : ∀ e, a'.has e = if e = e0 then value else a.has e)
    (hu : (c.updateSignature cm typeName e0 value).state = some c') : c'.Consistent := by
  have hholds : ∀ n e, c'.holds n e =
      if n = typeName then (if e = e0 then value else c.holds typeName e) else c.holds n e := by
    intro n e
    rw [Coordinator.holds_assign ha ((Coordinator.updateSignature_state_storage hu).trans hcm),
      hhas, Coordinator.holds_of_find ha]
  have hty : c'.m_ComponentManager.m_ComponentTypes = c.m_ComponentManager.m_ComponentTypes := by
    rw [Coordinator.updateSignature_state_storage hu, hcm]
  have hnx : c'.m_ComponentManager.m_NextComponentType =
      c.m_ComponentManager.m_NextComponentType := by
    rw [Coordinator.updateSignature_state_storage hu, hcm]
  have hnext32 : c.m_ComponentManager.m_NextComponentType ≤ MAX_COMPONENTS := by
    rw [h.next_eq]; exact hcap
  cases hres : c.updateSignature cm typeName e0 value with
  | undefined => simp [hres, Res.state] at hu
  | throw x s =>
    simp only [hres, Res.state, Option.some.injEq] at hu
    subst hu
    obtain ⟨hs, hwhy⟩ := Coordinator.updateSignature_throw hres
    have hsig : ∀ e, s.signature e = c.signature e := fun e => by rw [hs]; rfl
    have hge : MAX_ENTITIES ≤ e0 := by
      rcases hwhy with hge | hnone | ⟨i, hi, hge⟩
      · exact hge
      · exfalso
        rw [hcm] at hnone
        dsimp only at hnone
        rw [hnone] at ht
        cases ht
      · exfalso
        rw [hcm] at hi
        have := h.index_lt typeName i hi
        omega
    refine ⟨?_, ?_, ?_, ?_, ?_⟩
    · rw [hty, hnx]; exact h.next_eq
    · rw [hty, hnx]; exact h.index_lt
    · rw [hty]; exact h.index_inj
    · intro e he n i hi
      rw [hty] at hi
      have hee : e ≠ e0 := fun hc => by
        subst hc
        omega
      rw [hsig, hholds]
      by_cases hn : n = typeName
      · subst hn
        simp only [if_true, hee, if_false]
        exact h.bit_iff e he n i hi
      · simp only [hn, if_false]
        exact h.bit_iff e he n i hi
    · intro e he i hi
      rw [hnx] at hi
      rw [hsig]
      exact h.bit_free e he i hi
  | ok u s =>
    simp only [hres, Res.state, Option.some.injEq] at hu
    subst hu
    obtain ⟨he0, i0, sg, hi0, hset, hs⟩ := Coordinator.updateSignature_ok hres
    rw [hcm] at hi0
    dsimp only at hi0
    have hi0lt := h.index_lt typeName i0 hi0
    have hsig : ∀ e, s.signature e = if e = e0 then sg else c.signature e := by
      intro e
      rw [hs]
      simp only [Coordinator.signature, Function.update_apply]
    refine ⟨?_, ?_, ?_, ?_, ?_⟩
    · rw [hty, hnx]; exact h.next_eq
    · rw [hty, hnx]; exact h.index_lt
    · rw [hty]; exact h.index_inj
    · intro e he n i hi
      rw [hty] at hi
      rw [hsig, hholds]
      have hilt := h.index_lt n i hi
      by_cases hee : e = e0
      · subst hee
        simp only [if_true]
        have hbit : sg.testBit i = if n = typeName then value else (c.signature e).testBit i := by
          cases value with
          | true =>
            rw [Signature.testBit_set_true hset]
            by_cases hn : n = typeName
            · subst hn
              have : i0 = i := by rw [hi0] at hi; exact Option.some.inj hi
              simp [this]
            · have : i0 ≠ i := fun hc => hn (h.index_inj n typeName i hi (hc ▸ hi0))
              simp [hn, this, Coordinator.signature]
          | false =>
            rw [Signature.testBit_set_false hset]
            have hlt : i < MAX_COMPONENTS := by omega
            by_cases hn : n = typeName
            · subst hn
              have : i0 = i := by rw [hi0] at hi; exact Option.some.inj hi
              simp [this]
            · have : i0 ≠ i := fun hc => hn (h.index_inj n typeName i hi (hc ▸ hi0))
              simp [hn, this, hlt, Coordinator.signature]
        rw [hbit]
        by_cases hn : n = typeName
        · simp [hn]
        · simp only [hn, if_false]
          exact h.bit_iff e he n i hi
      · simp only [hee, if_false]
        by_cases hn : n = typeName
        · subst hn
          simp only [if_true]
          exact h.bit_iff e he n i hi
        · simp only [hn, if_false]
          exact h.bit_iff e he n i hi
    · intro e he i hi
      rw [hnx] at hi
      rw [hsig]
      by_cases hee : e = e0
      · subst hee
        simp only [if_true]
        have hfree := h.bit_free e he i hi
        simp only [Coordinator.signature] at hfree
        cases value with
        | true =>
          rw [Signature.testBit_set_true hset, hfree]
          have : i0 ≠ i := fun hc => by
            rw [hc] at hi0lt
            omega
          simp [this]
        | false =>
          rw [Signature.testBit_set_false hset, hfree]
          simp
      · simp only [hee, if_false]
        exact h.bit_free e he i hi

/-- No call removes a component type. -/
theorem Coordinator.types_length_call {V : Type} [Inhabited V] {c c' : Coordinator V}
    (hwf : c.m_ComponentManager.WF) (op : Op V) (h : c.call op = some c') :
    c.m_ComponentManager.m_ComponentTypes.length ≤
      c'.m_ComponentManager.m_ComponentTypes.length := by
  cases op with
  | RegisterComponent n =>
    rcases Coordinator.registerComponent_state h with h | ⟨cm, hcm, h⟩
    · rw [h]
    · obtain ⟨ht, rfl⟩ := ComponentManager.registerComponent_ok hcm
      rw [h]
      dsimp only
      rw [Map.insert_of_none ht]
      simp
  | CreateEntity => rw [(Coordinator.createEntity_state h).1]
  | DestroyEntity e =>
    by_cases he : e < MAX_ENTITIES
    · obtain ⟨cm', hcm', _, hty, _⟩ := ComponentManager.purge_spec hwf e
      simp only [Coordinator.call, Coordinator.DestroyEntity, EntityManager.destroyEntity_lt he,
        hcm', Res.state, Option.some.injEq] at h
      rw [← h]
      dsimp only
      rw [hty]
    · simp only [Coordinator.call, Coordinator.destroyEntity_of_ge c (Nat.le_of_not_lt he),
        Res.state, Option.some.injEq] at h
      rw [← h]
  | AddComponent n e v =>
    rcases Coordinator.addComponent_state h with h | ⟨cm, hcm, h⟩
    · rw [h]
    · rw [Coordinator.updateSignature_state_storage h]
      obtain ⟨a, a', _, ha, hins, rfl⟩ := ComponentManager.insert_ok hcm
      exact Nat.le_refl _
  | RemoveComponent n e =>
    rcases Coordinator.removeComponent_state h with h | ⟨cm, hcm, h⟩
    · rw [h]
    · rw [Coordinator.updateSignature_state_storage h]
      obtain ⟨a, a', _, ha, hrem, rfl⟩ := ComponentManager.remove_ok hcm
      exact Nat.le_refl _
  | RegisterSystem n => rw [(Coordinator.registerSystem_state h).1]
  | SetSystemSignature n s => rw [(Coordinator.setSystemSignature_state h).1]

theorem Coordinator.types_length_run {V : Type} [Inhabited V] (ops : List (Op V)) :
    ∀ {c c' : Coordinator V}, c.m_ComponentManager.WF → Coordinator.run ops c = some c' →
      c.m_ComponentManager.m_ComponentTypes.length ≤
        c'.m_ComponentManager.m_ComponentTypes.length := by
  induction ops with
  | nil =>
    intro c c' _ h
    simp only [Coordinator.run, Option.some.injEq] at h
    rw [h]
  | cons op ops ih =>
    intro c c' hwf h
    simp only [Coordinator.run] at h
    cases hc : c.call op with
    | none => simp [hc] at h
    | some c1 =>
      rw [hc] at h
      exact Nat.le_trans (Coordinator.types_length_call hwf op hc)
        (ih (Coordinator.WF_call hwf op hc) h)

/-- One call keeps signatures and storage in agreement, as long as no more than
`MAX_COMPONENTS` component types are registered after it. -/
theorem Coordinator.Consistent.after_call {V : Type} [Inhabited V] {c c' : Coordinator V}
    (hwf : c.m_ComponentManager.WF) (h : c.Consistent) (op : Op V)
    (hcall : c.call op = some c')
    (hcap : c'.m_ComponentManager.m_ComponentTypes.length ≤ MAX_COMPONENTS) :
    c'.Consistent := by
  have hcap0 : c.m_ComponentManager.m_ComponentTypes.length ≤ MAX_COMPONENTS :=
    Nat.le_trans (Coordinator.types_length_call hwf op hcall) hcap
  cases op with
  | RegisterComponent n =>
    rcases Coordinator.registerComponent_state hcall with hc | ⟨cm, hcm, hc⟩
    · rw [hc]; exact h
    · rw [hc] at hcap ⊢
      exact Coordinator.Consistent.registerComponent hwf h hcm hcap
  | CreateEntity =>
    obtain ⟨h1, _, h3⟩ := Coordinator.createEntity_state hcall
    exact h.of_eq h1 h3
  | DestroyEntity e =>
    by_cases he : e < MAX_ENTITIES
    · obtain ⟨cm, _, hd⟩ := Coordinator.destroyEntity_of_lt hwf he
      have hc : c.call (.DestroyEntity e) = (c.DestroyEntity e).state := rfl
      rw [hc, hd] at hcall
      simp only [Res.state, Option.some.injEq] at hcall
      rw [← hcall]
      exact Coordinator.Consistent.destroyEntity hwf h he hd
    · simp only [Coordinator.call, Coordinator.destroyEntity_of_ge c (Nat.le_of_not_lt he),
        Res.state, Option.some.injEq] at hcall
      rw [← hcall]
      exact h
  | AddComponent n e v =>
    rcases Coordinator.addComponent_state hcall with hc | ⟨cm, hcm, hu⟩
    · rw [hc]; exact h
    · obtain ⟨a, a', ht, ha, hins, hdef⟩ := ComponentManager.insert_ok hcm
      exact Coordinator.Consistent.updateSignature h hcap0 ht ha hdef
        (ComponentArray.insertData_has hins) hu
  | RemoveComponent n e =>
    rcases Coordinator.removeComponent_state hcall with hc | ⟨cm, hcm, hu⟩
    · rw [hc]; exact h
    · obtain ⟨a, a', ht, ha, hrem, hdef⟩ := ComponentManager.remove_ok hcm
      exact Coordinator.Consistent.updateSignature h hcap0 ht ha hdef
        (ComponentArray.removeData_has (hwf.2 _ (Map.mem_of_find ha)) hrem) hu
  | RegisterSystem n =>
    obtain ⟨h1, h2⟩ := Coordinator.registerSystem_state hcall
    exact h.of_eq h1 (by rw [h2])
  | SetSystemSignature n s =>
    obtain ⟨h1, h2⟩ := Coordinator.setSystemSignature_state hcall
    exact h.of_eq h1 (by rw [h2])

theorem Coordinator.Consistent.after_run {V : Type} [Inhabited V] (ops : List (Op V)) :
    ∀ {c c' : Coordinator V}, c.m_ComponentManager.WF → c.Consistent →
      Coordinator.run ops c = some c' →
      c'.m_ComponentManager.m_ComponentTypes.length ≤ MAX_COMPONENTS → c'.Consistent := by
  induction ops with
  | nil =>
    intro c c' _ h hrun _
    simp only [Coordinator.run, Option.some.injEq] at hrun
    rw [← hrun]
    exact h
  | cons op ops ih =>
    intro c c' hwf h hrun hcap
    simp only [Coordinator.run] at hrun
    cases hc : c.call op with
    | none => simp [hc] at hrun
    | some c1 =>
      rw [hc] at hrun
      have hwf1 := Coordinator.WF_call hwf op hc
      have hcap1 := Nat.le_trans (Coordinator.types_length_run ops hwf1 hrun) hcap
      exact ih hwf1 (h.after_call hwf op hc hcap1) hrun hcap

theorem Coordinator.getComponentType_ok_iff {V : Type} (c : Coordinator V) (typeName : TypeName)
    (i : Nat) :
    c.GetComponentType typeName = .ok i c ↔
      Map.find c.m_ComponentManager.m_ComponentTypes typeName = some i := by
  unfold Coordinator.GetComponentType ComponentManager.GetComponentType
  cases h : Map.find c.m_ComponentManager.m_ComponentTypes typeName with
  | none => simp
  | some t => simp

/-! ## Signatures and storage (C1) -/

set_option maxRecDepth 100000 in
/-- C1, as stated, fails: register 33 component types (named 0 to 32, so the last
one gets type index 32) and add a component of the last type to entity 0. The
value is inserted into the dense array, then `std::bitset::set(32, true)` throws,
so the array of the registered type with index 32 holds a value for entity 0
while no bit of the signature of entity 0 is set. -/
theorem C1_counterexample :
    Coordinator.run ((List.range 33).map Op.RegisterComponent ++ [.AddComponent 32 0 (7 : Nat)])
        Coordinator.Init =
      some (Coordinator.after
        ((List.range 33).map Op.RegisterComponent ++ [.AddComponent 32 0 (7 : Nat)])) ∧
    (Coordinator.after ((List.range 33).map (Op.RegisterComponent : TypeName → Op Nat))).AddComponent
        32 0 7 =
      .throw .bitsetOutOfRange (Coordinator.after
        ((List.range 33).map Op.RegisterComponent ++ [.AddComponent 32 0 (7 : Nat)])) ∧
    (Coordinator.after
      ((List.range 33).map Op.RegisterComponent ++ [.AddComponent 32 0 (7 : Nat)])).GetComponentType 32 =
      .ok 32 (Coordinator.after
        ((List.range 33).map Op.RegisterComponent ++ [.AddComponent 32 0 (7 : Nat)])) ∧
    (Coordinator.after
      ((List.range 33).map Op.RegisterComponent ++ [.AddComponent 32 0 (7 : Nat)])).holds 32 0 = true ∧
    ((Coordinator.after
      ((List.range 33).map Op.RegisterComponent ++ [.AddComponent 32 0 (7 : Nat)])).signature
        0).testBit 32 = false := by
  refine ⟨by rfl, by rfl, ?_, by decide, by decide⟩
  rw [Coordinator.getComponentType_ok_iff]
  decide

/-- C1, amended: for every sequence of coordinator calls (successful or not) that
runs from the freshly initialised coordinator without undefined behaviour and
leaves at most `MAX_COMPONENTS` component types registered, for every entity id
`e < MAX_ENTITIES` and every registered component type with index `i`, bit `i` of
the signature stored for `e` is set exactly if the dense array of that type holds
a value for `e`. -/
theorem C1_signature_matches_storage {V : Type} [Inhabited V] (ops : List (Op V))
    (c : Coordinator V) (hrun : Coordinator.run ops Coordinator.Init = some c)
    (hcap : c.m_ComponentManager.m_ComponentTypes.length ≤ MAX_COMPONENTS)
    (e : Entity) (he : e < MAX_ENTITIES) (typeName : TypeName) (i : Nat)
    (hi : c.GetComponentType typeName = .ok i c) :
    (c.signature e).testBit i = true ↔ c.holds typeName e = true := by
  have hcons : c.Consistent :=
    Coordinator.Consistent.after_run ops Coordinator.WF_Init Coordinator.Consistent_Init hrun hcap
  exact hcons.bit_iff e he typeName i ((Coordinator.getComponentType_ok_iff c typeName i).mp hi)

set_option maxRecDepth 100000 in
/-- Witness for C1: two types (indices 0 and 1) are registered, entity 0 is created
and given both components, a second addition of the first fails, and the first
is removed again; bit 1 is set and bit 0 is clear, as the arrays say. -/
theorem C1_signature_matches_storage_witness :
    ((Coordinator.after
      [.RegisterComponent 10, .RegisterComponent 11, .CreateEntity, .AddComponent 10 0 (5 : Nat),
        .AddComponent 11 0 6, .AddComponent 10 0 8, .RemoveComponent 10 0]).signature 0).testBit 1
      = true ∧
    ((Coordinator.after
      [.RegisterComponent 10, .RegisterComponent 11, .CreateEntity, .AddComponent 10 0 (5 : Nat),
        .AddComponent 11 0 6, .AddComponent 10 0 8, .RemoveComponent 10 0]).signature 0).testBit 0
      = false ∧
    (Coordinator.after
      [.RegisterComponent 10, .RegisterComponent 11, .CreateEntity, .AddComponent 10 0 (5 : Nat),
        .AddComponent 11 0 6, .AddComponent 10 0 8, .RemoveComponent 10 0]).holds 10 0 = false := by
  have h := C1_signature_matches_storage
    [.RegisterComponent 10, .RegisterComponent 11, .CreateEntity, .AddComponent 10 0 (5 : Nat),
      .AddComponent 11 0 6, .AddComponent 10 0 8, .RemoveComponent 10 0]
    (Coordinator.after
      [.RegisterComponent 10, .RegisterComponent 11, .CreateEntity, .AddComponent 10 0 (5 : Nat),
        .AddComponent 11 0 6, .AddComponent 10 0 8, .RemoveComponent 10 0])
    (by rfl) (by decide) 0 (by decide)
  refine ⟨(h 11 1 ?_).mpr (by decide), by decide, ?_⟩
  · rw [Coordinator.getComponentType_ok_iff]
    decide
  · have h0 := h 10 0 (by rw [Coordinator.getComponentType_ok_iff]; decide)
    cases hh : (Coordinator.after
      [.RegisterComponent 10, .RegisterComponent 11, .CreateEntity, .AddComponent 10 0 (5 : Nat),
        .AddComponent 11 0 6, .AddComponent 10 0 8, .RemoveComponent 10 0]).holds 10 0 with
    | false => rfl
    | true =>
      have := h0.mpr hh
      revert this
      decide

/-! ## System routing (C2) -/

theorem Coordinator.tracked_changed {V : Type} {c c' : Coordinator V} {e : Entity}
    {s : Signature} (hsm : c'.m_SystemManager = c.m_SystemManager.EntitySignatureChanged e s)
    (k : TypeName) :
    c'.required k = c.required k ∧
    c'.tracked k = (c.tracked k).map fun S0 =>
      if s &&& c.required k = c.required k then insert e S0 else S0.erase e := by
  constructor
  · simp only [Coordinator.required, hsm, SystemManager.EntitySignatureChanged,
      SystemManager.changedLoop_signatures]
  · simp only [Coordinator.tracked, Coordinator.required, hsm,
      SystemManager.EntitySignatureChanged, SystemManager.changedLoop_systems, Option.map_map]
    congr 1
    funext system
    simp only [Function.comp]
    split <;> rfl

theorem Coordinator.tracked_destroyed {V : Type} {c c' : Coordinator V} {e : Entity}
    (hsm : c'.m_SystemManager = c.m_SystemManager.EntityDestroyed e) (k : TypeName) :
    c'.required k = c.required k ∧
    c'.tracked k = (c.tracked k).map fun S0 => S0.erase e := by
  constructor
  · simp only [Coordinator.required, hsm, SystemManager.EntityDestroyed]
  · simp only [Coordinator.tracked, hsm, SystemManager.entityDestroyed_systems, Option.map_map]
    rfl

theorem Coordinator.destroyEntity_ok {V : Type} {c c' : Coordinator V} {e : Entity}
    (h : c.DestroyEntity e = .ok () c') :
    e < MAX_ENTITIES ∧
    c'.m_SystemManager = c.m_SystemManager.EntityDestroyed e ∧
    c'.m_EntityManager.m_Signatures = Function.update c.m_EntityManager.m_Signatures e 0 ∧
    c.m_ComponentManager.EntityDestroyed e = .ok () c'.m_ComponentManager := by
  by_cases he : e < MAX_ENTITIES
  · simp only [Coordinator.DestroyEntity, EntityManager.destroyEntity_lt he] at h
    cases hcm : c.m_ComponentManager.EntityDestroyed e with
    | undefined => simp [hcm] at h
    | throw x s => simp [hcm] at h
    | ok u cm =>
      simp only [hcm, Res.ok.injEq, true_and] at h
      subst h
      exact ⟨he, rfl, rfl, rfl⟩
  · rw [Coordinator.destroyEntity_of_ge c (Nat.le_of_not_lt he)] at h
    cases h

/-- What a signature-change notification does to the systems, in terms of a call
that returned through `updateSignature`. -/
theorem Coordinator.updateSignature_tracked {V : Type} {c c' : Coordinator V}
    {cm : ComponentManager V} {typeName : TypeName} {e : Entity} {value : Bool}
    (h : c.updateSignature cm typeName e value = .ok () c') (k : TypeName) :
    c'.required k = c.required k ∧
    c'.tracked k = (c.tracked k).map fun S0 =>
      if c'.signature e &&& c.required k = c.required k then insert e S0 else S0.erase e := by
  obtain ⟨_, i, s, _, _, hc'⟩ := Coordinator.updateSignature_ok h
  have hsig : c'.signature e = s := by
    rw [hc']
    simp [Coordinator.signature]
  rw [hsig]
  exact Coordinator.tracked_changed (by rw [hc']) k

/-- C2, amended: when `AddComponent` or `RemoveComponent` on entity `e` returns, every
registered system tracks `e` exactly if `(signature(e) & S) == S`, where
`signature(e)` is the signature stored for `e` after the call and `S` is the required
signature of the system: the one stored for it, or the empty signature when none is
stored. When `DestroyEntity(e)` returns, no registered system tracks `e`. After each
of these calls the registered systems are the same as before, the required
signature `S` of every system (in that sense) is as before, and every entity other
than `e` is in a tracked set exactly if it was before: only the membership of `e`
is recomputed. -/
theorem C2_tracking_follows_signature_change {V : Type} (c c' : Coordinator V) (e : Entity)
    (k : TypeName) (S : Finset Entity)
    (hcall : (∃ typeName v, c.AddComponent typeName e v = .ok () c') ∨
      (∃ typeName, c.RemoveComponent typeName e = .ok () c') ∨
      c.DestroyEntity e = .ok () c')
    (hk : c'.tracked k = some S) :
    c'.required k = c.required k ∧
    (∃ S0, c.tracked k = some S0 ∧ ∀ e', e' ≠ e → (e' ∈ S ↔ e' ∈ S0)) ∧
    (c.DestroyEntity e = .ok () c' → e ∉ S) ∧
    ((∃ typeName v, c.AddComponent typeName e v = .ok () c') ∨
        (∃ typeName, c.RemoveComponent typeName e = .ok () c') →
      (e ∈ S ↔ c'.signature e &&& c'.required k = c'.required k)) ∧
    (∀ k', (c'.tracked k').isSome = (c.tracked k').isSome ∧
      c'.required k' = c.required k') := by
  have hall : ∀ k', (c'.tracked k').isSome = (c.tracked k').isSome ∧
      c'.required k' = c.required k' := by
    intro k'
    rcases hcall with ⟨n, v, h⟩ | ⟨n, h⟩ | h
    · obtain ⟨cm, _, hu⟩ := Coordinator.addComponent_ok h
      obtain ⟨hreq, htr⟩ := Coordinator.updateSignature_tracked hu k'
      rw [htr, Option.isSome_map']
      exact ⟨rfl, hreq⟩
    · obtain ⟨cm, _, hu⟩ := Coordinator.removeComponent_ok h
      obtain ⟨hreq, htr⟩ := Coordinator.updateSignature_tracked hu k'
      rw [htr, Option.isSome_map']
      exact ⟨rfl, hreq⟩
    · obtain ⟨_, hsm, _, _⟩ := Coordinator.destroyEntity_ok h
      obtain ⟨hreq, htr⟩ := Coordinator.tracked_destroyed hsm k'
      rw [htr, Option.isSome_map']
      exact ⟨rfl, hreq⟩
  have hchanged : ∀ {cm : ComponentManager V} {typeName : TypeName} {value : Bool},
      c.updateSignature cm typeName e value = .ok () c' →
      c'.required k = c.required k ∧
      (∃ S0, c.tracked k = some S0 ∧ ∀ e', e' ≠ e → (e' ∈ S ↔ e' ∈ S0)) ∧
      (e ∈ S ↔ c'.signature e &&& c'.required k = c'.required k) := by
    intro cm typeName value hu
    obtain ⟨hreq, htr⟩ := Coordinator.updateSignature_tracked hu k
    rw [hk] at htr
    cases h0 : c.tracked k with
    | none => simp [h0] at htr
    | some S0 =>
      simp only [h0, Option.map_some', Option.some.injEq] at htr
      refine ⟨hreq, ⟨S0, rfl, fun e' hne => ?_⟩, ?_⟩
      · rw [htr]
        split
        · simp [Finset.mem_insert, hne]
        · simp [Finset.mem_erase, hne]
      · rw [htr, hreq]
        split
        · rename_i hm
          simp [hm]
        · rename_i hm
          simp [hm]
  have hdestroyed : c.DestroyEntity e = .ok () c' →
      c'.required k = c.required k ∧
      (∃ S0, c.tracked k = some S0 ∧ ∀ e', e' ≠ e → (e' ∈ S ↔ e' ∈ S0)) ∧ e ∉ S := by
    intro hd
    obtain ⟨_, hsm, _, _⟩ := Coordinator.destroyEntity_ok hd
    obtain ⟨hreq, htr⟩ := Coordinator.tracked_destroyed hsm k
    rw [hk] at htr
    cases h0 : c.tracked k with
    | none => simp [h0] at htr
    | some S0 =>
      simp only [h0, Option.map_some', Option.some.injEq] at htr
      refine ⟨hreq, ⟨S0, rfl, fun e' hne => ?_⟩, ?_⟩
      · rw [htr]
        simp [Finset.mem_erase, hne]
      · rw [htr]
        simp
  have hadd : ∀ {typeName : TypeName} {v : V}, c.AddComponent typeName e v = .ok () c' →
      ∃ cm, c.updateSignature cm typeName e true = .ok () c' := fun h =>
    let ⟨cm, _, hu⟩ := Coordinator.addComponent_ok h
    ⟨cm, hu⟩
  have hrem : ∀ {typeName : TypeName}, c.RemoveComponent typeName e = .ok () c' →
      ∃ cm, c.updateSignature cm typeName e false = .ok () c' := fun h =>
    let ⟨cm, _, hu⟩ := Coordinator.removeComponent_ok h
    ⟨cm, hu⟩
  have hbase : c'.required k = c.required k ∧
      (∃ S0, c.tracked k = some S0 ∧ ∀ e', e' ≠ e → (e' ∈ S ↔ e' ∈ S0)) := by
    rcases hcall with ⟨n, v, h⟩ | ⟨n, h⟩ | h
    · obtain ⟨cm, hu⟩ := hadd h
      exact ⟨(hchanged hu).1, (hchanged hu).2.1⟩
    · obtain ⟨cm, hu⟩ := hrem h
      exact ⟨(hchanged hu).1, (hchanged hu).2.1⟩
    · exact ⟨(hdestroyed h).1, (hdestroyed h).2.1⟩
  refine ⟨hbase.1, hbase.2, fun hd => (hdestroyed hd).2.2, fun hc => ?_, hall⟩
  rcases hc with ⟨n, v, h⟩ | ⟨n, h⟩
  · obtain ⟨cm, hu⟩ := hadd h
    exact (hchanged hu).2.2
  · obtain ⟨cm, hu⟩ := hrem h
    exact (hchanged hu).2.2

set_option maxRecDepth 100000 in
/-- C2, as stated, fails on its own scenario: `Transform` and `Velocity` have type
indices 0 and 1, entity A (id 0) holds both and entity B (id 1) holds `Transform`
only, yet the system registered afterwards with required bit 0 tracks nothing
(not A and B), and the system registered with required bits 0 and 1 tracks
nothing (not A): registering a system or setting its signature looks at no
entity. -/
theorem C2_counterexample :
    Coordinator.run scenario.calls Coordinator.Init = some (Coordinator.after scenario.calls) ∧
    (Coordinator.after (scenario.calls.take 2)).CreateEntity =
      .ok 0 (Coordinator.after (scenario.calls.take 3)) ∧
    (Coordinator.after (scenario.calls.take 5)).CreateEntity =
      .ok 1 (Coordinator.after (scenario.calls.take 6)) ∧
    (Coordinator.after scenario.calls).GetComponentType scenario.Transform =
      .ok 0 (Coordinator.after scenario.calls) ∧
    (Coordinator.after scenario.calls).GetComponentType scenario.Velocity =
      .ok 1 (Coordinator.after scenario.calls) ∧
    (Coordinator.after scenario.calls).holds scenario.Transform 0 = true ∧
    (Coordinator.after scenario.calls).holds scenario.Velocity 0 = true ∧
    (Coordinator.after scenario.calls).holds scenario.Transform 1 = true ∧
    (Coordinator.after scenario.calls).holds scenario.Velocity 1 = false ∧
    (Coordinator.after scenario.calls).signature 0 = 3 ∧
    (Coordinator.after scenario.calls).signature 1 = 1 ∧
    (Coordinator.after scenario.calls).required scenario.MoveSystem = 1 ∧
    (Coordinator.after scenario.calls).required scenario.PhysicsSystem = 3 ∧
    (Coordinator.after scenario.calls).tracked scenario.MoveSystem = some ∅ ∧
    (Coordinator.after scenario.calls).tracked scenario.PhysicsSystem = some ∅ := by
  refine ⟨by rfl, by rfl, by rfl, ?_, ?_, by decide, by decide, by decide, by decide, by decide,
    by decide, by decide, by decide, by decide, by decide⟩
  · rw [Coordinator.getComponentType_ok_iff]
    decide
  · rw [Coordinator.getComponentType_ok_iff]
    decide

set_option maxRecDepth 100000 in
/-- Witness for C2 (the scenario, continued): when `Velocity` is removed from entity
A, the system requiring bit 0 starts to track A, whose signature has just changed
(and still not B, whose signature matches as well), and the tracked set of the
system requiring bits 0 and 1 is empty. -/
theorem C2_tracking_follows_signature_change_witness :
    (Coordinator.after scenario.calls).RemoveComponent scenario.Velocity 0 =
      .ok () (Coordinator.after (scenario.calls ++ [.RemoveComponent scenario.Velocity 0])) ∧
    (Coordinator.after (scenario.calls ++ [.RemoveComponent scenario.Velocity 0])).tracked
      scenario.MoveSystem = some {0} ∧
    (Coordinator.after (scenario.calls ++ [.RemoveComponent scenario.Velocity 0])).tracked
      scenario.PhysicsSystem = some ∅ ∧
    (Coordinator.after (scenario.calls ++ [.RemoveComponent scenario.Velocity 0])).signature 1 &&&
        (Coordinator.after (scenario.calls ++ [.RemoveComponent scenario.Velocity 0])).required
          scenario.MoveSystem =
      (Coordinator.after (scenario.calls ++ [.RemoveComponent scenario.Velocity 0])).required
        scenario.MoveSystem ∧
    ((0 : Entity) ∈ ({0} : Finset Entity) ↔
      (Coordinator.after (scenario.calls ++ [.RemoveComponent scenario.Velocity 0])).signature 0 &&&
          (Coordinator.after (scenario.calls ++ [.RemoveComponent scenario.Velocity 0])).required
            scenario.MoveSystem =
        (Coordinator.after (scenario.calls ++ [.RemoveComponent scenario.Velocity 0])).required
          scenario.MoveSystem) := by
  have hrem : (Coordinator.after scenario.calls).RemoveComponent scenario.Velocity 0 =
      .ok () (Coordinator.after (scenario.calls ++ [.RemoveComponent scenario.Velocity 0])) := by
    rfl
  have hk : (Coordinator.after (scenario.calls ++
      [.RemoveComponent scenario.Velocity 0])).tracked scenario.MoveSystem = some {0} := by
    decide
  exact ⟨hrem, hk, by decide, by decide,
    (C2_tracking_follows_signature_change (Coordinator.after scenario.calls)
      (Coordinator.after (scenario.calls ++ [.RemoveComponent scenario.Velocity 0])) 0
      scenario.MoveSystem {0} (Or.inr (Or.inl ⟨scenario.Velocity, hrem⟩)) hk).2.2.2.1
      (Or.inr ⟨scenario.Velocity, hrem⟩)⟩

/-! ## Destruction and reuse of an id (C3) -/

theorem Coordinator.updateSignature_state_signature {V : Type} {c c' : Coordinator V}
    {cm : ComponentManager V} {typeName : TypeName} {e0 : Entity} {value : Bool}
    (h : (c.updateSignature cm typeName e0 value).state = some c') (e : Entity) (he : e ≠ e0) :
    c'.signature e = c.signature e := by
  cases hu : c.updateSignature cm typeName e0 value with
  | undefined => simp [hu, Res.state] at h
  | throw x s =>
    simp only [hu, Res.state, Option.some.injEq] at h
    subst h
    rw [(Coordinator.updateSignature_throw hu).1]
    rfl
  | ok u s =>
    simp only [hu, Res.state, Option.some.injEq] at h
    subst h
    obtain ⟨_, i, sg, _, _, hs⟩ := Coordinator.updateSignature_ok hu
    rw [hs]
    simp [Coordinator.signature, Function.update_noteq he]

/-- An entity without signature bits and without component values stays so under
every call that is not an `AddComponent` for it. -/
theorem Coordinator.clean_call {V : Type} [Inhabited V] {c c' : Coordinator V} {e : Entity}
    (hwf : c.m_ComponentManager.WF)
    (hclean : c.signature e = 0 ∧ ∀ n, c.holds n e = false)
    (op : Op V) (hop : op.addsTo e = false) (h : c.call op = some c') :
    c'.signature e = 0 ∧ ∀ n, c'.holds n e = false := by
  obtain ⟨hsig, hholds⟩ := hclean
  cases op with
  | RegisterComponent n =>
    rcases Coordinator.registerComponent_state h with h | ⟨cm, hcm, h⟩
    · rw [h]; exact ⟨hsig, hholds⟩
    · obtain ⟨ht, rfl⟩ := ComponentManager.registerComponent_ok hcm
      have ha : Map.find c.m_ComponentManager.m_ComponentArrays n = none := by
        have := hwf.1 n
        rw [ht] at this
        cases hf : Map.find c.m_ComponentManager.m_ComponentArrays n with
        | none => rfl
        | some a => simp [hf] at this
      rw [h]
      refine ⟨hsig, fun n' => ?_⟩
      simp only [Coordinator.holds, Map.find_insert_of_none ha]
      by_cases hn : n' = n
      · simp [hn, ComponentArray.has, ComponentArray.new]
      · simp only [hn, if_false]
        exact hholds n'
  | CreateEntity =>
    obtain ⟨h1, _, h3⟩ := Coordinator.createEntity_state h
    refine ⟨by simp only [Coordinator.signature, h3]; exact hsig, fun n => ?_⟩
    simp only [Coordinator.holds, h1]
    exact hholds n
  | DestroyEntity e0 =>
    by_cases he0 : e0 < MAX_ENTITIES
    · obtain ⟨cm, hcmd, hd⟩ := Coordinator.destroyEntity_of_lt hwf he0
      obtain ⟨cm', hcm', _, _, _, hfind⟩ := ComponentManager.purge_spec hwf e0
      have hc : c.call (.DestroyEntity e0) = (c.DestroyEntity e0).state := rfl
      rw [hc, hd] at h
      simp only [Res.state, Option.some.injEq] at h
      rw [hcmd] at hcm'
      injection hcm' with _ hcm'
      subst hcm'
      subst h
      refine ⟨?_, fun n => ?_⟩
      · simp only [Coordinator.signature, Function.update_apply]
        split
        · rfl
        · exact hsig
      · rw [Coordinator.holds_destroyed hfind n e]
        split
        · rfl
        · exact hholds n
    · simp only [Coordinator.call, Coordinator.destroyEntity_of_ge c (Nat.le_of_not_lt he0),
        Res.state, Option.some.injEq] at h
      rw [← h]
      exact ⟨hsig, hholds⟩
  | AddComponent n e0 v =>
    have hne : e ≠ e0 := by
      simp only [Op.addsTo, decide_eq_false_iff_not] at hop
      exact fun hc => hop hc.symm
    rcases Coordinator.addComponent_state h with h | ⟨cm, hcm, hu⟩
    · rw [h]; exact ⟨hsig, hholds⟩
    · obtain ⟨a, a', _, ha, hins, hdef⟩ := ComponentManager.insert_ok hcm
      refine ⟨?_, fun n' => ?_⟩
      · rw [Coordinator.updateSignature_state_signature hu e hne]
        exact hsig
      · rw [Coordinator.holds_assign ha ((Coordinator.updateSignature_state_storage hu).trans hdef),
          ComponentArray.insertData_has hins, if_neg hne]
        split
        · rw [← Coordinator.holds_of_find ha]
          exact hholds n
        · exact hholds n'
  | RemoveComponent n e0 =>
    rcases Coordinator.removeComponent_state h with h | ⟨cm, hcm, hu⟩
    · rw [h]; exact ⟨hsig, hholds⟩
    · obtain ⟨a, a', _, ha, hrem, hdef⟩ := ComponentManager.remove_ok hcm
      have hne : e ≠ e0 := by
        intro hc
        subst hc
        have h1 := hholds n
        rw [Coordinator.holds_of_find ha] at h1
        have h2 := ComponentArray.removeData_of_absent (ComponentArray.has_eq_false.mp h1)
        rw [h2] at hrem
        cases hrem
      refine ⟨?_, fun n' => ?_⟩
      · rw [Coordinator.updateSignature_state_signature hu e hne]
        exact hsig
      · rw [Coordinator.holds_assign ha ((Coordinator.updateSignature_state_storage hu).trans hdef),
          ComponentArray.removeData_has (hwf.2 _ (Map.mem_of_find ha)) hrem, if_neg hne]
        split
        · rw [← Coordinator.holds_of_find ha]
          exact hholds n
        · exact hholds n'
  | RegisterSystem n =>
    obtain ⟨h1, h2⟩ := Coordinator.registerSystem_state h
    refine ⟨by simp only [Coordinator.signature, h2]; exact hsig, fun n => ?_⟩
    simp only [Coordinator.holds, h1]
    exact hholds n
  | SetSystemSignature n s =>
    obtain ⟨h1, h2⟩ := Coordinator.setSystemSignature_state h
    refine ⟨by simp only [Coordinator.signature, h2]; exact hsig, fun n => ?_⟩
    simp only [Coordinator.holds, h1]
    exact hholds n

theorem Coordinator.clean_run {V : Type} [Inhabited V] (e : Entity) (ops : List (Op V)) :
    ∀ {c c' : Coordinator V}, c.m_ComponentManager.WF →
      (c.signature e = 0 ∧ ∀ n, c.holds n e = false) →
      (∀ op ∈ ops, op.addsTo e = false) → Coordinator.run ops c = some c' →
      c'.signature e = 0 ∧ ∀ n, c'.holds n e = false := by
  induction ops with
  | nil =>
    intro c c' _ h _ hrun
    simp only [Coordinator.run, Option.some.injEq] at hrun
    rw [← hrun]
    exact h
  | cons op ops ih =>
    intro c c' hwf h hops hrun
    simp only [Coordinator.run] at hrun
    cases hc : c.call op with
    | none => simp [hc] at hrun
    | some c1 =>
      rw [hc] at hrun
      exact ih (Coordinator.WF_call hwf op hc)
        (Coordinator.clean_call hwf h op (hops op (List.mem_cons_self _ _)) hc)
        (fun op' hop' => hops op' (List.mem_cons_of_mem _ hop')) hrun

theorem Coordinator.getComponent_of_absent {V : Type} {c : Coordinator V}
    (hwf : c.m_ComponentManager.WF) {typeName : TypeName} {e : Entity} {i : Nat}
    (ht : Map.find c.m_ComponentManager.m_ComponentTypes typeName = some i)
    (hholds : c.holds typeName e = false) :
    c.GetComponent typeName e = .throw .retrievingNonExistent c := by
  have hsome := hwf.1 typeName
  rw [ht] at hsome
  cases ha : Map.find c.m_ComponentManager.m_ComponentArrays typeName with
  | none => simp [ha] at hsome
  | some a =>
    rw [Coordinator.holds_of_find ha] at hholds
    simp only [Coordinator.GetComponent, ComponentManager.GetComponent,
      ComponentManager.getComponentArray_of_find ht ha,
      ComponentArray.getData_of_absent (ComponentArray.has_eq_false.mp hholds)]

set_option maxRecDepth 100000 in
/-- C3, as stated, fails in its second half: after a component type is registered and
entity 0 created, `DestroyEntity(1)` returns and leaves id 1 clean and at the front
of the free pool; `AddComponent` then gives id 1 a component although it is not
live, and the `CreateEntity` that follows returns id 1 with a non-empty signature
and a readable component. -/
theorem C3_counterexample :
    Coordinator.run [.RegisterComponent 10, .CreateEntity] Coordinator.Init =
      some (Coordinator.after [.RegisterComponent 10, .CreateEntity] : Coordinator (List Nat)) ∧
    (Coordinator.after [.RegisterComponent 10, .CreateEntity] :
        Coordinator (List Nat)).DestroyEntity 1 =
      .ok () (Coordinator.after [.RegisterComponent 10, .CreateEntity, .DestroyEntity 1]) ∧
    Coordinator.run [.AddComponent 10 1 [7]]
        (Coordinator.after [.RegisterComponent 10, .CreateEntity, .DestroyEntity 1]) =
      some (Coordinator.after
        [.RegisterComponent 10, .CreateEntity, .DestroyEntity 1, .AddComponent 10 1 [7]]) ∧
    (Coordinator.after
        [.RegisterComponent 10, .CreateEntity, .DestroyEntity 1,
          .AddComponent 10 1 [7]]).CreateEntity =
      .ok 1 (Coordinator.after
        [.RegisterComponent 10, .CreateEntity, .DestroyEntity 1, .AddComponent 10 1 [7],
          .CreateEntity]) ∧
    (Coordinator.after
        [.RegisterComponent 10, .CreateEntity, .DestroyEntity 1, .AddComponent 10 1 [7],
          .CreateEntity]).m_EntityManager.GetSignature 1 =
      .ok 1 (Coordinator.after
        [.RegisterComponent 10, .CreateEntity, .DestroyEntity 1, .AddComponent 10 1 [7],
          .CreateEntity]).m_EntityManager ∧
    (Coordinator.after
        [.RegisterComponent 10, .CreateEntity, .DestroyEntity 1, .AddComponent 10 1 [7],
          .CreateEntity]).GetComponent 10 1 =
      .ok [7] (Coordinator.after
        [.RegisterComponent 10, .CreateEntity, .DestroyEntity 1, .AddComponent 10 1 [7],
          .CreateEntity]) := by
  refine ⟨by rfl, by rfl, by rfl, by rfl, by rfl, by rfl⟩

/-- C3, amended: for every coordinator state reached from the initial one and every
entity id `e < MAX_ENTITIES`, `DestroyEntity(e)` returns, and afterwards `e` is in no
system's tracked set and in no dense array, and its signature is empty; and if
after any further calls, none of which is an `AddComponent` for `e`, a
`CreateEntity` returns the id `e`, then the signature of `e` is empty and
`GetComponent<T>(e)` throws the not-found error for every registered type `T`. -/
theorem C3_destroy_purges {V : Type} [Inhabited V] (ops : List (Op V)) (c : Coordinator V)
    (e : Entity) (hrun : Coordinator.run ops Coordinator.Init = some c)
    (he : e < MAX_ENTITIES) :
    ∃ c', c.DestroyEntity e = .ok () c' ∧
      (∀ k S, c'.tracked k = some S → e ∉ S) ∧
      (∀ typeName, c'.holds typeName e = false) ∧
      c'.signature e = 0 ∧
      ∀ (later : List (Op V)) (c2 c3 : Coordinator V),
        (∀ op ∈ later, op.addsTo e = false) →
        Coordinator.run later c' = some c2 →
        c2.CreateEntity = .ok e c3 →
        c3.m_EntityManager.GetSignature e = .ok 0 c3.m_EntityManager ∧
        ∀ typeName i, c3.GetComponentType typeName = .ok i c3 →
          c3.GetComponent typeName e = .throw .retrievingNonExistent c3 := by
  have hwf : c.m_ComponentManager.WF := Coordinator.storage_WF_run ops Coordinator.WF_Init hrun
  obtain ⟨c', hd⟩ : ∃ c', c.DestroyEntity e = .ok () c' :=
    let ⟨_, _, h⟩ := Coordinator.destroyEntity_of_lt hwf he
    ⟨_, h⟩
  obtain ⟨_, hsm, hsigs, hcm⟩ := Coordinator.destroyEntity_ok hd
  obtain ⟨cm', hcm', hwf', _, _, hfind⟩ := ComponentManager.purge_spec hwf e
  rw [hcm] at hcm'
  injection hcm' with _ hcm'
  rw [← hcm'] at hwf' hfind
  have hholds : ∀ n, c'.holds n e = false := fun n => by
    rw [Coordinator.holds_destroyed hfind n e]
    simp
  have hsig : c'.signature e = 0 := by
    simp [Coordinator.signature, hsigs]
  refine ⟨c', hd, ?_, hholds, hsig, ?_⟩
  · intro k S hk
    have htr := (Coordinator.tracked_destroyed hsm k).2
    rw [hk] at htr
    cases h0 : c.tracked k with
    | none => simp [h0] at htr
    | some S0 =>
      simp only [h0, Option.map_some', Option.some.injEq] at htr
      rw [htr]
      simp
  · intro later c2 c3 hlater hrun2 hcreate
    have hclean := Coordinator.clean_run e later hwf' ⟨hsig, hholds⟩ hlater hrun2
    have hwf2 : c2.m_ComponentManager.WF := Coordinator.storage_WF_run later hwf' hrun2
    have hstate : c2.CreateEntity.state = some c3 := by rw [hcreate]; rfl
    obtain ⟨h1, _, h3⟩ := Coordinator.createEntity_state hstate
    have hsig3 : c3.m_EntityManager.m_Signatures e = 0 := by
      rw [h3]
      exact hclean.1
    refine ⟨?_, fun n i hi => ?_⟩
    · simp only [EntityManager.GetSignature, ge_iff_le, Nat.not_le.mpr he, if_false, hsig3]
    · apply Coordinator.getComponent_of_absent (h1 ▸ hwf2)
        ((Coordinator.getComponentType_ok_iff c3 n i).mp hi)
      simp only [Coordinator.holds, h1]
      exact hclean.2 n

set_option maxRecDepth 100000 in
/-- Witness for C3: entity 0 holds a component and is tracked by a system; after
`DestroyEntity(0)` it is in no tracked set and no array and its signature is
empty. And id 1, given a component and then destroyed, is clean when the next
`CreateEntity` hands it out: its signature reads empty and `GetComponent` throws. -/
theorem C3_destroy_purges_witness :
    ((Coordinator.after [.RegisterComponent 10, .RegisterSystem 20, .SetSystemSignature 20 1,
        .CreateEntity, .AddComponent 10 0 [1, 2, 3]] : Coordinator (List Nat)).tracked 20 =
      some {0} ∧
    (Coordinator.after [.RegisterComponent 10, .RegisterSystem 20, .SetSystemSignature 20 1,
        .CreateEntity, .AddComponent 10 0 [1, 2, 3]] : Coordinator (List Nat)).holds 10 0 = true ∧
    ∃ c', (Coordinator.after [.RegisterComponent 10, .RegisterSystem 20,
        .SetSystemSignature 20 1, .CreateEntity, .AddComponent 10 0 [1, 2, 3]] :
          Coordinator (List Nat)).DestroyEntity 0 = .ok () c' ∧
      (∀ k S, c'.tracked k = some S → 0 ∉ S) ∧ (∀ typeName, c'.holds typeName 0 = false) ∧
      c'.signature 0 = 0) ∧
    ((Coordinator.after [.RegisterComponent 10, .CreateEntity, .AddComponent 10 1 [5]] :
        Coordinator (List Nat)).holds 10 1 = true ∧
    (Coordinator.after [.RegisterComponent 10, .CreateEntity, .AddComponent 10 1 [5],
        .DestroyEntity 1, .RegisterComponent 11] : Coordinator (List Nat)).CreateEntity =
      .ok 1 (Coordinator.after [.RegisterComponent 10, .CreateEntity, .AddComponent 10 1 [5],
        .DestroyEntity 1, .RegisterComponent 11, .CreateEntity]) ∧
    (Coordinator.after [.RegisterComponent 10, .CreateEntity, .AddComponent 10 1 [5],
        .DestroyEntity 1, .RegisterComponent 11, .CreateEntity] :
          Coordinator (List Nat)).m_EntityManager.GetSignature 1 =
      .ok 0 (Coordinator.after [.RegisterComponent 10, .CreateEntity, .AddComponent 10 1 [5],
        .DestroyEntity 1, .RegisterComponent 11, .CreateEntity] :
          Coordinator (List Nat)).m_EntityManager ∧
    (Coordinator.after [.RegisterComponent 10, .CreateEntity, .AddComponent 10 1 [5],
        .DestroyEntity 1, .RegisterComponent 11, .CreateEntity] :
          Coordinator (List Nat)).GetComponent 10 1 =
      .throw .retrievingNonExistent
        (Coordinator.after [.RegisterComponent 10, .CreateEntity, .AddComponent 10 1 [5],
          .DestroyEntity 1, .RegisterComponent 11, .CreateEntity])) := by
  constructor
  · obtain ⟨c', h1, h2, h3, h4, _⟩ := C3_destroy_purges
      [.RegisterComponent 10, .RegisterSystem 20, .SetSystemSignature 20 1, .CreateEntity,
        .AddComponent 10 0 [1, 2, 3]]
      (Coordinator.after [.RegisterComponent 10, .RegisterSystem 20, .SetSystemSignature 20 1,
        .CreateEntity, .AddComponent 10 0 [1, 2, 3]] : Coordinator (List Nat)) 0 (by rfl)
      (by decide)
    exact ⟨by decide, by decide, c', h1, h2, h3, h4⟩
  · obtain ⟨c', h1, _, _, _, h5⟩ := C3_destroy_purges
      [.RegisterComponent 10, .CreateEntity, .AddComponent 10 1 [5]]
      (Coordinator.after [.RegisterComponent 10, .CreateEntity, .AddComponent 10 1 [5]] :
        Coordinator (List Nat)) 1 (by rfl) (by decide)
    have hd : (Coordinator.after [.RegisterComponent 10, .CreateEntity, .AddComponent 10 1 [5]] :
        Coordinator (List Nat)).DestroyEntity 1 =
        .ok () (Coordinator.after [.RegisterComponent 10, .CreateEntity, .AddComponent 10 1 [5],
          .DestroyEntity 1]) := by rfl
    rw [hd] at h1
    injection h1 with _ h1
    subst h1
    have hcreate : (Coordinator.after [.RegisterComponent 10, .CreateEntity,
        .AddComponent 10 1 [5], .DestroyEntity 1, .RegisterComponent 11] :
          Coordinator (List Nat)).CreateEntity =
        .ok 1 (Coordinator.after [.RegisterComponent 10, .CreateEntity, .AddComponent 10 1 [5],
          .DestroyEntity 1, .RegisterComponent 11, .CreateEntity]) := by rfl
    obtain ⟨h6, h7⟩ := h5 [.RegisterComponent 11] _ _ (by decide) (by rfl) hcreate
    refine ⟨by decide, hcreate, h6, h7 10 0 ?_⟩
    rw [Coordinator.getComponentType_ok_iff]
    decide

/-! ## Range checks of the identity registry (C15) -/

theorem EntityManager.destroyEntity_throw {m s : EntityManager} {e : Entity} {x : Exn}
    (h : m.DestroyEntity e = .throw x s) :
    x = .entityOutOfRange ∧ s = m ∧ MAX_ENTITIES ≤ e := by
  by_cases he : e < MAX_ENTITIES
  · rw [EntityManager.destroyEntity_lt he] at h
    cases h
  · have hge := Nat.le_of_not_lt he
    rw [EntityManager.destroyEntity_ge hge] at h
    injection h with h1 h2
    exact ⟨h1.symm, h2.symm, hge⟩

theorem EntityManager.setSignature_lt {m : EntityManager} {e : Entity} (h : e < MAX_ENTITIES)
    (s : Signature) :
    m.SetSignature e s =
      .ok () { m with m_Signatures := Function.update m.m_Signatures e s } := by
  unfold EntityManager.SetSignature
  rw [if_neg (Nat.not_le.mpr h)]

theorem EntityManager.setSignature_ge {m : EntityManager} {e : Entity} (h : MAX_ENTITIES ≤ e)
    (s : Signature) : m.SetSignature e s = .throw .entityOutOfRange m := by
  unfold EntityManager.SetSignature
  rw [if_pos h]

theorem EntityManager.getSignature_lt {m : EntityManager} {e : Entity} (h : e < MAX_ENTITIES) :
    m.GetSignature e = .ok (m.m_Signatures e) m := by
  unfold EntityManager.GetSignature
  rw [if_neg (Nat.not_le.mpr h)]

theorem EntityManager.getSignature_ge {m : EntityManager} {e : Entity} (h : MAX_ENTITIES ≤ e) :
    m.GetSignature e = .throw .entityOutOfRange m := by
  unfold EntityManager.GetSignature
  rw [if_pos h]

/-- C15: for every state of the identity registry, every entity id `e` and every
signature `s`: `DestroyEntity(e)`, `SetSignature(e, s)` and `GetSignature(e)` throw
the range error exactly if `e >= MAX_ENTITIES`, they throw nothing else, and a call
that throws leaves the registry as it was; for `e < MAX_ENTITIES`, `SetSignature`
returns, after it `GetSignature(e)` returns `s` and the signature of every other
entity is as before, and `DestroyEntity(e)` returns, after which `GetSignature(e)`
returns the empty signature. -/
theorem C15_range_checks (m : EntityManager) (e : Entity) (s : Signature) :
    (m.DestroyEntity e = .throw .entityOutOfRange m ↔ MAX_ENTITIES ≤ e) ∧
    (m.SetSignature e s = .throw .entityOutOfRange m ↔ MAX_ENTITIES ≤ e) ∧
    (m.GetSignature e = .throw .entityOutOfRange m ↔ MAX_ENTITIES ≤ e) ∧
    (∀ x t, m.DestroyEntity e = .throw x t ∨ m.SetSignature e s = .throw x t ∨
        m.GetSignature e = .throw x t → x = .entityOutOfRange ∧ t = m) ∧
    (e < MAX_ENTITIES →
      ∃ m', m.SetSignature e s = .ok () m' ∧ m'.GetSignature e = .ok s m' ∧
        ∀ e', e' ≠ e → m'.m_Signatures e' = m.m_Signatures e') ∧
    (e < MAX_ENTITIES →
      ∃ m', m.DestroyEntity e = .ok () m' ∧ m'.GetSignature e = .ok 0 m') := by
  refine ⟨⟨fun h => (EntityManager.destroyEntity_throw h).2.2,
      fun h => EntityManager.destroyEntity_ge h⟩, ⟨fun h => ?_, fun h =>
      EntityManager.setSignature_ge h s⟩, ⟨fun h => ?_, fun h =>
      EntityManager.getSignature_ge h⟩, fun x t h => ?_, fun he => ?_, fun he => ?_⟩
  · by_cases he : e < MAX_ENTITIES
    · rw [EntityManager.setSignature_lt he] at h
      cases h
    · exact Nat.le_of_not_lt he
  · by_cases he : e < MAX_ENTITIES
    · rw [EntityManager.getSignature_lt he] at h
      cases h
    · exact Nat.le_of_not_lt he
  · rcases h with h | h | h
    · exact ⟨(EntityManager.destroyEntity_throw h).1, (EntityManager.destroyEntity_throw h).2.1⟩
    · by_cases he : e < MAX_ENTITIES
      · rw [EntityManager.setSignature_lt he] at h
        cases h
      · rw [EntityManager.setSignature_ge (Nat.le_of_not_lt he)] at h
        injection h with h1 h2
        exact ⟨h1.symm, h2.symm⟩
    · by_cases he : e < MAX_ENTITIES
      · rw [EntityManager.getSignature_lt he] at h
        cases h
      · rw [EntityManager.getSignature_ge (Nat.le_of_not_lt he)] at h
        injection h with h1 h2
        exact ⟨h1.symm, h2.symm⟩
  · refine ⟨_, EntityManager.setSignature_lt he s, ?_, fun e' hne => ?_⟩
    · rw [EntityManager.getSignature_lt he]
      simp
    · simp [Function.update_noteq hne]
  · refine ⟨_, EntityManager.destroyEntity_lt he, ?_⟩
    rw [EntityManager.getSignature_lt he]
    simp

/-- Witness for C15: on the fresh registry, setting the signature of entity 3 to 5
and reading it back gives 5 while entity 4 keeps the empty signature, destroying
entity 3 brings back the empty signature, and the calls on id 5000 throw. -/
theorem C15_range_checks_witness :
    (∃ m', EntityManager.new.SetSignature 3 5 = .ok () m' ∧ m'.GetSignature 3 = .ok 5 m' ∧
      ∀ e', e' ≠ 3 → m'.m_Signatures e' = EntityManager.new.m_Signatures e') ∧
    (∃ m', EntityManager.new.DestroyEntity 3 = .ok () m' ∧ m'.GetSignature 3 = .ok 0 m') ∧
    EntityManager.new.DestroyEntity 5000 = .throw .entityOutOfRange EntityManager.new ∧
    EntityManager.new.SetSignature 5000 5 = .throw .entityOutOfRange EntityManager.new ∧
    EntityManager.new.GetSignature 5000 = .throw .entityOutOfRange EntityManager.new :=
  ⟨(C15_range_checks EntityManager.new 3 5).2.2.2.2.1 (by decide),
    (C15_range_checks EntityManager.new 3 5).2.2.2.2.2 (by decide),
    (C15_range_checks EntityManager.new 5000 5).1.mpr (by decide),
    (C15_range_checks EntityManager.new 5000 5).2.1.mpr (by decide),
    (C15_range_checks EntityManager.new 5000 5).2.2.1.mpr (by decide)⟩

/-! ## The system registry: notifications and required signatures (C11, C12) -/

/-- C12: for every state of the system registry, every entity `e` and every signature
`s`, and every system registered under `k` with required signature `R` (the stored
one, empty if none is stored): after `EntitySignatureChanged(e, s)` the system is
still registered under `k`, its required signature is still `R`, `e` is in its
tracked set exactly if `(s & R) == R`, and every other entity is in its tracked set
exactly if it was before. -/
theorem C12_notification_recomputes_membership (sm : SystemManager) (e : Entity) (s : Signature)
    (k : TypeName) (system : System) (h : Map.find sm.m_Systems k = some system) :
    ∃ system', Map.find (sm.EntitySignatureChanged e s).m_Systems k = some system' ∧
      (Map.find (sm.EntitySignatureChanged e s).m_Signatures k).getD 0 =
        (Map.find sm.m_Signatures k).getD 0 ∧
      (e ∈ system'.m_Entities ↔
        s &&& (Map.find sm.m_Signatures k).getD 0 = (Map.find sm.m_Signatures k).getD 0) ∧
      ∀ e', e' ≠ e → (e' ∈ system'.m_Entities ↔ e' ∈ system.m_Entities) := by
  have h1 := SystemManager.changedLoop_systems e s sm.m_Systems sm.m_Signatures k
  have h2 := SystemManager.changedLoop_signatures e s sm.m_Systems sm.m_Signatures k
  rw [h] at h1
  refine ⟨_, h1, h2, ?_, fun e' hne => ?_⟩
  · by_cases hc : s &&& (Map.find sm.m_Signatures k).getD 0 = (Map.find sm.m_Signatures k).getD 0
    · simp [hc]
    · simp [hc]
  · by_cases hc : s &&& (Map.find sm.m_Signatures k).getD 0 = (Map.find sm.m_Signatures k).getD 0
    · simp [hc, hne]
    · simp [hc, hne]

/-- Witness for C12: system 20 requires bits 0 and 1 and tracks entity 4; a
notification for entity 7 with signature 3 adds 7 and keeps 4. -/
theorem C12_notification_recomputes_membership_witness :
    Map.find (SystemManager.mk [(20, 3)] [(20, ⟨{4}⟩)]).m_Systems 20 = some ⟨{4}⟩ ∧
    ∃ system', Map.find ((SystemManager.mk [(20, 3)] [(20, ⟨{4}⟩)]).EntitySignatureChanged 7
          3).m_Systems 20 = some system' ∧
      (Map.find ((SystemManager.mk [(20, 3)] [(20, ⟨{4}⟩)]).EntitySignatureChanged 7
          3).m_Signatures 20).getD 0 =
        (Map.find (SystemManager.mk [(20, 3)] [(20, ⟨{4}⟩)]).m_Signatures 20).getD 0 ∧
      (7 ∈ system'.m_Entities ↔
        3 &&& (Map.find (SystemManager.mk [(20, 3)] [(20, ⟨{4}⟩)]).m_Signatures 20).getD 0 =
          (Map.find (SystemManager.mk [(20, 3)] [(20, ⟨{4}⟩)]).m_Signatures 20).getD 0) ∧
      ∀ e', e' ≠ 7 → (e' ∈ system'.m_Entities ↔ e' ∈ (⟨{4}⟩ : System).m_Entities) :=
  ⟨rfl, C12_notification_recomputes_membership (SystemManager.mk [(20, 3)] [(20, ⟨{4}⟩)]) 7 3 20
    ⟨{4}⟩ rfl⟩

/-- C11, evaluated: `SetSignature` stores the signature with `insert`, which keeps an
entry that is already there.  (a) After `RegisterSystem<K>()` and `SetSignature<K>(1)`
the call `SetSignature<K>(2)` returns and leaves the registry as it was: the required
signature read by the next notification is still 1, so `EntitySignatureChanged(7, 2)`
does not add entity 7 although `(2 & 2) == 2`, and `EntitySignatureChanged(8, 1)` adds
entity 8 although `(1 & 2) != 2`.  (b) After `RegisterSystem<K>()` and a notification
`EntitySignatureChanged(5, 3)`, which creates an empty entry for `K`, the call
`SetSignature<K>(1)` returns and leaves the registry as it was, and
`EntitySignatureChanged(7, 0)` adds entity 7 although `(0 & 1) != 1`. -/
theorem C11_set_signature_keeps_old_entry :
    ((SystemManager.run [.RegisterSystem 20, .SetSignature 20 1] SystemManager.new).SetSignature
        20 2 =
      .ok () (SystemManager.run [.RegisterSystem 20, .SetSignature 20 1] SystemManager.new) ∧
     SystemManager.run [.RegisterSystem 20, .SetSignature 20 1, .SetSignature 20 2,
        .EntitySignatureChanged 7 2] SystemManager.new =
      ⟨[(20, 1)], [(20, ⟨∅⟩)]⟩ ∧
     SystemManager.run [.RegisterSystem 20, .SetSignature 20 1, .SetSignature 20 2,
        .EntitySignatureChanged 8 1] SystemManager.new =
      ⟨[(20, 1)], [(20, ⟨{8}⟩)]⟩) ∧
    ((SystemManager.run [.RegisterSystem 20, .EntitySignatureChanged 5 3]
        SystemManager.new).SetSignature 20 1 =
      .ok () (SystemManager.run [.RegisterSystem 20, .EntitySignatureChanged 5 3]
        SystemManager.new) ∧
     SystemManager.run [.RegisterSystem 20, .EntitySignatureChanged 5 3, .SetSignature 20 1,
        .EntitySignatureChanged 7 0] SystemManager.new =
      ⟨[(20, 0)], [(20, ⟨{7, 5}⟩)]⟩) := by
  refine ⟨⟨rfl, by decide, by decide⟩, rfl, by decide⟩

/-! ## The order of the steps of `DestroyEntity` (C16) -/

set_option maxRecDepth 100000 in
/-- C16, as stated, fails for an id out of range: register a component type and call
`AddComponent` for the id 5000, which stores the value and then throws the range
error. On the state reached the array holds a value for 5000; `DestroyEntity(5000)`
throws the range error and leaves the whole state as it was, while the order of the
specification throws the range error after it has purged the value, so the two
outcomes differ. -/
theorem C16_counterexample :
    Coordinator.run [.RegisterComponent 10, .AddComponent 10 5000 [7]] Coordinator.Init =
      some (Coordinator.after [.RegisterComponent 10, .AddComponent 10 5000 [7]] :
        Coordinator (List Nat)) ∧
    (Coordinator.after [.RegisterComponent 10, .AddComponent 10 5000 [7]] :
        Coordinator (List Nat)).holds 10 5000 = true ∧
    (Coordinator.after [.RegisterComponent 10, .AddComponent 10 5000 [7]] :
        Coordinator (List Nat)).DestroyEntity 5000 =
      .throw .entityOutOfRange
        (Coordinator.after [.RegisterComponent 10, .AddComponent 10 5000 [7]]) ∧
    (∃ s, (Coordinator.after [.RegisterComponent 10, .AddComponent 10 5000 [7]] :
        Coordinator (List Nat)).DestroyEntity_specOrder 5000 = .throw .entityOutOfRange s ∧
      s.holds 10 5000 = false) ∧
    (Coordinator.after [.RegisterComponent 10, .AddComponent 10 5000 [7]] :
        Coordinator (List Nat)).DestroyEntity 5000 ≠
      (Coordinator.after [.RegisterComponent 10, .AddComponent 10 5000 [7]] :
        Coordinator (List Nat)).DestroyEntity_specOrder 5000 := by
  have h1 : (Coordinator.after [.RegisterComponent 10, .AddComponent 10 5000 [7]] :
        Coordinator (List Nat)).holds 10 5000 = true := by decide
  have h2 : (Coordinator.after [.RegisterComponent 10, .AddComponent 10 5000 [7]] :
        Coordinator (List Nat)).DestroyEntity 5000 =
      .throw .entityOutOfRange
        (Coordinator.after [.RegisterComponent 10, .AddComponent 10 5000 [7]]) :=
    Coordinator.destroyEntity_of_ge _ (by decide)
  have h3 : ∃ s, (Coordinator.after [.RegisterComponent 10, .AddComponent 10 5000 [7]] :
        Coordinator (List Nat)).DestroyEntity_specOrder 5000 = .throw .entityOutOfRange s ∧
      s.holds 10 5000 = false := ⟨_, by rfl, by decide⟩
  refine ⟨by rfl, h1, h2, h3, fun h => ?_⟩
  obtain ⟨s, hs, hholds⟩ := h3
  rw [h2, hs] at h
  injection h with _ h
  rw [← h, h1] at hholds
  cases hholds

/-- C16, amended: for every coordinator state and every entity id `e`,
`Coordinator::DestroyEntity(e)` has the outcome (returned, thrown or undefined, and
resulting state) of the three steps in the order of the specification if
`e < MAX_ENTITIES`, and otherwise it throws the range error and leaves the whole
state, the component data held for `e` included, as it was. -/
theorem C16_destroy_order {V : Type} (c : Coordinator V) (e : Entity) :
    c.DestroyEntity e =
      if e < MAX_ENTITIES then c.DestroyEntity_specOrder e else .throw .entityOutOfRange c := by
  by_cases he : e < MAX_ENTITIES
  · rw [if_pos he]
    unfold Coordinator.DestroyEntity Coordinator.DestroyEntity_specOrder
    rw [EntityManager.destroyEntity_lt he]
    unfold ComponentManager.EntityDestroyed
    cases ComponentManager.destroyedLoop e c.m_ComponentManager.m_ComponentArrays with
    | none => rfl
    | some arrays => rfl
  · rw [if_neg he]
    exact Coordinator.destroyEntity_of_ge c (Nat.le_of_not_lt he)

/-! ## What a failed `AddComponent` or `RemoveComponent` leaves behind (C17) -/

set_option maxRecDepth 100000 in
/-- C17, as stated, fails: after a component type is registered no array holds a
value for the id 5000; `AddComponent` for the id 5000 throws the range error, and in
the state it leaves the array of the type holds a value for 5000, which
`GetComponent` returns. -/
theorem C17_counterexample :
    Coordinator.run [.RegisterComponent 10] Coordinator.Init =
      some (Coordinator.after [.RegisterComponent 10] : Coordinator (List Nat)) ∧
    (Coordinator.after [.RegisterComponent 10] : Coordinator (List Nat)).holds 10 5000 = false ∧
    (Coordinator.after [.RegisterComponent 10] : Coordinator (List Nat)).AddComponent 10 5000 [7] =
      .throw .entityOutOfRange
        (Coordinator.after [.RegisterComponent 10, .AddComponent 10 5000 [7]]) ∧
    (Coordinator.after [.RegisterComponent 10, .AddComponent 10 5000 [7]] :
        Coordinator (List Nat)).holds 10 5000 = true ∧
    (Coordinator.after [.RegisterComponent 10, .AddComponent 10 5000 [7]] :
        Coordinator (List Nat)).GetComponent 10 5000 =
      .ok [7] (Coordinator.after [.RegisterComponent 10, .AddComponent 10 5000 [7]]) := by
  refine ⟨by rfl, by decide, by rfl, by decide, by rfl⟩

/-- C17, amended: for every coordinator state, entity id `e`, component type `T`
(registered with an index below `MAX_COMPONENTS`, or not registered) and value `v`:
if `AddComponent<T>(e, v)` or `RemoveComponent<T>(e)` throws, then all entity
signatures and the whole identity registry, and all tracked sets and required
signatures of the systems, are as before the call; the error is the not-registered
error (then `T` is not registered), the duplicate error of `AddComponent` (then `e`
holds a `T`), the not-found error of `RemoveComponent` (then `e` holds no `T`), and in
these cases the component arrays are as before too; or it is the range error, then
`e >= MAX_ENTITIES` and the component arrays are those that the storage step, which
returned, has left: the value has been inserted, respectively removed. In
particular a failed call with `e < MAX_ENTITIES` leaves the whole state as it was. -/
theorem C17_failed_call_effects {V : Type} (c s : Coordinator V) (typeName : TypeName)
    (e : Entity) (x : Exn)
    (hidx : ∀ i : Nat, Map.find c.m_ComponentManager.m_ComponentTypes typeName = some i →
      i < MAX_COMPONENTS) :
    (∀ v, c.AddComponent typeName e v = .throw x s →
      s.m_EntityManager = c.m_EntityManager ∧ s.m_SystemManager = c.m_SystemManager ∧
      (e < MAX_ENTITIES → s = c) ∧
      ((x = .componentNotRegistered ∧
          Map.find c.m_ComponentManager.m_ComponentTypes typeName = none ∧ s = c) ∨
        (x = .componentAddedTwice ∧ c.holds typeName e = true ∧ s = c) ∨
        (x = .entityOutOfRange ∧ MAX_ENTITIES ≤ e ∧
          c.m_ComponentManager.AddComponent typeName e v = .ok () s.m_ComponentManager ∧
          c.holds typeName e = false ∧ s.holds typeName e = true))) ∧
    (c.RemoveComponent typeName e = .throw x s →
      s.m_EntityManager = c.m_EntityManager ∧ s.m_SystemManager = c.m_SystemManager ∧
      (e < MAX_ENTITIES → s = c) ∧
      ((x = .componentNotRegistered ∧
          Map.find c.m_ComponentManager.m_ComponentTypes typeName = none ∧ s = c) ∨
        (x = .removingNonExistent ∧ c.holds typeName e = false ∧ s = c) ∨
        (x = .entityOutOfRange ∧ MAX_ENTITIES ≤ e ∧
          c.m_ComponentManager.RemoveComponent typeName e = .ok () s.m_ComponentManager ∧
          c.holds typeName e = true))) := by
  constructor
  · intro v h
    rw [Coordinator.addComponent_eq] at h
    cases hcm : c.m_ComponentManager.AddComponent typeName e v with
    | undefined => rw [hcm] at h; cases h
    | throw y t =>
      rw [hcm] at h
      injection h with hx hs
      subst hx hs
      refine ⟨rfl, rfl, fun _ => rfl, ?_⟩
      unfold ComponentManager.AddComponent at hcm
      cases hga : c.m_ComponentManager.GetComponentArray typeName with
      | undefined => rw [hga] at hcm; cases hcm
      | throw z u =>
        rw [hga] at hcm
        injection hcm with hz _
        obtain ⟨_, hz', hnone⟩ := ComponentManager.getComponentArray_throw hga
        exact Or.inl ⟨hz ▸ hz', hnone, rfl⟩
      | ok a u =>
        rw [hga] at hcm
        dsimp only at hcm
        obtain ⟨_, _, hfind⟩ := ComponentManager.getComponentArray_ok hga
        cases hin : a.InsertData e v with
        | undefined => rw [hin] at hcm; cases hcm
        | ok _ a' => rw [hin] at hcm; cases hcm
        | throw z w =>
          rw [hin] at hcm
          injection hcm with hz _
          obtain ⟨hz', _, hhas⟩ := ComponentArray.insertData_throw hin
          exact Or.inr (Or.inl ⟨hz ▸ hz', by rw [Coordinator.holds_of_find hfind]; exact hhas,
            rfl⟩)
    | ok u cm =>
      rw [hcm] at h
      dsimp only at h
      obtain ⟨hs, hcase⟩ := Coordinator.updateSignature_throw h
      obtain ⟨a, a', hsome, hfind, hin, hcm'⟩ := ComponentManager.insert_ok hcm
      have htypes : cm.m_ComponentTypes = c.m_ComponentManager.m_ComponentTypes := by
        rw [hcm']
      have hge : MAX_ENTITIES ≤ e := by
        rcases hcase with hge | hnone | ⟨i, hi, hle⟩
        · exact hge
        · rw [htypes] at hnone
          rw [hnone] at hsome
          cases hsome
        · rw [htypes] at hi
          exact absurd (hidx i hi) (Nat.not_lt.mpr hle)
      rw [Coordinator.updateSignature_of_ge c cm typeName true hge] at h
      injection h with hx _
      subst hs
      refine ⟨rfl, rfl, fun hlt => absurd hlt (Nat.not_lt.mpr hge), Or.inr (Or.inr
        ⟨hx.symm, hge, rfl, ?_, ?_⟩)⟩
      · rw [Coordinator.holds_of_find hfind, ComponentArray.has_eq_false]
        exact (ComponentArray.insertData_ok hin).1
      · have hfind' : Map.find cm.m_ComponentArrays typeName = some a' := by
          rw [hcm']
          simp [Map.find_assign, hfind]
        have : ({ c with m_ComponentManager := cm } : Coordinator V).holds typeName e =
            a'.has e := Coordinator.holds_of_find hfind' e
        rw [this, ComponentArray.insertData_has hin]
        simp
  · intro h
    rw [Coordinator.removeComponent_eq] at h
    cases hcm : c.m_ComponentManager.RemoveComponent typeName e with
    | undefined => rw [hcm] at h; cases h
    | throw y t =>
      rw [hcm] at h
      injection h with hx hs
      subst hx hs
      refine ⟨rfl, rfl, fun _ => rfl, ?_⟩
      unfold ComponentManager.RemoveComponent at hcm
      cases hga : c.m_ComponentManager.GetComponentArray typeName with
      | undefined => rw [hga] at hcm; cases hcm
      | throw z u =>
        rw [hga] at hcm
        injection hcm with hz _
        obtain ⟨_, hz', hnone⟩ := ComponentManager.getComponentArray_throw hga
        exact Or.inl ⟨hz ▸ hz', hnone, rfl⟩
      | ok a u =>
        rw [hga] at hcm
        dsimp only at hcm
        obtain ⟨_, _, hfind⟩ := ComponentManager.getComponentArray_ok hga
        cases hin : a.RemoveData e with
        | undefined => rw [hin] at hcm; cases hcm
        | ok _ a' => rw [hin] at hcm; cases hcm
        | throw z w =>
          rw [hin] at hcm
          injection hcm with hz _
          obtain ⟨hz', _, hhas⟩ := ComponentArray.removeData_throw hin
          exact Or.inr (Or.inl ⟨hz ▸ hz', by rw [Coordinator.holds_of_find hfind]; exact hhas,
            rfl⟩)
    | ok u cm =>
      rw [hcm] at h
      dsimp only at h
      obtain ⟨hs, hcase⟩ := Coordinator.updateSignature_throw h
      obtain ⟨a, a', hsome, hfind, hin, hcm'⟩ := ComponentManager.remove_ok hcm
      have htypes : cm.m_ComponentTypes = c.m_ComponentManager.m_ComponentTypes := by
        rw [hcm']
      have hge : MAX_ENTITIES ≤ e := by
        rcases hcase with hge | hnone | ⟨i, hi, hle⟩
        · exact hge
        · rw [htypes] at hnone
          rw [hnone] at hsome
          cases hsome
        · rw [htypes] at hi
          exact absurd (hidx i hi) (Nat.not_lt.mpr hle)
      rw [Coordinator.updateSignature_of_ge c cm typeName false hge] at h
      injection h with hx _
      subst hs
      refine ⟨rfl, rfl, fun hlt => absurd hlt (Nat.not_lt.mpr hge), Or.inr (Or.inr
        ⟨hx.symm, hge, rfl, ?_⟩)⟩
      rw [Coordinator.holds_of_find hfind, ComponentArray.has_eq_true]
      obtain ⟨i, hi, _⟩ := ComponentArray.removeData_ok hin
      exact ⟨i, hi⟩

set_option maxRecDepth 100000 in
/-- Witness for C17: with one component type registered (index 0), `AddComponent` for
the id 5000 throws the range error; the identity registry and the systems are as
before, and the storage is the one the storage step has left, in which the array
holds a value for 5000. -/
theorem C17_failed_call_effects_witness :
    (∀ i : Nat, Map.find (Coordinator.after [.RegisterComponent 10] :
        Coordinator (List Nat)).m_ComponentManager.m_ComponentTypes 10 = some i →
      i < MAX_COMPONENTS) ∧
    (Coordinator.after [.RegisterComponent 10] : Coordinator (List Nat)).AddComponent 10 5000 [7] =
      .throw .entityOutOfRange
        (Coordinator.after [.RegisterComponent 10, .AddComponent 10 5000 [7]]) ∧
    (Coordinator.after [.RegisterComponent 10, .AddComponent 10 5000 [7]] :
        Coordinator (List Nat)).m_EntityManager =
      (Coordinator.after [.RegisterComponent 10] : Coordinator (List Nat)).m_EntityManager ∧
    (Coordinator.after [.RegisterComponent 10, .AddComponent 10 5000 [7]] :
        Coordinator (List Nat)).m_SystemManager =
      (Coordinator.after [.RegisterComponent 10] : Coordinator (List Nat)).m_SystemManager :=
  ⟨fun i h => by
      have h0 : Map.find (Coordinator.after [.RegisterComponent 10] :
        Coordinator (List Nat)).m_ComponentManager.m_ComponentTypes 10 = some 0 := by decide
      rw [h0] at h
      injection h with h
      rw [← h]
      decide,
    by rfl,
    ((C17_failed_call_effects
      (Coordinator.after [.RegisterComponent 10] : Coordinator (List Nat))
      (Coordinator.after [.RegisterComponent 10, .AddComponent 10 5000 [7]])
      10 5000 .entityOutOfRange
      (fun i h => by
        have h0 : Map.find (Coordinator.after [.RegisterComponent 10] :
          Coordinator (List Nat)).m_ComponentManager.m_ComponentTypes 10 = some 0 := by decide
        rw [h0] at h
        injection h with h
        rw [← h]
        decide)).1 [7] (by rfl)).1,
    ((C17_failed_call_effects
      (Coordinator.after [.RegisterComponent 10] : Coordinator (List Nat))
      (Coordinator.after [.RegisterComponent 10, .AddComponent 10 5000 [7]])
      10 5000 .entityOutOfRange
      (fun i h => by
        have h0 : Map.find (Coordinator.after [.RegisterComponent 10] :
          Coordinator (List Nat)).m_ComponentManager.m_ComponentTypes 10 = some 0 := by decide
        rw [h0] at h
        injection h with h
        rw [← h]
        decide)).1 [7] (by rfl)).2.1⟩

/-! ## Type indices and the capacity for component types (C13, C14) -/

theorem ComponentManager.getComponentType_of_find {V : Type} {cm : ComponentManager V}
    {typeName : TypeName} {i : Nat} (h : Map.find cm.m_ComponentTypes typeName = some i) :
    cm.GetComponentType typeName = .ok i cm := by
  unfold ComponentManager.GetComponentType
  rw [h]

theorem ComponentManager.registerComponent_of_none {V : Type} [Inhabited V]
    {cm : ComponentManager V} {typeName : TypeName}
    (h : Map.find cm.m_ComponentTypes typeName = none) :
    cm.RegisterComponent typeName = .ok () {
      m_ComponentTypes := Map.insert cm.m_ComponentTypes typeName cm.m_NextComponentType
      m_ComponentArrays := Map.insert cm.m_ComponentArrays typeName ComponentArray.new
      m_NextComponentType := (cm.m_NextComponentType + 1) % 2 ^ 8 } := by
  unfold ComponentManager.RegisterComponent
  rw [h]

/-- Registering pairwise distinct, not yet registered types one after the other:
every call returns, and the type at position `k` gets the index
`(m_NextComponentType + k) mod 2^8`. -/
theorem ComponentManager.registerAll_spec {V : Type} [Inhabited V] :
    ∀ (names : List TypeName) (cm : ComponentManager V), names.Nodup →
      (∀ n ∈ names, Map.find cm.m_ComponentTypes n = none) →
      cm.m_NextComponentType < 2 ^ 8 →
      ∃ cm', ComponentManager.registerAll names cm = some cm' ∧
        cm'.m_NextComponentType = (cm.m_NextComponentType + names.length) % 2 ^ 8 ∧
        cm'.m_ComponentTypes.length = cm.m_ComponentTypes.length + names.length ∧
        (∀ (k : Nat) (n : TypeName), names[k]? = some n →
          Map.find cm'.m_ComponentTypes n = some ((cm.m_NextComponentType + k) % 2 ^ 8)) ∧
        (∀ n, n ∉ names → Map.find cm'.m_ComponentTypes n = Map.find cm.m_ComponentTypes n) := by
  intro names
  induction names with
  | nil =>
    intro cm _ _ hlt
    exact ⟨cm, rfl, (Nat.mod_eq_of_lt hlt).symm, rfl, by simp, fun _ _ => rfl⟩
  | cons n rest ih =>
    intro cm hnd hfresh hlt
    have hn : Map.find cm.m_ComponentTypes n = none := hfresh n (List.mem_cons_self _ _)
    have hnotin : n ∉ rest := (List.nodup_cons.mp hnd).1
    have hreg := ComponentManager.registerComponent_of_none (V := V) hn
    obtain ⟨cm', hrun, hnext, hlen, hidx, hother⟩ := ih {
        m_ComponentTypes := Map.insert cm.m_ComponentTypes n cm.m_NextComponentType
        m_ComponentArrays := Map.insert cm.m_ComponentArrays n ComponentArray.new
        m_NextComponentType := (cm.m_NextComponentType + 1) % 2 ^ 8 }
      (List.nodup_cons.mp hnd).2
      (fun m hm => by
        show Map.find (Map.insert cm.m_ComponentTypes n cm.m_NextComponentType) m = none
        rw [Map.find_insert_of_none hn]
        have hne : m ≠ n := fun h => hnotin (h ▸ hm)
        rw [if_neg hne]
        exact hfresh m (List.mem_cons_of_mem _ hm))
      (Nat.mod_lt _ (by norm_num))
    dsimp only at hnext hlen hidx hother
    refine ⟨cm', ?_, ?_, ?_, ?_, ?_⟩
    · simp only [ComponentManager.registerAll, hreg]
      exact hrun
    · rw [hnext, List.length_cons]
      omega
    · rw [hlen, Map.insert_of_none hn, List.length_append, List.length_cons, List.length_cons,
        List.length_nil]
      omega
    · intro k m hk
      cases k with
      | zero =>
        simp only [List.getElem?_cons_zero, Option.some.injEq] at hk
        subst hk
        rw [hother n hnotin, Map.find_insert_of_none hn, if_pos rfl, Nat.add_zero,
          Nat.mod_eq_of_lt hlt]
      | succ k =>
        simp only [List.getElem?_cons_succ] at hk
        have hmod : ((cm.m_NextComponentType + 1) % 2 ^ 8 + k) % 2 ^ 8 =
            (cm.m_NextComponentType + (k + 1)) % 2 ^ 8 := by omega
        rw [hidx k m hk, hmod]
    · intro m hm
      have hne : m ≠ n := fun h => hm (h ▸ List.mem_cons_self _ _)
      rw [hother m (fun h => hm (List.mem_cons_of_mem _ h)), Map.find_insert_of_none hn,
        if_neg hne]

theorem ComponentManager.registerAll_range {V : Type} [Inhabited V] (count : Nat) :
    ComponentManager.registerAll (List.range count) ComponentManager.new =
      some (ComponentManager.afterRegistering (List.range count) : ComponentManager V) ∧
    (ComponentManager.afterRegistering (List.range count) :
      ComponentManager V).m_ComponentTypes.length = count ∧
    ∀ k, k < count →
      Map.find (ComponentManager.afterRegistering (List.range count) :
        ComponentManager V).m_ComponentTypes k = some (k % 2 ^ 8) := by
  obtain ⟨cm', hrun, _, hlen, hidx, _⟩ :=
    ComponentManager.registerAll_spec (V := V) (List.range count) ComponentManager.new
      (List.nodup_range count) (fun _ _ => rfl) (by show (0 : Nat) < 2 ^ 8; norm_num)
  have hafter : (ComponentManager.afterRegistering (List.range count) : ComponentManager V) =
      cm' := by
    unfold ComponentManager.afterRegistering
    rw [hrun]
    rfl
  rw [hafter]
  refine ⟨hrun, ?_, fun k hk => ?_⟩
  · rw [hlen]
    simp [ComponentManager.new]
  · rw [hidx k k (List.getElem?_range hk)]
    simp [ComponentManager.new]

/-- C13, evaluated: `RegisterComponent` has no check against `MAX_COMPONENTS`. Once
the 32 types named 0 to 31 are registered, registering the further type 32 does not
fail: the call returns, 33 types are registered, and the type index handed out for
the new type, returned by `GetComponentType`, is 32, which is not below
`MAX_COMPONENTS`. -/
theorem C13_registration_beyond_capacity :
    ComponentManager.registerAll (List.range 32) ComponentManager.new =
      some (ComponentManager.afterRegistering (List.range 32) : ComponentManager Nat) ∧
    (ComponentManager.afterRegistering (List.range 32) :
      ComponentManager Nat).m_ComponentTypes.length = MAX_COMPONENTS ∧
    (ComponentManager.afterRegistering (List.range 32) : ComponentManager Nat).RegisterComponent
        32 =
      .ok () (ComponentManager.afterRegistering (List.range 33)) ∧
    (ComponentManager.afterRegistering (List.range 33) :
      ComponentManager Nat).m_ComponentTypes.length = 33 ∧
    (ComponentManager.afterRegistering (List.range 33) : ComponentManager Nat).GetComponentType
        32 =
      .ok 32 (ComponentManager.afterRegistering (List.range 33)) ∧
    ¬ (32 < MAX_COMPONENTS) := by
  refine ⟨(ComponentManager.registerAll_range 32).1, (ComponentManager.registerAll_range 32).2.1,
    by rfl, (ComponentManager.registerAll_range 33).2.1,
    ComponentManager.getComponentType_of_find
      ((ComponentManager.registerAll_range 33).2.2 32 (by decide)), by decide⟩

/-- C14, evaluated: the type index is an 8-bit counter that nothing stops. When the
257 types named 0 to 256 are registered one after the other, every call returns; the
type registered first (position 0) has index 0, the type at position 255 has index
255, and the type at position 256 is given index 0 again, not 256: two registered
types share an index, and the indices are not increasing in registration order. -/
theorem C14_type_index_wraps :
    ComponentManager.registerAll (List.range 257) ComponentManager.new =
      some (ComponentManager.afterRegistering (List.range 257) : ComponentManager Nat) ∧
    (ComponentManager.afterRegistering (List.range 257) :
      ComponentManager Nat).m_ComponentTypes.length = 257 ∧
    (ComponentManager.afterRegistering (List.range 257) : ComponentManager Nat).GetComponentType
        0 =
      .ok 0 (ComponentManager.afterRegistering (List.range 257)) ∧
    (ComponentManager.afterRegistering (List.range 257) : ComponentManager Nat).GetComponentType
        255 =
      .ok 255 (ComponentManager.afterRegistering (List.range 257)) ∧
    (ComponentManager.afterRegistering (List.range 257) : ComponentManager Nat).GetComponentType
        256 =
      .ok 0 (ComponentManager.afterRegistering (List.range 257)) := by
  refine ⟨(ComponentManager.registerAll_range 257).1, (ComponentManager.registerAll_range 257).2.1,
    ComponentManager.getComponentType_of_find
      ((ComponentManager.registerAll_range 257).2.2 0 (by decide)),
    ComponentManager.getComponentType_of_find
      ((ComponentManager.registerAll_range 257).2.2 255 (by decide)),
    ComponentManager.getComponentType_of_find
      ((ComponentManager.registerAll_range 257).2.2 256 (by decide))⟩

/-! ## Bounds of the dense array (C19) -/

/-- A well-formed array whose entities are all below `MAX_ENTITIES` and that holds no
value for some id below `MAX_ENTITIES` is not full: its entities are `m_Size`
distinct ids among the other `MAX_ENTITIES - 1`. -/
theorem ComponentArray.size_lt_of_absent {T : Type} {a : ComponentArray T} (hwf : a.WF)
    (hin : a.InRange) {e : Entity} (he : e < MAX_ENTITIES)
    (habs : a.m_EntityToIndexMap e = none) : a.m_Size < MAX_ENTITIES := by
  have hslot : ∀ i, i < a.m_Size → ∃ el, a.m_IndexToEntityMap i = some el ∧
      a.m_EntityToIndexMap el = some i := by
    intro i hi
    have hsome := (hwf.2.2 i).mpr hi
    cases hel : a.m_IndexToEntityMap i with
    | none => rw [hel] at hsome; cases hsome
    | some el => exact ⟨el, rfl, (hwf.2.1 el i).mpr hel⟩
  have hcard := Finset.card_le_card_of_injOn (s := Finset.range a.m_Size)
    (t := (Finset.range MAX_ENTITIES).erase e) (fun i => (a.m_IndexToEntityMap i).getD 0)
    (by
      intro i hi
      obtain ⟨el, hel, hidx⟩ := hslot i (Finset.mem_range.mp hi)
      simp only [hel, Option.getD_some]
      refine Finset.mem_erase.mpr ⟨fun h => ?_, Finset.mem_range.mpr
        (hin el (ComponentArray.has_eq_true.mpr ⟨i, hidx⟩))⟩
      rw [h, habs] at hidx
      cases hidx)
    (by
      intro i hi j hj hij
      obtain ⟨el, hel, hidx⟩ := hslot i (Finset.mem_range.mp (Finset.mem_coe.mp hi))
      obtain ⟨el', hel', hidx'⟩ := hslot j (Finset.mem_range.mp (Finset.mem_coe.mp hj))
      simp only [hel, hel', Option.getD_some] at hij
      rw [hij, hidx'] at hidx
      injection hidx with hidx
      exact hidx.symm)
  rw [Finset.card_range, Finset.card_erase_of_mem (Finset.mem_range.mpr he),
    Finset.card_range] at hcard
  rw [MAX_ENTITIES_eq] at hcard ⊢
  omega

/-- One call on a well-formed array with entities in range, the call not being an
`InsertData` for an id out of range: the behaviour is defined and the array stays
well-formed with entities in range. -/
theorem ComponentArray.safe_call {T : Type} {a : ComponentArray T} (hwf : a.WF)
    (hin : a.InRange) (op : ArrayOp T)
    (hop : ∀ e v, op = .InsertData e v → e < MAX_ENTITIES) :
    ∃ a', (a.call op).state = some a' ∧ a'.WF ∧ a'.InRange := by
  cases op with
  | InsertData e v =>
    have he := hop e v rfl
    cases hidx : a.m_EntityToIndexMap e with
    | some i =>
      refine ⟨a, ?_, hwf, hin⟩
      show (a.InsertData e v).state = some a
      rw [ComponentArray.insertData_of_present v (ComponentArray.has_eq_true.mpr ⟨i, hidx⟩)]
      rfl
    | none =>
      have h := ComponentArray.insertData_of_absent v hidx
        (ComponentArray.size_lt_of_absent hwf hin he hidx)
      refine ⟨_, ?_, ComponentArray.WF_insertData hwf h, fun e' h' => ?_⟩
      · show (a.InsertData e v).state = some _
        rw [h]
        rfl
      · rw [ComponentArray.insertData_has h] at h'
        by_cases hee : e' = e
        · rw [hee]
          exact he
        · rw [if_neg hee] at h'
          exact hin e' h'
  | RemoveData e =>
    cases hidx : a.m_EntityToIndexMap e with
    | none =>
      refine ⟨a, ?_, hwf, hin⟩
      show (a.RemoveData e).state = some a
      rw [ComponentArray.removeData_of_absent hidx]
      rfl
    | some i =>
      obtain ⟨a', h⟩ := ComponentArray.removeData_of_index hwf hidx
      refine ⟨a', ?_, ComponentArray.WF_removeData hwf h, fun e' h' => ?_⟩
      · show (a.RemoveData e).state = some a'
        rw [h]
        rfl
      · rw [ComponentArray.removeData_has hwf h] at h'
        by_cases hee : e' = e
        · rw [if_pos hee] at h'
          cases h'
        · rw [if_neg hee] at h'
          exact hin e' h'
  | EntityDestroyed e =>
    obtain ⟨a', h, hwf', hhas⟩ := ComponentArray.entityDestroyed_spec hwf e
    refine ⟨a', ?_, hwf', fun e' h' => ?_⟩
    · show (a.EntityDestroyed e).state = some a'
      rw [h]
      rfl
    · rw [hhas e'] at h'
      by_cases hee : e' = e
      · rw [if_pos hee] at h'
        cases h'
      · rw [if_neg hee] at h'
        exact hin e' h'

theorem ComponentArray.safe_run {T : Type} (ops : List (ArrayOp T)) :
    ∀ {a : ComponentArray T}, a.WF → a.InRange →
      (∀ e v, ArrayOp.InsertData e v ∈ ops → e < MAX_ENTITIES) →
      ∃ a', ComponentArray.run ops a = some a' ∧ a'.WF ∧ a'.InRange := by
  induction ops with
  | nil => exact fun hwf hin _ => ⟨_, rfl, hwf, hin⟩
  | cons op ops ih =>
    intro a hwf hin hops
    obtain ⟨a1, h1, hwf1, hin1⟩ := ComponentArray.safe_call hwf hin op
      (fun e v h => hops e v (h ▸ List.mem_cons_self _ _))
    obtain ⟨a', h', hwf', hin'⟩ := ih hwf1 hin1
      (fun e v h => hops e v (List.mem_cons_of_mem _ h))
    refine ⟨a', ?_, hwf', hin'⟩
    simp only [ComponentArray.run, h1]
    exact h'

/-- C19: take any sequence of `InsertData`, `RemoveData` and `EntityDestroyed` calls
on one array, starting from the empty array, in which every entity id passed to
`InsertData` is below `MAX_ENTITIES`. After every initial part of the sequence the
behaviour of every call made so far was defined (each buffer access was inside the
buffer), the size is at most `MAX_ENTITIES`, every slot index stored for an entity is
below the size and so inside `[0, MAX_ENTITIES)`, and on the array reached: an
`InsertData` for an id below `MAX_ENTITIES` that passes the duplicate check finds
`m_Size < MAX_ENTITIES`, a `RemoveData` that passes the not-found check finds
`m_Size > 0` and reads and writes slots below `MAX_ENTITIES`, and `GetData`,
`RemoveData`, `EntityDestroyed`, and `InsertData` for an id below `MAX_ENTITIES`, have
defined behaviour. -/
theorem C19_bounds_safety {T : Type} [Inhabited T] (ops : List (ArrayOp T))
    (h : ∀ e v, ArrayOp.InsertData e v ∈ ops → e < MAX_ENTITIES)
    (pre : List (ArrayOp T)) (hpre : pre <+: ops) :
    ∃ a, ComponentArray.run pre ComponentArray.new = some a ∧
      a.m_Size ≤ MAX_ENTITIES ∧
      (∀ e i, a.m_EntityToIndexMap e = some i → i < a.m_Size ∧ i < MAX_ENTITIES) ∧
      (∀ e, e < MAX_ENTITIES → a.m_EntityToIndexMap e = none → a.m_Size < MAX_ENTITIES) ∧
      (∀ e i, a.m_EntityToIndexMap e = some i →
        0 < a.m_Size ∧ (a.m_Size + 2 ^ 64 - 1) % 2 ^ 64 = a.m_Size - 1 ∧
          a.m_Size - 1 < MAX_ENTITIES) ∧
      (∀ e, a.GetData e ≠ .undefined ∧ a.RemoveData e ≠ .undefined ∧
        a.EntityDestroyed e ≠ .undefined) ∧
      (∀ e v, e < MAX_ENTITIES → a.InsertData e v ≠ .undefined) := by
  obtain ⟨a, hrun, hwf, hin⟩ := ComponentArray.safe_run pre ComponentArray.WF_new
    (fun e he => by cases he) (fun e v hmem => h e v (hpre.subset hmem))
  have hidx : ∀ e i, a.m_EntityToIndexMap e = some i → i < a.m_Size ∧ i < MAX_ENTITIES :=
    fun e i hi => ⟨hwf.index_lt hi, Nat.lt_of_lt_of_le (hwf.index_lt hi) hwf.1⟩
  have hdef : ∀ (op : ArrayOp T), (∀ e v, op = .InsertData e v → e < MAX_ENTITIES) →
      a.call op ≠ .undefined := by
    intro op hop hundef
    obtain ⟨a', h', _⟩ := ComponentArray.safe_call hwf hin op hop
    rw [hundef] at h'
    cases h'
  refine ⟨a, hrun, hwf.1, hidx, fun e he habs => ComponentArray.size_lt_of_absent hwf hin he habs,
    fun e i hi => ?_, fun e => ⟨?_, hdef (.RemoveData e) (fun _ _ hop => by cases hop),
      hdef (.EntityDestroyed e) (fun _ _ hop => by cases hop)⟩,
    fun e v he => hdef (.InsertData e v) (fun e' v' hop => by cases hop; exact he)⟩
  · have hlast := hwf.last hi
    have hlt := hwf.index_lt hi
    exact ⟨by omega, hlast.1, hlast.2.2.1⟩
  · cases hi : a.m_EntityToIndexMap e with
    | none => rw [ComponentArray.getData_of_absent hi]; exact fun h => by cases h
    | some i =>
      rw [ComponentArray.getData_of_index hi (hidx e i hi).2]
      exact fun h => by cases h

set_option maxRecDepth 10000 in
/-- Witness for C19: two insertions, a removal, a failed removal, a duplicate
insertion and a destruction, all with ids below `MAX_ENTITIES`, leave an array of
size 0. -/
theorem C19_bounds_safety_witness :
    (∀ e v, ArrayOp.InsertData e v ∈
        [ArrayOp.InsertData 3 (10 : Nat), .InsertData 4999 20, .RemoveData 3, .RemoveData 8,
          .InsertData 4999 30, .EntityDestroyed 4999] → e < MAX_ENTITIES) ∧
    ∃ a, ComponentArray.run
        [ArrayOp.InsertData 3 (10 : Nat), .InsertData 4999 20, .RemoveData 3, .RemoveData 8,
          .InsertData 4999 30, .EntityDestroyed 4999] ComponentArray.new = some a ∧
      a.m_Size ≤ MAX_ENTITIES ∧
      (∀ e i, a.m_EntityToIndexMap e = some i → i < a.m_Size ∧ i < MAX_ENTITIES) ∧
      (∀ e, e < MAX_ENTITIES → a.m_EntityToIndexMap e = none → a.m_Size < MAX_ENTITIES) ∧
      (∀ e i, a.m_EntityToIndexMap e = some i →
        0 < a.m_Size ∧ (a.m_Size + 2 ^ 64 - 1) % 2 ^ 64 = a.m_Size - 1 ∧
          a.m_Size - 1 < MAX_ENTITIES) ∧
      (∀ e, a.GetData e ≠ .undefined ∧ a.RemoveData e ≠ .undefined ∧
        a.EntityDestroyed e ≠ .undefined) ∧
      (∀ e v, e < MAX_ENTITIES → a.InsertData e v ≠ .undefined) :=
  ⟨fun e v hmem => by
      simp only [List.mem_cons, ArrayOp.InsertData.injEq, reduceCtorEq, List.not_mem_nil,
        or_false, false_or] at hmem
      rcases hmem with ⟨rfl, _⟩ | ⟨rfl, _⟩ | ⟨rfl, _⟩ <;> decide,
    C19_bounds_safety _
      (fun e v hmem => by
        simp only [List.mem_cons, ArrayOp.InsertData.injEq, reduceCtorEq, List.not_mem_nil,
          or_false, false_or] at hmem
        rcases hmem with ⟨rfl, _⟩ | ⟨rfl, _⟩ | ⟨rfl, _⟩ <;> decide)
      _ (List.prefix_refl _)⟩

/-! ## The routing invariant under the usual set-up order (C18) -/

theorem Coordinator.run_concat {V : Type} [Inhabited V] (l1 l2 : List (Op V)) :
    ∀ (c : Coordinator V),
      Coordinator.run (l1 ++ l2) c = (Coordinator.run l1 c).bind (Coordinator.run l2) := by
  induction l1 with
  | nil => exact fun c => rfl
  | cons op l1 ih =>
    intro c
    simp only [List.cons_append, Coordinator.run]
    cases c.call op with
    | none => rfl
    | some c1 => exact ih c1

theorem Coordinator.destroyEntity_throw_state {V : Type} {c s : Coordinator V} {e : Entity} {x : Exn}
    (h : c.DestroyEntity e = .throw x s) : s = c := by
  by_cases he : e < MAX_ENTITIES
  · unfold Coordinator.DestroyEntity at h
    rw [EntityManager.destroyEntity_lt he] at h
    unfold ComponentManager.EntityDestroyed at h
    cases hl : ComponentManager.destroyedLoop e c.m_ComponentManager.m_ComponentArrays with
    | none => rw [hl] at h; cases h
    | some arrays => rw [hl] at h; cases h
  · rw [Coordinator.destroyEntity_of_ge c (Nat.le_of_not_lt he)] at h
    injection h with _ h
    exact h.symm

/-- A call that leaves the systems and the signatures alone keeps the routing. -/
theorem Coordinator.Routed.of_same {V : Type} {c c' : Coordinator V}
    {Q : TypeName → Signature → Prop} (hr : c.Routed Q)
    (hsm : c'.m_SystemManager = c.m_SystemManager)
    (hsig : c'.m_EntityManager.m_Signatures = c.m_EntityManager.m_Signatures) : c'.Routed Q := by
  intro k T hT
  have h := hr k T (by simpa only [Coordinator.tracked, hsm] using hT)
  simpa only [Coordinator.required, Coordinator.signature, hsm, hsig] using h

/-- A signature change of an entity in range, notified to the systems, keeps the
routing. -/
theorem Coordinator.Routed.changed {V : Type} {c c' : Coordinator V}
    {Q : TypeName → Signature → Prop} (hr : c.Routed Q) {e0 : Entity} {s : Signature}
    (he0 : e0 < MAX_ENTITIES)
    (hsm : c'.m_SystemManager = c.m_SystemManager.EntitySignatureChanged e0 s)
    (hsig : c'.m_EntityManager.m_Signatures =
      Function.update c.m_EntityManager.m_Signatures e0 s) : c'.Routed Q := by
  intro k T hT
  obtain ⟨hreq, htr⟩ := Coordinator.tracked_changed hsm k
  rw [htr] at hT
  cases hT0 : c.tracked k with
  | none => rw [hT0] at hT; cases hT
  | some T0 =>
    obtain ⟨hne, hQ, hmem⟩ := hr k T0 hT0
    rw [hT0] at hT
    simp only [Option.map_some', Option.some.injEq] at hT
    rw [hreq]
    refine ⟨hne, hQ, fun e => ?_⟩
    have hsige : c'.signature e = if e = e0 then s else c.signature e := by
      simp only [Coordinator.signature, hsig, Function.update_apply]
    rw [hsige, ← hT]
    by_cases hee : e = e0
    · subst hee
      rw [if_pos rfl]
      by_cases hc : s &&& c.required k = c.required k
      · simp [hc, he0]
      · simp [hc]
    · rw [if_neg hee]
      by_cases hc : s &&& c.required k = c.required k
      · simp only [hc, if_true, Finset.mem_insert, hee, false_or]
        exact hmem e
      · simp only [hc, if_false, Finset.mem_erase, ne_eq, hee, not_false_eq_true, true_and]
        exact hmem e

/-- The destruction of an entity, notified to the systems, keeps the routing: the
signature of the entity becomes empty, and no required signature is empty. -/
theorem Coordinator.Routed.destroyed {V : Type} {c c' : Coordinator V}
    {Q : TypeName → Signature → Prop} (hr : c.Routed Q) {e0 : Entity}
    (hsm : c'.m_SystemManager = c.m_SystemManager.EntityDestroyed e0)
    (hsig : c'.m_EntityManager.m_Signatures =
      Function.update c.m_EntityManager.m_Signatures e0 0) : c'.Routed Q := by
  intro k T hT
  obtain ⟨hreq, htr⟩ := Coordinator.tracked_destroyed hsm k
  rw [htr] at hT
  cases hT0 : c.tracked k with
  | none => rw [hT0] at hT; cases hT
  | some T0 =>
    obtain ⟨hne, hQ, hmem⟩ := hr k T0 hT0
    rw [hT0] at hT
    simp only [Option.map_some', Option.some.injEq] at hT
    rw [hreq]
    refine ⟨hne, hQ, fun e => ?_⟩
    have hsige : c'.signature e = if e = e0 then 0 else c.signature e := by
      simp only [Coordinator.signature, hsig, Function.update_apply]
    rw [hsige, ← hT]
    by_cases hee : e = e0
    · subst hee
      rw [if_pos rfl]
      have hz : ¬ (0 &&& c.required k = c.required k) := by
        rw [Nat.zero_and]
        exact fun h => hne h.symm
      simp only [Finset.mem_erase, ne_eq, not_true_eq_false, false_and, false_iff, not_and]
      exact fun _ => hz
    · rw [if_neg hee]
      simp only [Finset.mem_erase, ne_eq, hee, not_false_eq_true, true_and]
      exact hmem e

theorem Coordinator.Routed.after_update {V : Type} {c c' : Coordinator V}
    {Q : TypeName → Signature → Prop} (hr : c.Routed Q) {cm : ComponentManager V}
    {typeName : TypeName} {e0 : Entity} {value : Bool}
    (h : (c.updateSignature cm typeName e0 value).state = some c') : c'.Routed Q := by
  cases hu : c.updateSignature cm typeName e0 value with
  | undefined => rw [hu] at h; cases h
  | throw x s =>
    rw [hu] at h
    injection h with h
    subst h
    rw [(Coordinator.updateSignature_throw hu).1]
    exact hr.of_same rfl rfl
  | ok u s =>
    rw [hu] at h
    injection h with h
    subst h
    obtain ⟨he0, i, sig, _, _, hs⟩ := Coordinator.updateSignature_ok hu
    rw [hs]
    exact hr.changed he0 rfl rfl

/-- Every call other than `RegisterSystem` and `SetSystemSignature`, returned or
thrown, keeps the routing. -/
theorem Coordinator.Routed.after_entity_call {V : Type} [Inhabited V] {c c' : Coordinator V}
    {Q : TypeName → Signature → Prop} (hr : c.Routed Q) (op : Op V)
    (hop : op.isSystemCall = false) (h : c.call op = some c') : c'.Routed Q := by
  cases op with
  | RegisterComponent n =>
    rcases Coordinator.registerComponent_state h with h | ⟨cm, _, h⟩
    · rw [h]; exact hr
    · rw [h]; exact hr.of_same rfl rfl
  | CreateEntity =>
    obtain ⟨_, h2, h3⟩ := Coordinator.createEntity_state h
    exact hr.of_same h2 h3
  | DestroyEntity e0 =>
    have hc : c.call (.DestroyEntity e0) = (c.DestroyEntity e0).state := rfl
    rw [hc] at h
    cases hd : c.DestroyEntity e0 with
    | undefined => rw [hd] at h; cases h
    | throw x s =>
      rw [hd] at h
      injection h with h
      rw [← h, Coordinator.destroyEntity_throw_state hd]
      exact hr
    | ok u s =>
      rw [hd] at h
      injection h with h
      subst h
      obtain ⟨_, hsm, hsig, _⟩ := Coordinator.destroyEntity_ok hd
      exact hr.destroyed hsm hsig
  | AddComponent n e0 v =>
    rcases Coordinator.addComponent_state h with h | ⟨cm, _, hu⟩
    · rw [h]; exact hr
    · exact hr.after_update hu
  | RemoveComponent n e0 =>
    rcases Coordinator.removeComponent_state h with h | ⟨cm, _, hu⟩
    · rw [h]; exact hr
    · exact hr.after_update hu
  | RegisterSystem n => cases hop
  | SetSystemSignature n s => cases hop

theorem Coordinator.Routed.after_entity_calls {V : Type} [Inhabited V]
    {Q : TypeName → Signature → Prop} (ops : List (Op V)) :
    ∀ {c c' : Coordinator V}, c.Routed Q → (∀ op ∈ ops, op.isSystemCall = false) →
      Coordinator.run ops c = some c' → c'.Routed Q := by
  induction ops with
  | nil =>
    intro c c' hr _ h
    injection h with h
    rw [← h]
    exact hr
  | cons op ops ih =>
    intro c c' hr hops h
    simp only [Coordinator.run] at h
    cases hc : c.call op with
    | none => rw [hc] at h; cases h
    | some c1 =>
      rw [hc] at h
      exact ih (hr.after_entity_call op (hops op (List.mem_cons_self _ _)) hc)
        (fun o ho => hops o (List.mem_cons_of_mem _ ho)) h

theorem Op.addsTo_of_not_add {V : Type} (e : Entity) (op : Op V)
    (h : ∀ n e0 v, op ≠ .AddComponent n e0 v) : op.addsTo e = false := by
  cases op with
  | AddComponent n e0 v => exact absurd rfl (h n e0 v)
  | RegisterComponent n => rfl
  | CreateEntity => rfl
  | DestroyEntity e0 => rfl
  | RemoveComponent n e0 => rfl
  | RegisterSystem n => rfl
  | SetSystemSignature n s => rfl

/-- A call that returns with the systems as they were keeps the set-up state,
provided it is not an `AddComponent`. -/
theorem Coordinator.SetUp.same_systems {V : Type} [Inhabited V] {c c' : Coordinator V}
    {registered given : List TypeName} {Q : TypeName → Signature → Prop}
    (hs : c.SetUp registered given Q) (op : Op V) (hop : ∀ n e0 v, op ≠ .AddComponent n e0 v)
    (h : c.call op = some c') (hsm : c'.m_SystemManager = c.m_SystemManager) :
    c'.SetUp registered given Q := by
  obtain ⟨hwf, hclean, h3, h4, h5, h6⟩ := hs
  refine ⟨Coordinator.WF_call hwf op h,
    fun e => Coordinator.clean_call hwf (hclean e) op (Op.addsTo_of_not_add e op hop) h, ?_⟩
  rw [hsm]
  exact ⟨h3, h4, h5, h6⟩

/-- During set-up no entity holds a component, so `RemoveComponent` changes nothing. -/
theorem Coordinator.removeComponent_of_clean {V : Type} {c c' : Coordinator V}
    {typeName : TypeName} {e : Entity} (hclean : c.holds typeName e = false)
    (h : (c.RemoveComponent typeName e).state = some c') : c' = c := by
  rcases Coordinator.removeComponent_state h with h | ⟨cm, hcm, _⟩
  · exact h
  · obtain ⟨a, a', _, ha, hrem, _⟩ := ComponentManager.remove_ok hcm
    obtain ⟨i, hi, _⟩ := ComponentArray.removeData_ok hrem
    rw [Coordinator.holds_of_find ha, ComponentArray.has_eq_false, hi] at hclean
    cases hclean

/-- One call of the set-up keeps the set-up state, with the lists of registered
systems and of systems given a signature extended as the check extends them. -/
theorem Coordinator.SetUp.after_setup_call {V : Type} [Inhabited V] {c c' : Coordinator V}
    {registered given : List TypeName} {Q : TypeName → Signature → Prop}
    (hs : c.SetUp registered given Q) (op : Op V) (ops : List (Op V))
    (hQ : ∀ k s, op = .SetSystemSignature k s → Q k s)
    (hcheck : Op.usualSetUp (op :: ops) registered given = true)
    (h : c.call op = some c') :
    ∃ registered' given', c'.SetUp registered' given' Q ∧
      Op.usualSetUp ops registered' given' = true := by
  cases op with
  | AddComponent n e0 v => simp [Op.usualSetUp] at hcheck
  | RegisterComponent n =>
    refine ⟨registered, given, hs.same_systems _ (fun _ _ _ hc => by cases hc) h ?_, hcheck⟩
    rcases Coordinator.registerComponent_state h with h | ⟨cm, _, h⟩
    · rw [h]
    · rw [h]
  | CreateEntity =>
    exact ⟨registered, given, hs.same_systems _ (fun _ _ _ hc => by cases hc) h
      (Coordinator.createEntity_state h).2.1, hcheck⟩
  | RemoveComponent n e0 =>
    have := Coordinator.removeComponent_of_clean ((hs.2.1 e0).2 n) h
    rw [this]
    exact ⟨registered, given, hs, hcheck⟩
  | DestroyEntity e0 =>
    refine ⟨registered, given, ?_, hcheck⟩
    have hc : (c.DestroyEntity e0).state = some c' := h
    cases hd : c.DestroyEntity e0 with
    | undefined => rw [hd] at hc; cases hc
    | throw x s =>
      rw [hd] at hc
      injection hc with hc
      rw [← hc, Coordinator.destroyEntity_throw_state hd]
      exact hs
    | ok u s =>
      rw [hd] at hc
      injection hc with hc
      subst hc
      obtain ⟨_, hsm, _, _⟩ := Coordinator.destroyEntity_ok hd
      obtain ⟨hwf, hclean, h3, h4, h5, h6⟩ := hs
      refine ⟨Coordinator.WF_call hwf _ h,
        fun e => Coordinator.clean_call hwf (hclean e) (.DestroyEntity e0) rfl h, ?_⟩
      rw [hsm]
      refine ⟨fun k => ?_, fun k system hk => ?_, h5, h6⟩
      · rw [SystemManager.entityDestroyed_systems, Option.isSome_map']
        exact h3 k
      · rw [SystemManager.entityDestroyed_systems] at hk
        cases hf : Map.find c.m_SystemManager.m_Systems k with
        | none => rw [hf] at hk; cases hk
        | some system0 =>
          rw [hf] at hk
          simp only [Option.map_some', Option.some.injEq] at hk
          rw [← hk, h4 k system0 hf]
          rfl
  | RegisterSystem n =>
    refine ⟨n :: registered, given, ?_, hcheck⟩
    have hc : (c.RegisterSystem n).state = some c' := h
    obtain ⟨hwf, hclean, h3, h4, h5, h6⟩ := hs
    refine ⟨Coordinator.WF_call hwf _ h,
      fun e => Coordinator.clean_call hwf (hclean e) (.RegisterSystem n) rfl h, ?_⟩
    unfold Coordinator.RegisterSystem SystemManager.RegisterSystem at hc
    cases hf : Map.find c.m_SystemManager.m_Systems n with
    | some system0 =>
      rw [hf] at hc
      simp only [Res.state, Option.some.injEq] at hc
      rw [← hc]
      refine ⟨fun k => ?_, h4, h5, h6⟩
      rw [List.mem_cons, ← h3 k]
      constructor
      · exact fun hk => Or.inr hk
      · rintro (hk | hk)
        · rw [hk, hf]
          rfl
        · exact hk
    | none =>
      rw [hf] at hc
      simp only [Res.state, Option.some.injEq] at hc
      rw [← hc]
      refine ⟨fun k => ?_, fun k system hk => ?_, h5, h6⟩
      · show (Map.find (Map.insert c.m_SystemManager.m_Systems n ⟨∅⟩) k).isSome = true ↔ _
        rw [Map.find_insert_of_none hf, List.mem_cons, ← h3 k]
        by_cases hk : k = n
        · simp [hk]
        · simp [hk]
      · have hk' : Map.find (Map.insert c.m_SystemManager.m_Systems n ⟨∅⟩) k = some system := hk
        rw [Map.find_insert_of_none hf] at hk'
        by_cases hkn : k = n
        · rw [if_pos hkn] at hk'
          injection hk' with hk'
          rw [← hk']
        · rw [if_neg hkn] at hk'
          exact h4 k system hk'
  | SetSystemSignature n s =>
    have hc : (c.SetSystemSignature n s).state = some c' := h
    obtain ⟨hwf, hclean, h3, h4, h5, h6⟩ := hs
    unfold Coordinator.SetSystemSignature SystemManager.SetSignature at hc
    cases hf : Map.find c.m_SystemManager.m_Systems n with
    | none =>
      have hn : n ∉ registered := by
        rw [← h3 n, hf]
        simp
      simp only [Op.usualSetUp, hn, if_false] at hcheck
      rw [hf] at hc
      simp only [Res.state, Option.some.injEq] at hc
      rw [← hc]
      exact ⟨registered, given, ⟨hwf, hclean, h3, h4, h5, h6⟩, hcheck⟩
    | some system0 =>
      have hn : n ∈ registered := by
        rw [← h3 n, hf]
        rfl
      simp only [Op.usualSetUp, hn, if_true, Bool.and_eq_true, decide_eq_true_eq] at hcheck
      obtain ⟨⟨hgiven, hs0⟩, hcheck⟩ := hcheck
      have hnone : Map.find c.m_SystemManager.m_Signatures n = none := by
        cases hsig : Map.find c.m_SystemManager.m_Signatures n with
        | none => rfl
        | some s0 =>
          exact absurd ((h5 n).mp (by rw [hsig]; rfl)) hgiven
      rw [hf] at hc
      simp only [Res.state, Option.some.injEq] at hc
      rw [← hc]
      refine ⟨registered, n :: given, ⟨hwf, hclean, h3, h4, fun k => ?_, fun k s1 hk => ?_⟩, hcheck⟩
      · show (Map.find (Map.insert c.m_SystemManager.m_Signatures n s) k).isSome = true ↔ _
        rw [Map.find_insert_of_none hnone, List.mem_cons, ← h5 k]
        by_cases hk : k = n
        · simp [hk]
        · simp [hk]
      · have hk' : Map.find (Map.insert c.m_SystemManager.m_Signatures n s) k = some s1 := hk
        rw [Map.find_insert_of_none hnone] at hk'
        by_cases hkn : k = n
        · rw [if_pos hkn] at hk'
          injection hk' with hk'
          rw [← hk', hkn]
          exact ⟨hs0, hQ n s rfl⟩
        · rw [if_neg hkn] at hk'
          exact h6 k s1 hk'

theorem Coordinator.SetUp.after_setup_calls {V : Type} [Inhabited V] {Q : TypeName → Signature → Prop}
    (ops : List (Op V)) :
    ∀ {c c' : Coordinator V} {registered given : List TypeName},
      c.SetUp registered given Q → (∀ k s, Op.SetSystemSignature k s ∈ ops → Q k s) →
      Op.usualSetUp ops registered given = true → Coordinator.run ops c = some c' →
      ∃ registered' given', c'.SetUp registered' given' Q ∧ ∀ k ∈ registered', k ∈ given' := by
  induction ops with
  | nil =>
    intro c c' registered given hs _ hcheck h
    injection h with h
    rw [← h]
    refine ⟨registered, given, hs, fun k hk => ?_⟩
    simp only [Op.usualSetUp, List.all_eq_true, decide_eq_true_eq] at hcheck
    exact hcheck k hk
  | cons op ops ih =>
    intro c c' registered given hs hQ hcheck h
    simp only [Coordinator.run] at h
    cases hc : c.call op with
    | none => rw [hc] at h; cases h
    | some c1 =>
      rw [hc] at h
      obtain ⟨registered1, given1, hs1, hcheck1⟩ := hs.after_setup_call op ops
        (fun k s hop => hQ k s (hop ▸ List.mem_cons_self _ _)) hcheck hc
      exact ih hs1 (fun k s hm => hQ k s (List.mem_cons_of_mem _ hm)) hcheck1 h

/-- When the set-up is complete the routing invariant holds: nothing is tracked and
no signature matches a non-empty required signature. -/
theorem Coordinator.SetUp.routed {V : Type} {c : Coordinator V}
    {registered given : List TypeName} {Q : TypeName → Signature → Prop}
    (hs : c.SetUp registered given Q) (hall : ∀ k ∈ registered, k ∈ given) : c.Routed Q := by
  obtain ⟨_, hclean, h3, h4, h5, h6⟩ := hs
  intro k T hT
  unfold Coordinator.tracked at hT
  cases hf : Map.find c.m_SystemManager.m_Systems k with
  | none => rw [hf] at hT; cases hT
  | some system =>
    rw [hf] at hT
    simp only [Option.map_some', Option.some.injEq] at hT
    have hk : k ∈ given := hall k ((h3 k).mp (by rw [hf]; rfl))
    cases hsig : Map.find c.m_SystemManager.m_Signatures k with
    | none =>
      have := (h5 k).mpr hk
      rw [hsig] at this
      cases this
    | some s =>
      obtain ⟨hs0, hQs⟩ := h6 k s hsig
      have hreq : c.required k = s := by
        unfold Coordinator.required
        rw [hsig]
        rfl
      rw [hreq, ← hT, h4 k system hf]
      refine ⟨hs0, hQs, fun e => ?_⟩
      rw [(hclean e).1, Nat.zero_and]
      simp only [Finset.not_mem_empty, false_iff, not_and]
      exact fun _ h => hs0 h.symm

theorem Coordinator.SetUp_Init {V : Type} (Q : TypeName → Signature → Prop) :
    (Coordinator.Init : Coordinator V).SetUp [] [] Q := by
  refine ⟨Coordinator.WF_Init, fun _ => ⟨rfl, fun _ => rfl⟩, fun k => ?_, fun _ _ h => ?_,
    fun k => ?_, fun _ _ h => ?_⟩
  · simp [Coordinator.Init, SystemManager.new, Map.find]
  · cases h
  · simp [Coordinator.Init, SystemManager.new, Map.find]
  · cases h

/-- C18: on a freshly initialised coordinator, let a set-up sequence of calls in the
usual order (no `AddComponent`; every system that is registered is afterwards given
a non-empty required signature, once) be followed by any sequence of calls other than
`RegisterSystem` and `SetSystemSignature` (`CreateEntity`, `AddComponent`,
`RemoveComponent`, `DestroyEntity`, also `RegisterComponent`), returned or thrown.
In the state reached, every registered system has as required signature a non-empty
signature given to it in the set-up, and its tracked set is exactly the set of the
entity ids `e < MAX_ENTITIES` with `(signature(e) & required) == required`. -/
theorem C18_routing_after_set_up {V : Type} [Inhabited V] (setup calls : List (Op V))
    (c : Coordinator V)
    (hsetup : Op.usualSetUp setup [] [] = true)
    (hcalls : ∀ op ∈ calls, op.isSystemCall = false)
    (hrun : Coordinator.run (setup ++ calls) Coordinator.Init = some c)
    (k : TypeName) (T : Finset Entity) (hT : c.tracked k = some T) :
    (∃ S, Op.SetSystemSignature k S ∈ setup ∧ S ≠ 0 ∧ c.required k = S) ∧
    ∀ e, e ∈ T ↔ (e < MAX_ENTITIES ∧ c.signature e &&& c.required k = c.required k) := by
  rw [Coordinator.run_concat] at hrun
  cases h0 : Coordinator.run setup Coordinator.Init with
  | none => rw [h0] at hrun; cases hrun
  | some c0 =>
    rw [h0] at hrun
    obtain ⟨registered, given, hs, hall⟩ :=
      Coordinator.SetUp.after_setup_calls setup (Coordinator.SetUp_Init _) (fun k s hm => hm) hsetup h0
    have hr := (hs.routed hall).after_entity_calls calls hcalls hrun
    obtain ⟨hne, hQ, hmem⟩ := hr k T hT
    exact ⟨⟨c.required k, hQ, hne, rfl⟩, hmem⟩

set_option maxRecDepth 100000 in
/-- Witness for C18: a component type (index 0) and a system requiring bit 0 are set
up; then two entities are created, both get the component, and it is removed from
the first again. The system tracks exactly entity 1. -/
theorem C18_routing_after_set_up_witness :
    Op.usualSetUp ([.RegisterComponent 10, .RegisterSystem 20, .SetSystemSignature 20 1] :
      List (Op (List Nat))) [] [] = true ∧
    (∀ op ∈ ([.CreateEntity, .CreateEntity, .AddComponent 10 0 [7], .AddComponent 10 1 [8],
      .RemoveComponent 10 0] : List (Op (List Nat))), op.isSystemCall = false) ∧
    (Coordinator.after ([.RegisterComponent 10, .RegisterSystem 20, .SetSystemSignature 20 1] ++
      [.CreateEntity, .CreateEntity, .AddComponent 10 0 [7], .AddComponent 10 1 [8],
        .RemoveComponent 10 0]) : Coordinator (List Nat)).tracked 20 = some {1} ∧
    ((∃ S, Op.SetSystemSignature 20 S ∈
        ([.RegisterComponent 10, .RegisterSystem 20, .SetSystemSignature 20 1] :
          List (Op (List Nat))) ∧ S ≠ 0 ∧
      (Coordinator.after ([.RegisterComponent 10, .RegisterSystem 20, .SetSystemSignature 20 1] ++
        [.CreateEntity, .CreateEntity, .AddComponent 10 0 [7], .AddComponent 10 1 [8],
          .RemoveComponent 10 0]) : Coordinator (List Nat)).required 20 = S) ∧
    ∀ e, e ∈ ({1} : Finset Entity) ↔
      (e < MAX_ENTITIES ∧
        (Coordinator.after ([.RegisterComponent 10, .RegisterSystem 20, .SetSystemSignature 20 1] ++
          [.CreateEntity, .CreateEntity, .AddComponent 10 0 [7], .AddComponent 10 1 [8],
            .RemoveComponent 10 0]) : Coordinator (List Nat)).signature e &&&
          (Coordinator.after ([.RegisterComponent 10, .RegisterSystem 20,
            .SetSystemSignature 20 1] ++
            [.CreateEntity, .CreateEntity, .AddComponent 10 0 [7], .AddComponent 10 1 [8],
              .RemoveComponent 10 0]) : Coordinator (List Nat)).required 20 =
        (Coordinator.after ([.RegisterComponent 10, .RegisterSystem 20, .SetSystemSignature 20 1] ++
          [.CreateEntity, .CreateEntity, .AddComponent 10 0 [7], .AddComponent 10 1 [8],
            .RemoveComponent 10 0]) : Coordinator (List Nat)).required 20)) :=
  ⟨by rfl, by simp [Op.isSystemCall], by rfl,
    C18_routing_after_set_up [.RegisterComponent 10, .RegisterSystem 20, .SetSystemSignature 20 1]
      [.CreateEntity, .CreateEntity, .AddComponent 10 0 [7], .AddComponent 10 1 [8],
        .RemoveComponent 10 0]
      (Coordinator.after ([.RegisterComponent 10, .RegisterSystem 20, .SetSystemSignature 20 1] ++
        [.CreateEntity, .CreateEntity, .AddComponent 10 0 [7], .AddComponent 10 1 [8],
          .RemoveComponent 10 0]))
      (by rfl) (by simp [Op.isSystemCall]) (by rfl) 20 {1} (by rfl)⟩

end ECS
